import Mathlib

/-!
Verification of the pdqselect repository (Go): a shallow embedding of
`pdqselect.go` over lists of integers, together with theorems settling the
specification claims.  The sequence is modelled as a `List Int` wrapped in a
state record that also tracks, for the safety claims, whether a swap was ever
requested outside `[0, N)` (where Go would panic), how many swaps were
performed, and how many pattern-break invocations happened.

The public entry points (`Select`, `Ordered`, `Func`), the three driver loops
(`pdqselect`, `pdqselectOrdered`, `pdqselectFunc`) and `heapSelect` are
translated directly from `src/pdqselect.go`; `xorshift` and `nextPowerOfTwo`
from the repository's sort-internals file.  The remaining helpers
(`insertionSort`, `partialInsertionSort`, `choosePivot`, `partition`,
`partitionEqual`, `breakPatterns`, `reverseRange`, `siftDown`) are vendored Go
sort internals that are not part of the provided sources; they are modelled
from the specification (sections 4.3-4.7), once, generically over the
comparison capability, as section 9 of the specification prescribes.

Loops are embedded as structurally recursive functions; where the loop
variable is not itself decreasing, an explicit fuel argument bounds the
iteration count and the callers pass an amount that is provably sufficient
(each iteration strictly decreases the corresponding measure), so the fuel
never runs out on the paths the Go code takes.
-/

namespace Pdq

/-- The borrowed mutable sequence together with instrumentation: `bad` records
that some swap was requested with an index outside `[0, N)` (Go panics there;
the model flags it and leaves the data unchanged), `swaps` counts executed
swaps and `breaks` counts pattern-break invocations. -/
structure SSt where
  data : List Int
  bad : Bool
  swaps : Nat
  breaks : Nat
deriving Repr, DecidableEq

/-- Wrap a plain list as an un-instrumented state. -/
def mkS (l : List Int) : SSt := ⟨l, false, 0, 0⟩

/-- data.Len() -/
def SSt.n (s : SSt) : Nat := s.data.length

/-- Read the element at index `i` (indices are always in range on the paths
the algorithm actually takes; out-of-range reads return a junk value). -/
def SSt.get (s : SSt) (i : Nat) : Int := s.data.getD i 0

/-- data.Swap(i, j).  An index outside `[0, N)` would panic in Go; the model
records the violation in `bad` instead. -/
def SSt.swap (s : SSt) (i j : Nat) : SSt :=
  if i < s.n ∧ j < s.n then
    { s with data := (s.data.set i (s.get j)).set j (s.get i), swaps := s.swaps + 1 }
  else
    { s with bad := true }

/-- Exchange positions `i` and `j` of a plain list (used to state frame
properties of the fast paths). -/
def swapL (l : List Int) (i j : Nat) : List Int :=
  (l.set i (l.getD j 0)).set j (l.getD i 0)

/-- The fully sorted copy of a sequence (the specification's `sort(S)`). -/
def sortL (l : List Int) : List Int := l.mergeSort (fun x y => decide (x ≤ y))

/-- The natural strict order on `Int`, i.e. `sort.IntSlice.Less` / `<` on an
ordered element type. -/
def ltInt (x y : Int) : Bool := x < y

/-- `cmp.Compare` for `Int`: the natural three-valued comparator. -/
def cmpInt (x y : Int) : Int := if x < y then -1 else if y < x then 1 else 0

/-- The strict order induced by a three-valued comparator (`cmp(x, y) < 0`). -/
def ltc (c : Int → Int → Int) : Int → Int → Bool := fun x y => c x y < 0

/-- Fuelled helper for `bitsLen` (structural recursion; `fuel = n` always
suffices since the argument at least halves). -/
def bitsLenAux : Nat → Nat → Nat
  | 0, _ => 0
  | fuel + 1, n => if n = 0 then 0 else bitsLenAux fuel (n / 2) + 1

/-- bits.Len (from `math/bits`): number of bits required to represent `n`. -/
def bitsLen (n : Nat) : Nat := bitsLenAux n n

/-- `nextPowerOfTwo` from the repository's sort internals:
`1 << bits.Len(length)`. -/
def nextPowerOfTwo (length : Nat) : Nat := 1 <<< bitsLen length

/-- One step of the repository's xorshift PRNG (64-bit register, shifts
13/17/5), on `Nat` reduced mod `2 ^ 64`. -/
def xnext (r : Nat) : Nat :=
  let r1 := (Nat.xor r (r <<< 13)) % (2 ^ 64)
  let r2 := Nat.xor r1 (r1 >>> 17)
  (Nat.xor r2 (r2 <<< 5)) % (2 ^ 64)

/-- Monotonicity hint emitted by the pivot chooser (sortedHint in the Go
sort internals file). -/
inductive SortedHint where
  | unknown : SortedHint
  | increasing : SortedHint
  | decreasing : SortedHint
deriving Repr, DecidableEq

/-- Modelled from the spec (4.6): inner shift loop of insertion sort - move
the element at `j` left across strictly greater predecessors, stopping at
`a` (structural recursion on `j`). -/
def insShift (lt : Int → Int → Bool) (s : SSt) (a : Nat) : Nat → SSt
  | 0 => s
  | j + 1 =>
    if a < j + 1 ∧ lt (s.get (j + 1)) (s.get j) then
      insShift lt (s.swap (j + 1) j) a j
    else s

/-- Modelled from the spec (4.6): outer loop of insertion sort over `[a, b)`,
`i` running from `a+1` to `b-1` (fuelled; `b - i` iterations remain). -/
def insOuter (lt : Int → Int → Bool) : Nat → SSt → Nat → Nat → Nat → SSt
  | 0, s, _, _, _ => s
  | fuel + 1, s, a, b, i =>
    if i < b then insOuter lt fuel (insShift lt s a i) a b (i + 1) else s

/-- Modelled from the spec (4.6): standard insertion sort over `[a, b)`. -/
def insertionSort (lt : Int → Int → Bool) (s : SSt) (a b : Nat) : SSt :=
  insOuter lt b s a b (a + 1)

/-- Modelled from the spec (4.6): budgeted shift loop of the partial insertion
sort; returns the state, the remaining shift budget and whether the budget was
exhausted mid-shift (structural recursion on `j`). -/
def pShift (lt : Int → Int → Bool) (s : SSt) (a : Nat) : Nat → Nat → SSt × Nat × Bool
  | 0, budget => (s, budget, false)
  | j + 1, budget =>
    if a < j + 1 ∧ lt (s.get (j + 1)) (s.get j) then
      match budget with
      | 0 => (s, 0, true)
      | bud + 1 => pShift lt (s.swap (j + 1) j) a j bud
    else (s, budget, false)

/-- Modelled from the spec (4.6): outer loop of the partial insertion sort;
aborts (returning `false`, without restoring) once the total shift budget is
exceeded. -/
def pInsOuter (lt : Int → Int → Bool) : Nat → SSt → Nat → Nat → Nat → Nat → Bool × SSt
  | 0, s, _, _, _, _ => (true, s)
  | fuel + 1, s, a, b, i, budget =>
    if i < b then
      match pShift lt s a i budget with
      | (s', _, true) => (false, s')
      | (s', bud', false) => pInsOuter lt fuel s' a b (i + 1) bud'
    else (true, s)

/-- Modelled from the spec (4.6): partial insertion sort over `[a, b)` with a
total budget of 8 shift steps; `true` means the range was completely sorted. -/
def pInsSort (lt : Int → Int → Bool) (s : SSt) (a b : Nat) : Bool × SSt :=
  pInsOuter lt b s a b (a + 1) 8

/-- Modelled from the spec (4.3): one compare-swap, ensuring the element at
`p` is not greater than the element at `q`; also reports whether a swap was
performed (the hint is derived from the swap count). -/
def csw (lt : Int → Int → Bool) (s : SSt) (p q : Nat) : SSt × Nat :=
  if lt (s.get q) (s.get p) then (s.swap p q, 1) else (s, 0)

/-- Modelled from the spec (4.3): in-place median of three via the pairwise
compare-swap pattern, leaving the median at the middle position `c`. -/
def med3 (lt : Int → Int → Bool) (s : SSt) (x c y : Nat) : SSt × Nat :=
  let (s1, n1) := csw lt s x c
  let (s2, n2) := csw lt s1 c y
  let (s3, n3) := csw lt s2 x c
  (s3, n1 + n2 + n3)

/-- Modelled from the spec (4.3): the pivot chooser.  For `n < 8` the middle
position with an unknown hint; for `8 <= n < 50` the mutating median of the
three probes `a`, `a+n/2`, `b-1`; for `n >= 50` the ninther over three evenly
spaced triples.  The hint is increasing when no compare-swap fired,
decreasing when all fired, unknown otherwise. -/
def choosePivot (lt : Int → Int → Bool) (s : SSt) (a b : Nat) :
    SSt × Nat × SortedHint :=
  let n := b - a
  if n < 8 then (s, a + n / 2, SortedHint.unknown)
  else if n < 50 then
    let (s1, sw) := med3 lt s a (a + n / 2) (b - 1)
    (s1, a + n / 2,
      if sw = 0 then SortedHint.increasing
      else if sw = 3 then SortedHint.decreasing
      else SortedHint.unknown)
  else
    let q := n / 4
    let c1 := a + q
    let c2 := a + 2 * q
    let c3 := a + 3 * q
    let (s1, w1) := med3 lt s (c1 - 1) c1 (c1 + 1)
    let (s2, w2) := med3 lt s1 (c2 - 1) c2 (c2 + 1)
    let (s3, w3) := med3 lt s2 (c3 - 1) c3 (c3 + 1)
    let (s4, w4) := med3 lt s3 c1 c2 c3
    (s4, c2,
      if w1 + w2 + w3 + w4 = 0 then SortedHint.increasing
      else if w1 + w2 + w3 + w4 = 12 then SortedHint.decreasing
      else SortedHint.unknown)

/-- Modelled from the spec (4.2 step 5): reverse `[a, b)` in place by swapping
from both ends (fuelled; at most `b - a` iterations). -/
def revRangeAux : Nat → SSt → Nat → Nat → SSt
  | 0, s, _, _ => s
  | fuel + 1, s, a, b =>
    if a + 1 < b then revRangeAux fuel (s.swap a (b - 1)) (a + 1) (b - 1) else s

/-- Modelled from the spec (4.2 step 5): reverseRange over `[a, b)`. -/
def reverseRange (s : SSt) (a b : Nat) : SSt := revRangeAux b s a b

/-- Modelled from the spec (4.5): swap one midpoint position with a
pseudo-random position of the subrange; the offset is the xorshift output
reduced modulo `nextPowerOfTwo(length)` and brought below `length` by one
subtraction (the exact offsets are implementation-defined per the spec). -/
def bpOne (s : SSt) (a len pos r : Nat) : SSt × Nat :=
  let r' := xnext r
  let o := r' % nextPowerOfTwo len
  let o' := if len ≤ o then o - len else o
  (s.swap pos (a + o'), r')

/-- Modelled from the spec (4.5): the pattern breaker - three positions around
the midpoint of `[a, b)` are swapped with deterministically pseudo-random
positions of the subrange, the PRNG seeded with the current length.  Also
counts the invocation in `breaks`. -/
def breakPatterns (s : SSt) (a b : Nat) : SSt :=
  let len := b - a
  let s0 : SSt := { s with breaks := s.breaks + 1 }
  if 8 ≤ len then
    let mid := a + len / 2 - 1
    let (s1, r1) := bpOne s0 a len mid len
    let (s2, r2) := bpOne s1 a len (mid + 1) r1
    (bpOne s2 a len (mid + 2) r2).1
  else s0

/-- Modelled from the spec (4.4, main partition): advance `i` while the
element is less than the pivot value, guarded by `i <= j` (fuelled;
`j + 1 - i` steps suffice). -/
def scanI (lt : Int → Int → Bool) (pv : Int) (s : SSt) : Nat → Nat → Nat → Nat
  | 0, i, _ => i
  | fuel + 1, i, j =>
    if i ≤ j ∧ lt (s.get i) pv then scanI lt pv s fuel (i + 1) j else i

/-- Modelled from the spec (4.4, main partition): retreat `j` while the
element is not less than the pivot value, guarded by `i <= j` (so `j` stops at
`i - 1` at the lowest; structural recursion on `j`). -/
def scanJ (lt : Int → Int → Bool) (pv : Int) (s : SSt) (i : Nat) : Nat → Nat
  | 0 => 0
  | j + 1 =>
    if i ≤ j + 1 ∧ ¬ lt (s.get (j + 1)) pv then scanJ lt pv s i j else j + 1

/-- Modelled from the spec (4.4, main partition): the cursor loop.  When the
cursors cross it returns the crossing position and whether no interior swap
was ever performed; otherwise it swaps the out-of-place pair and continues
(fuelled; each round moves the cursors strictly closer). -/
def partLoop (lt : Int → Int → Bool) (pv : Int) :
    Nat → SSt → Nat → Nat → Bool → Nat × Bool × SSt
  | 0, s, _, j, swapped => (j, !swapped, s)
  | fuel + 1, s, i, j, swapped =>
    let i' := scanI lt pv s (j + 1 - i) i j
    let j' := scanJ lt pv s i' j
    if j' < i' then (j', !swapped, s)
    else partLoop lt pv fuel (s.swap i' j') (i' + 1) (j' - 1) true

/-- Modelled from the spec (4.4, main partition): move the pivot to `a`, run
the cursor loop on `[a+1, b-1]`, then place the pivot at the crossing
position; returns `(mid, alreadyPartitioned)`. -/
def partition (lt : Int → Int → Bool) (s : SSt) (a b p : Nat) :
    Nat × Bool × SSt :=
  let s1 := s.swap a p
  let pv := s1.get a
  let (j, ap, s2) := partLoop lt pv b s1 (a + 1) (b - 1) false
  (j, ap, s2.swap j a)

/-- Modelled from the spec (4.4, equal partition): advance `i` while the
element is not greater than the pivot value (fuelled). -/
def scanIE (lt : Int → Int → Bool) (pv : Int) (s : SSt) : Nat → Nat → Nat → Nat
  | 0, i, _ => i
  | fuel + 1, i, j =>
    if i ≤ j ∧ ¬ lt pv (s.get i) then scanIE lt pv s fuel (i + 1) j else i

/-- Modelled from the spec (4.4, equal partition): retreat `j` while the
element is greater than the pivot value, guarded by `i <= j` (structural
recursion on `j`). -/
def scanJE (lt : Int → Int → Bool) (pv : Int) (s : SSt) (i : Nat) : Nat → Nat
  | 0 => 0
  | j + 1 =>
    if i ≤ j + 1 ∧ lt pv (s.get (j + 1)) then scanJE lt pv s i j else j + 1

/-- Modelled from the spec (4.4, equal partition): the cursor loop; returns
the first index of the strictly-greater block (fuelled). -/
def peLoop (lt : Int → Int → Bool) (pv : Int) :
    Nat → SSt → Nat → Nat → Nat × SSt
  | 0, s, i, _ => (i, s)
  | fuel + 1, s, i, j =>
    let i' := scanIE lt pv s (j + 1 - i) i j
    let j' := scanJE lt pv s i' j
    if j' < i' then (i', s)
    else peLoop lt pv fuel (s.swap i' j') (i' + 1) (j' - 1)

/-- Modelled from the spec (4.4, equal partition): move the pivot to `a`, then
group the elements equal to the pivot leftward; returns the first index of the
strictly-greater block. -/
def partitionEqual (lt : Int → Int → Bool) (s : SSt) (a b p : Nat) :
    Nat × SSt :=
  let s1 := s.swap a p
  let pv := s1.get a
  peLoop lt pv b s1 (a + 1) (b - 1)

/-- Modelled from the spec (4.7): sift-down in the max-heap rooted at `first`
with logical size `hi` (standard library shape: pick the larger child, swap
while the root is smaller; fuelled - the root index at least doubles each
round, so `hi` iterations always suffice). -/
def siftDown (lt : Int → Int → Bool) : Nat → SSt → Nat → Nat → Nat → SSt
  | 0, s, _, _, _ => s
  | fuel + 1, s, root, hi, first =>
    let child := 2 * root + 1
    if child < hi then
      let child' :=
        if child + 1 < hi ∧ lt (s.get (first + child)) (s.get (first + child + 1))
        then child + 1 else child
      if lt (s.get (first + root)) (s.get (first + child')) then
        siftDown lt fuel (s.swap (first + root) (first + child')) child' hi first
      else s
    else s

/-- heapSelect, build phase (src/pdqselect.go lines 356-358): sift down the
first `k+1` positions from index `i = k/2` down to `0` (structural recursion
on `i`). -/
def hsBuild (lt : Int → Int → Bool) (s : SSt) (hi a : Nat) : Nat → SSt
  | 0 => siftDown lt hi s 0 hi a
  | i + 1 => hsBuild lt (siftDown lt hi s (i + 1) hi a) hi a i

/-- heapSelect, streaming phase (src/pdqselect.go lines 361-367): for each
remaining position, if its element is below the heap maximum, swap it in and
restore the heap (fuelled; `n - i` iterations remain). -/
def hsStream (lt : Int → Int → Bool) : Nat → SSt → Nat → Nat → Nat → Nat → SSt
  | 0, s, _, _, _, _ => s
  | fuel + 1, s, a, hi, n, i =>
    if i < n then
      let j := a + i
      let s' :=
        if lt (s.get j) (s.get a) then siftDown lt hi (s.swap a j) 0 hi a else s
      hsStream lt fuel s' a hi n (i + 1)
    else s

/-- heapSelect (src/pdqselect.go lines 351-371): max-heap of the first `k+1`
elements of `[a, b)`, stream the rest, then swap position `a` with `a+k`.
Note that `k` is used as a rank relative to `a`. -/
def heapSelect (lt : Int → Int → Bool) (s : SSt) (a b k : Nat) : SSt :=
  let n := b - a
  let hi := k + 1
  let s1 := hsBuild lt s hi a (k / 2)
  let s2 := hsStream lt n s1 a hi n hi
  s2.swap a (a + k)

/-- The minimum fast-path scan (`mn` update loop), shared shape of the three
drivers: scan `[i, b)` keeping the first position whose element is strictly
below the current minimum (fuelled). -/
def fastMinFrom (lt : Int → Int → Bool) (s : SSt) : Nat → Nat → Nat → Nat → Nat
  | 0, mn, _, _ => mn
  | fuel + 1, mn, i, b =>
    if i < b then
      fastMinFrom lt s fuel (if lt (s.get i) (s.get mn) then i else mn) (i + 1) b
    else mn

/-- The maximum fast-path scan (`mx` update loop): scan `[i, b)` keeping the
first position whose element is strictly above the current maximum
(fuelled). -/
def fastMaxFrom (lt : Int → Int → Bool) (s : SSt) : Nat → Nat → Nat → Nat → Nat
  | 0, mx, _, _ => mx
  | fuel + 1, mx, i, b =>
    if i < b then
      fastMaxFrom lt s fuel (if lt (s.get mx) (s.get i) then i else mx) (i + 1) b
    else mx

/-- Result of one driver-loop iteration: either the call returns with a
final state, or the loop continues on a narrowed subrange with updated
budget and balance flags. -/
inductive StepRes where
  | done : SSt → StepRes
  | cont : SSt → Nat → Nat → Nat → Bool → Bool → StepRes
deriving Repr, DecidableEq

/-- The state carried by a step result. -/
def StepRes.st : StepRes → SSt
  | .done s => s
  | .cont s _ _ _ _ _ => s

/-- The remaining budget carried by a step result (0 when the call returns). -/
def StepRes.limRem : StepRes → Nat
  | .done _ => 0
  | .cont _ _ _ limit _ _ => limit

/-- Pivot preparation (src lines 106-114, shared shape): choose a pivot and
hint; on a decreasing hint reverse the subrange, mirror the pivot position to
`(b-1) - (p-a)` and turn the hint into increasing. -/
def pivotPrep (lt : Int → Int → Bool) (s1 : SSt) (a b : Nat) :
    SSt × Nat × SortedHint :=
  match choosePivot lt s1 a b with
  | (s2, p0, h0) =>
    if h0 = SortedHint.decreasing then
      (reverseRange s2 a b, (b - 1) - (p0 - a), SortedHint.increasing)
    else (s2, p0, h0)

/-- The partition part of a driver-loop iteration (src lines 123-149): the
equal-pivot branch (continue on `[mid, b)` with unchanged flags), or the main
partition followed by return at `k = mid` or descent into the side containing
`k`, updating the balance flags. -/
def pdqStepTail (lt : Int → Int → Bool) (len : Nat) (s4 : SSt)
    (a b k limit' p1 : Nat) (wb wp : Bool) : StepRes :=
  if 0 < a ∧ ¬ lt (s4.get (a - 1)) (s4.get p1) then
    match partitionEqual lt s4 a b p1 with
    | (mid, s5) =>
      if k < mid then .done s5
      else .cont s5 mid b limit' wb wp
  else
    match partition lt s4 a b p1 with
    | (mid, ap, s5) =>
      if k = mid then .done s5
      else if k < mid then
        .cont s5 a mid limit' (decide (len / 8 ≤ mid - a)) ap
      else
        .cont s5 (mid + 1) b limit' (decide (len / 8 ≤ b - mid)) ap

/-- One iteration of the driver loop shared by `pdqselect` (src lines 86-150)
and `pdqselectOrdered` (src lines 183-247), whose bodies coincide modulo the
access layer: insertion sort below length 13, heap select at exhausted limit,
pattern break after an imbalanced partition, pivot preparation, the
partial-insertion fast path, then the partition part. -/
def pdqStep (lt : Int → Int → Bool) (s : SSt) (a b k limit : Nat)
    (wb wp : Bool) : StepRes :=
  let len := b - a
  if len ≤ 12 then .done (insertionSort lt s a b)
  else if limit = 0 then .done (heapSelect lt s a b k)
  else
    let s1 := if wb then s else breakPatterns s a b
    let limit' := if wb then limit else limit - 1
    let pp := pivotPrep lt s1 a b
    match (if wb ∧ wp ∧ pp.2.2 = SortedHint.increasing
           then pInsSort lt pp.1 a b else (false, pp.1)) with
    | (true, s4) => .done s4
    | (false, s4) => pdqStepTail lt len s4 a b k limit' pp.2.1 wb wp

/-- The driver loop: iterate `pdqStep` until it returns.  Iteration is
fuelled; every continuing step strictly shrinks `b - a`, and the drivers pass
`b - a + 1`. -/
def pdqLoop (lt : Int → Int → Bool) : Nat → SSt → Nat → Nat → Nat → Nat → Bool → Bool → SSt
  | 0, s, _, _, _, _, _, _ => s
  | fuel + 1, s, a, b, k, limit, wb, wp =>
    match pdqStep lt s a b k limit wb wp with
    | .done s' => s'
    | .cont s' a' b' limit' wb' wp' => pdqLoop lt fuel s' a' b' k limit' wb' wp'

/-- pdqselect (src/pdqselect.go lines 52-151): fast paths for `k = 0` (place a
minimum at `a`, scanning from `i = a`, swapping only when needed) and
`k = b-1` (place a maximum at `b-1`), then the driver loop. -/
def pdqselectGo (lt : Int → Int → Bool) (s : SSt) (a b k limit : Nat) : SSt :=
  if k = 0 then
    let mn := fastMinFrom lt s b a a b
    if mn ≠ a then s.swap mn a else s
  else if k = b - 1 then
    let mx := fastMaxFrom lt s b a (a + 1) b
    if mx ≠ b - 1 then s.swap mx (b - 1) else s
  else pdqLoop lt (b - a + 1) s a b k limit true true

/-- pdqselectOrdered (src/pdqselect.go lines 153-248): as `pdqselect` but the
fast paths scan from `a + 1` and swap unconditionally; the loop body is
`pdqLoop` (it coincides with the interface version modulo element access). -/
def pdqselectOrderedGo (lt : Int → Int → Bool) (s : SSt) (a b k limit : Nat) :
    SSt :=
  if k = 0 then
    let mn := fastMinFrom lt s b a (a + 1) b
    s.swap a mn
  else if k = b - 1 then
    let mx := fastMaxFrom lt s b a (a + 1) b
    s.swap (b - 1) mx
  else pdqLoop lt (b - a + 1) s a b k limit true true

/-- The Func fast-path minimum scan (src lines 253-257): condition
`cmp(data[i], data[mn]) < 0` (fuelled). -/
def fastMinFromF (c : Int → Int → Int) (s : SSt) : Nat → Nat → Nat → Nat → Nat
  | 0, mn, _, _ => mn
  | fuel + 1, mn, i, b =>
    if i < b then
      fastMinFromF c s fuel (if c (s.get i) (s.get mn) < 0 then i else mn) (i + 1) b
    else mn

/-- The Func fast-path maximum scan (src lines 266-270): condition
`cmp(data[i], data[mx]) > 0` (fuelled). -/
def fastMaxFromF (c : Int → Int → Int) (s : SSt) : Nat → Nat → Nat → Nat → Nat
  | 0, mx, _, _ => mx
  | fuel + 1, mx, i, b =>
    if i < b then
      fastMaxFromF c s fuel (if 0 < c (s.get i) (s.get mx) then i else mx) (i + 1) b
    else mx

/-- The partition part of a pdqselectFunc iteration (src lines 321-347): as
`pdqStepTail` but the equal-pivot test is `cmp(data[a-1], data[pivot]) >= 0`. -/
def pdqStepTailFunc (c : Int → Int → Int) (len : Nat) (s4 : SSt)
    (a b k limit' p1 : Nat) (wb wp : Bool) : StepRes :=
  if 0 < a ∧ 0 ≤ c (s4.get (a - 1)) (s4.get p1) then
    match partitionEqual (ltc c) s4 a b p1 with
    | (mid, s5) =>
      if k < mid then .done s5
      else .cont s5 mid b limit' wb wp
  else
    match partition (ltc c) s4 a b p1 with
    | (mid, ap, s5) =>
      if k = mid then .done s5
      else if k < mid then
        .cont s5 a mid limit' (decide (len / 8 ≤ mid - a)) ap
      else
        .cont s5 (mid + 1) b limit' (decide (len / 8 ≤ b - mid)) ap

/-- One iteration of the pdqselectFunc driver loop (src lines 284-348): as
`pdqStep` but over the three-valued comparator. -/
def pdqStepFunc (c : Int → Int → Int) (s : SSt) (a b k limit : Nat)
    (wb wp : Bool) : StepRes :=
  let len := b - a
  if len ≤ 12 then .done (insertionSort (ltc c) s a b)
  else if limit = 0 then .done (heapSelect (ltc c) s a b k)
  else
    let s1 := if wb then s else breakPatterns s a b
    let limit' := if wb then limit else limit - 1
    let pp := pivotPrep (ltc c) s1 a b
    match (if wb ∧ wp ∧ pp.2.2 = SortedHint.increasing
           then pInsSort (ltc c) pp.1 a b else (false, pp.1)) with
    | (true, s4) => .done s4
    | (false, s4) => pdqStepTailFunc c len s4 a b k limit' pp.2.1 wb wp

/-- The pdqselectFunc driver loop: iterate `pdqStepFunc` until it returns. -/
def pdqLoopFunc (c : Int → Int → Int) : Nat → SSt → Nat → Nat → Nat → Nat → Bool → Bool → SSt
  | 0, s, _, _, _, _, _, _ => s
  | fuel + 1, s, a, b, k, limit, wb, wp =>
    match pdqStepFunc c s a b k limit wb wp with
    | .done s' => s'
    | .cont s' a' b' limit' wb' wp' => pdqLoopFunc c fuel s' a' b' k limit' wb' wp'

/-- pdqselectFunc (src/pdqselect.go lines 250-349): fast paths scanning from
`a + 1` with conditional swaps, then the comparator-phrased driver loop. -/
def pdqselectFuncGo (c : Int → Int → Int) (s : SSt) (a b k limit : Nat) :
    SSt :=
  if k = 0 then
    let mn := fastMinFromF c s b a (a + 1) b
    if mn ≠ a then s.swap a mn else s
  else if k = b - 1 then
    let mx := fastMaxFromF c s b a (a + 1) b
    if mx ≠ b - 1 then s.swap (b - 1) mx else s
  else pdqLoopFunc c (b - a + 1) s a b k limit true true

/-- The limit value the public entry points compute: `bits.Len(uint(n))`
(src lines 29, 39, 49). -/
def initialLimit (n : Nat) : Nat := bitsLen n

/-- Select over `sort.IntSlice` (src/pdqselect.go lines 24-30): out-of-range
`k` returns immediately, otherwise run the driver on `[0, n)` with target
`k-1` and limit `bits.Len(n)`. -/
def goSelect (l : List Int) (k : Int) : SSt :=
  let s := mkS l
  if k < 1 ∨ (s.n : Int) < k then s
  else pdqselectGo ltInt s 0 s.n (k - 1).toNat (initialLimit s.n)

/-- Ordered for `[]int` (src/pdqselect.go lines 34-40). -/
def goOrdered (l : List Int) (k : Int) : SSt :=
  let s := mkS l
  if k < 1 ∨ (s.n : Int) < k then s
  else pdqselectOrderedGo ltInt s 0 s.n (k - 1).toNat (initialLimit s.n)

/-- Func for `[]int` with a caller comparator (src/pdqselect.go lines
44-50). -/
def goFunc (l : List Int) (k : Int) (c : Int → Int → Int) : SSt :=
  let s := mkS l
  if k < 1 ∨ (s.n : Int) < k then s
  else pdqselectFuncGo c s 0 s.n (k - 1).toNat (initialLimit s.n)

/-- The outcome the `k = 1` fast path promises: the final sequence is the
input with position `0` exchanged with one minimum position (all other
positions untouched), via at most one swap. -/
def minSwapRes (l : List Int) (s' : SSt) : Prop :=
  ∃ m, m < l.length ∧ (∀ j, j < l.length → l.getD m 0 ≤ l.getD j 0) ∧
    s'.data = swapL l 0 m ∧ s'.swaps ≤ 1

/-- The outcome the `k = N` fast path promises: the final sequence is the
input with position `N-1` exchanged with one maximum position, via at most
one swap. -/
def maxSwapRes (l : List Int) (s' : SSt) : Prop :=
  ∃ m, m < l.length ∧ (∀ j, j < l.length → l.getD j 0 ≤ l.getD m 0) ∧
    s'.data = swapL l (l.length - 1) m ∧ s'.swaps ≤ 1

/-- An adversarial three-valued comparator: the natural comparison on `Int`
except that nine specific ordered pairs answer `1` ("greater or equal")
instead.  A `Func` caller is free to supply such a comparator; it violates
totality/antisymmetry only on those pairs. -/
def cAdv (x y : Int) : Int :=
  if (x = 0 ∧ y = 200) ∨ (x = 200 ∧ y = 1003) ∨ (x = 300 ∧ y = 1001) ∨ (x = 400 ∧ y = 1004) ∨ (x = 500 ∧ y = 1017) ∨ (x = 600 ∧ y = 1008) ∨ (x = 700 ∧ y = 1010) ∨ (x = 800 ∧ y = 1012) ∨ (x = 900 ∧ y = 1013) then 1
  else if x < y then -1 else if y < x then 1 else 0

/-- A 248-element input sequence that, together with `cAdv` and `k = 241`,
drives the Func driver through one imbalanced partition followed by eight
consecutive equal-pivot iterations, so the budget reaches 0 on the subrange
`[235, 248)` and `heapSelect` is invoked with the absolute target 240. -/
def advList : List Int := [
  -5, -6, -7, -8, -9, -10, -11, -12, -13, -14, -15, -16, -17, -18, -19, -20,
  -21, -22, -23, -24, -25, -26, -27, -28, -29, -30, -31, -32, -33, -34, -35, -36,
  -37, -38, -39, -40, -41, -42, -43, -44, -45, -46, -47, -48, -49, -50, -51, -52,
  -53, -54, -55, -56, -57, -58, -59, -60, -61, -62, -63, -64, -65, -2, -3, 900,
  -66, -67, -68, -69, -70, -71, -72, -73, -74, -75, -76, -77, -78, -79, -80, -81,
  -82, -83, -84, -85, -86, -87, -88, -89, -90, -91, -92, -93, -94, -95, -96, -97,
  -98, -99, -100, -101, -102, -103, -104, -105, -106, -107, -108, -109, -110, -111, -112, -113,
  -114, -115, -116, -117, -118, -119, -120, -121, -122, -123, -124, -1, 0, 1001, -125, -126,
  -127, -128, -129, -130, -131, -132, -133, -134, -135, -136, -137, -138, -139, -140, -141, -142,
  -143, -144, -145, -146, -147, -148, -149, -150, -151, -152, -153, -154, -155, -156, -157, -158,
  -159, -160, -161, -162, -163, -164, -165, -166, -167, -168, -169, -170, -171, -172, -173, -174,
  -175, -176, -177, -178, -179, -180, -181, -182, -183, -4, 200, 1003, -184, -185, -186, -187,
  -188, -189, -190, -191, -192, -193, -194, -195, -196, -197, -198, -199, -200, -201, -202, -203,
  -204, -205, -206, -207, -208, -209, -210, -211, -212, -213, -214, -215, -216, -217, -218, 1004,
  400, 700, 1007, 1008, 600, 1010, 1011, 1012, 1013, 1014, 500, 1016, 1017, 1018, 1019, 1020,
  1021, 1022, 1023, 1024, 1025, 300, 1027, 800]

/-- Positions `[a, b)` of the sequence are in non-decreasing order. -/
def sortedRange (s : SSt) (a b : Nat) : Prop :=
  ∀ p q, a ≤ p → p ≤ q → q < b → s.get p ≤ s.get q

/-- Fuelled depth of the `/8`-shrink recursion: how many times a length can
drop below an eighth (minus one) before reaching the insertion-sort regime.
Used to account for the driver budget. -/
def shrinkD : Nat → Nat → Nat
  | 0, _ => 0
  | fuel + 1, n => if n ≤ 12 then 0 else shrinkD fuel (n / 8 - 1) + 1

/-- Depth of the `/8`-shrink recursion starting from `n`. -/
def mu8 (n : Nat) : Nat := shrinkD n n

/-- Every position left of `a` holds a value not greater than every value at
positions `a` and beyond. -/
def leftBound (s : SSt) (a : Nat) : Prop :=
  ∀ x y, x < a → a ≤ y → y < s.n → s.get x ≤ s.get y

/-- Every position from `b` on holds a value not smaller than every value at
positions before `b`. -/
def rightBound (s : SSt) (b : Nat) : Prop :=
  ∀ x y, x < b → b ≤ y → y < s.n → s.get x ≤ s.get y

/-- The value just left of `a` is strictly below every value in `[a, b)`
(trivially satisfied at `a = 0`). -/
def strictLeft (s : SSt) (a b : Nat) : Prop :=
  0 < a → ∀ y, a ≤ y → y < b → s.get (a - 1) < s.get y

/-- Budget invariant of the driver loop under a total comparator: the
remaining limit, plus a credit of 2 after a balanced partition and of 1 when
the subrange is strictly separated from its left neighbour, covers twice the
remaining `/8`-shrink depth plus one. -/
def budgetInv (s : SSt) (a b limit : Nat) (wb : Bool) : Prop :=
  (wb = true ∧ 2 * mu8 (b - a) + 1 ≤ limit + 2) ∨
  (wb = false ∧ strictLeft s a b ∧ 2 * mu8 (b - a) + 1 ≤ limit + 1) ∨
  (wb = false ∧ 2 * mu8 (b - a) + 1 ≤ limit)

/-! ### Basic lemmas -/

theorem bitsLenAux_zero (fuel : Nat) : bitsLenAux fuel 0 = 0 := by
  cases fuel <;> simp [bitsLenAux]

theorem bitsLenAux_eq (fuel n : Nat) (h1 : 1 ≤ n) (h2 : n ≤ fuel) :
    bitsLenAux fuel n = Nat.log2 n + 1 := by
  induction fuel generalizing n with
  | zero => omega
  | succ fuel ih =>
    simp only [bitsLenAux]
    rw [if_neg (by omega)]
    rcases Nat.lt_or_ge n 2 with hn | hn
    · have hone : n = 1 := by omega
      subst hone
      simp [bitsLenAux_zero, Nat.log2]
    · rw [ih (n / 2) (by omega) (by omega)]
      conv_rhs => rw [Nat.log2]
      simp [hn]

theorem set_getD_self (l : List Int) (i : Nat) : l.set i (l.getD i 0) = l := by
  apply List.ext_getElem?
  intro j
  rw [List.getElem?_set]
  split
  · rename_i h
    subst h
    split
    · rename_i h2
      rw [List.getD_eq_getElem l 0 h2]
      simp [List.getElem?_eq_getElem h2]
    · rename_i h2
      simp [List.getElem?_eq_none (by omega : l.length ≤ i)]
  · rfl

/-! ### C4: initial budget value -/

/-- C4 counterexample: at N = 2 the public entry initialises the budget to
bits.Len(2) = 2, not the claimed floor(log2 2) = 1. -/
theorem c4_counterexample : initialLimit 2 ≠ Nat.log2 2 := by
  have h1 : initialLimit 2 = 2 := rfl
  have h2 : Nat.log2 2 = 1 := by simp [Nat.log2]
  omega

/-- C4 amended: for every in-range call with sequence length N >= 1, the
budget passed to the driver is initialised to bits.Len(N), which equals
floor(log2 N) + 1 (not floor(log2 N)). -/
theorem c4_limit_amended (n : Nat) (h : 1 ≤ n) :
    initialLimit n = Nat.log2 n + 1 :=
  bitsLenAux_eq n n h (le_refl n)

theorem c4_limit_amended_witness : initialLimit 5 = Nat.log2 5 + 1 :=
  c4_limit_amended 5 (by norm_num)

/-! ### C8: out-of-range k is a silent no-op -/

/-- C8: for every sequence S of length N and every k with k < 1 or k > N, all
three public entry points leave S completely unchanged and signal no error. -/
theorem c8_out_of_range (l : List Int) (k : Int) (c : Int → Int → Int)
    (h : k < 1 ∨ (l.length : Int) < k) :
    (goSelect l k).data = l ∧ (goOrdered l k).data = l ∧
      (goFunc l k c).data = l := by
  have hn : ((mkS l).n : Int) = (l.length : Int) := rfl
  refine ⟨?_, ?_, ?_⟩ <;>
    · simp only [goSelect, goOrdered, goFunc]
      rw [if_pos (by rw [hn]; exact h)]
      rfl

theorem c8_out_of_range_witness :
    (goSelect [3, 1, 2] 0).data = [3, 1, 2] ∧
      (goOrdered [3, 1, 2] 0).data = [3, 1, 2] ∧
      (goFunc [3, 1, 2] 0 cmpInt).data = [3, 1, 2] :=
  c8_out_of_range [3, 1, 2] 0 cmpInt (Or.inl (by norm_num))

theorem ltInt_iff (x y : Int) : ltInt x y = true ↔ x < y := by
  simp [ltInt]

theorem cmpInt_lt_zero (x y : Int) : cmpInt x y < 0 ↔ x < y := by
  unfold cmpInt
  split_ifs <;> constructor <;> intro h <;> omega

theorem cmpInt_pos (x y : Int) : 0 < cmpInt x y ↔ y < x := by
  unfold cmpInt
  split_ifs <;> constructor <;> intro h <;> omega

theorem cmpInt_nonneg (x y : Int) : 0 ≤ cmpInt x y ↔ y ≤ x := by
  unfold cmpInt
  split_ifs <;> constructor <;> intro h <;> omega

theorem swapL_self (l : List Int) (i : Nat) : swapL l i i = l := by
  unfold swapL
  rw [List.set_set]
  exact set_getD_self l i

theorem swapL_comm (l : List Int) (i j : Nat) : swapL l i j = swapL l j i := by
  rcases eq_or_ne i j with rfl | hne
  · rfl
  · unfold swapL
    exact List.set_comm _ _ l hne

theorem swap_data (s : SSt) (i j : Nat) (hi : i < s.n) (hj : j < s.n) :
    (s.swap i j).data = swapL s.data i j := by
  unfold SSt.swap
  rw [if_pos ⟨hi, hj⟩]
  rfl

theorem swap_swaps (s : SSt) (i j : Nat) :
    (s.swap i j).swaps ≤ s.swaps + 1 := by
  unfold SSt.swap
  split <;> simp

theorem fastMin_spec (s : SSt) (fuel mn i b : Nat) (hf : b ≤ fuel + i) :
    (fastMinFrom ltInt s fuel mn i b = mn ∨
      (i ≤ fastMinFrom ltInt s fuel mn i b ∧ fastMinFrom ltInt s fuel mn i b < b)) ∧
    s.get (fastMinFrom ltInt s fuel mn i b) ≤ s.get mn ∧
    ∀ x, i ≤ x → x < b → s.get (fastMinFrom ltInt s fuel mn i b) ≤ s.get x := by
  induction fuel generalizing mn i with
  | zero =>
    exact ⟨Or.inl rfl, le_refl _, fun x hx hxb => absurd (lt_of_le_of_lt hx hxb) (by omega)⟩
  | succ fuel ih =>
    simp only [fastMinFrom]
    by_cases hib : i < b
    · rw [if_pos hib]
      by_cases hlt : s.get i < s.get mn
      · rw [if_pos (by simpa [ltInt] using hlt)]
        obtain ⟨hp, hle, hall⟩ := ih i (i + 1) (by omega)
        refine ⟨?_, le_trans hle (le_of_lt hlt), ?_⟩
        · rcases hp with h | h
          · exact Or.inr ⟨by omega, by omega⟩
          · exact Or.inr ⟨by omega, h.2⟩
        · intro x hx hxb
          rcases Nat.eq_or_lt_of_le hx with rfl | hx'
          · exact hle
          · exact hall x (by omega) hxb
      · rw [if_neg (by simpa [ltInt] using hlt)]
        obtain ⟨hp, hle, hall⟩ := ih mn (i + 1) (by omega)
        refine ⟨?_, hle, ?_⟩
        · rcases hp with h | h
          · exact Or.inl h
          · exact Or.inr ⟨by omega, h.2⟩
        · intro x hx hxb
          rcases Nat.eq_or_lt_of_le hx with rfl | hx'
          · exact le_trans hle (not_lt.mp hlt)
          · exact hall x (by omega) hxb
    · rw [if_neg hib]
      exact ⟨Or.inl rfl, le_refl _, fun x hx hxb => absurd (lt_of_le_of_lt hx hxb) hib⟩

theorem fastMax_spec (s : SSt) (fuel mx i b : Nat) (hf : b ≤ fuel + i) :
    (fastMaxFrom ltInt s fuel mx i b = mx ∨
      (i ≤ fastMaxFrom ltInt s fuel mx i b ∧ fastMaxFrom ltInt s fuel mx i b < b)) ∧
    s.get mx ≤ s.get (fastMaxFrom ltInt s fuel mx i b) ∧
    ∀ x, i ≤ x → x < b → s.get x ≤ s.get (fastMaxFrom ltInt s fuel mx i b) := by
  induction fuel generalizing mx i with
  | zero =>
    exact ⟨Or.inl rfl, le_refl _, fun x hx hxb => absurd (lt_of_le_of_lt hx hxb) (by omega)⟩
  | succ fuel ih =>
    simp only [fastMaxFrom]
    by_cases hib : i < b
    · rw [if_pos hib]
      by_cases hlt : s.get mx < s.get i
      · rw [if_pos (by simpa [ltInt] using hlt)]
        obtain ⟨hp, hle, hall⟩ := ih i (i + 1) (by omega)
        refine ⟨?_, le_trans (le_of_lt hlt) hle, ?_⟩
        · rcases hp with h | h
          · exact Or.inr ⟨by omega, by omega⟩
          · exact Or.inr ⟨by omega, h.2⟩
        · intro x hx hxb
          rcases Nat.eq_or_lt_of_le hx with rfl | hx'
          · exact hle
          · exact hall x (by omega) hxb
      · rw [if_neg (by simpa [ltInt] using hlt)]
        obtain ⟨hp, hle, hall⟩ := ih mx (i + 1) (by omega)
        refine ⟨?_, hle, ?_⟩
        · rcases hp with h | h
          · exact Or.inl h
          · exact Or.inr ⟨by omega, h.2⟩
        · intro x hx hxb
          rcases Nat.eq_or_lt_of_le hx with rfl | hx'
          · exact le_trans (not_lt.mp hlt) hle
          · exact hall x (by omega) hxb
    · rw [if_neg hib]
      exact ⟨Or.inl rfl, le_refl _, fun x hx hxb => absurd (lt_of_le_of_lt hx hxb) hib⟩

theorem fastMinFromF_cmpInt (s : SSt) (fuel mn i b : Nat) :
    fastMinFromF cmpInt s fuel mn i b = fastMinFrom ltInt s fuel mn i b := by
  induction fuel generalizing mn i with
  | zero => rfl
  | succ fuel ih =>
    simp only [fastMinFromF, fastMinFrom]
    by_cases hib : i < b
    · rw [if_pos hib, if_pos hib]
      have harg : (if cmpInt (s.get i) (s.get mn) < 0 then i else mn) =
          (if ltInt (s.get i) (s.get mn) then i else mn) := by
        by_cases h : s.get i < s.get mn
        · rw [if_pos ((cmpInt_lt_zero _ _).mpr h), if_pos (by simpa [ltInt] using h)]
        · rw [if_neg (fun hc => h ((cmpInt_lt_zero _ _).mp hc)),
            if_neg (by simpa [ltInt] using h)]
      rw [harg]
      exact ih _ _
    · rw [if_neg hib, if_neg hib]

theorem fastMaxFromF_cmpInt (s : SSt) (fuel mx i b : Nat) :
    fastMaxFromF cmpInt s fuel mx i b = fastMaxFrom ltInt s fuel mx i b := by
  induction fuel generalizing mx i with
  | zero => rfl
  | succ fuel ih =>
    simp only [fastMaxFromF, fastMaxFrom]
    by_cases hib : i < b
    · rw [if_pos hib, if_pos hib]
      have harg : (if 0 < cmpInt (s.get i) (s.get mx) then i else mx) =
          (if ltInt (s.get mx) (s.get i) then i else mx) := by
        by_cases h : s.get mx < s.get i
        · rw [if_pos ((cmpInt_pos _ _).mpr h), if_pos (by simpa [ltInt] using h)]
        · rw [if_neg (fun hc => h ((cmpInt_pos _ _).mp hc)),
            if_neg (by simpa [ltInt] using h)]
      rw [harg]
      exact ih _ _
    · rw [if_neg hib, if_neg hib]

theorem goSelect_in_range (l : List Int) (k : Int) (h1 : 1 ≤ k)
    (h2 : k ≤ (l.length : Int)) :
    goSelect l k =
      pdqselectGo ltInt (mkS l) 0 l.length (k - 1).toNat (bitsLen l.length) := by
  simp only [goSelect]
  rw [if_neg (by rintro (h | h) <;> [omega; exact absurd h (not_lt.mpr h2)])]
  rfl

theorem goOrdered_in_range (l : List Int) (k : Int) (h1 : 1 ≤ k)
    (h2 : k ≤ (l.length : Int)) :
    goOrdered l k =
      pdqselectOrderedGo ltInt (mkS l) 0 l.length (k - 1).toNat (bitsLen l.length) := by
  simp only [goOrdered]
  rw [if_neg (by rintro (h | h) <;> [omega; exact absurd h (not_lt.mpr h2)])]
  rfl

theorem goFunc_in_range (l : List Int) (k : Int) (c : Int → Int → Int) (h1 : 1 ≤ k)
    (h2 : k ≤ (l.length : Int)) :
    goFunc l k c =
      pdqselectFuncGo c (mkS l) 0 l.length (k - 1).toNat (bitsLen l.length) := by
  simp only [goFunc]
  rw [if_neg (by rintro (h | h) <;> [omega; exact absurd h (not_lt.mpr h2)])]
  rfl

theorem pdqMin_interface (l : List Int) (hn : 1 ≤ l.length) (limit : Nat) :
    minSwapRes l (pdqselectGo ltInt (mkS l) 0 l.length 0 limit) := by
  have hs : (mkS l).n = l.length := rfl
  unfold pdqselectGo
  rw [if_pos rfl]
  obtain ⟨hp, hle, hall⟩ := fastMin_spec (mkS l) l.length 0 0 l.length (by omega)
  set mn := fastMinFrom ltInt (mkS l) l.length 0 0 l.length with hmn
  have hmnlt : mn < l.length := by
    rcases hp with h | h
    · omega
    · exact h.2
  by_cases hz : mn ≠ 0
  · rw [if_pos hz]
    refine ⟨mn, hmnlt, ?_, ?_, ?_⟩
    · intro j hj
      exact hall j (Nat.zero_le j) hj
    · rw [swap_data _ _ _ (by rw [hs]; exact hmnlt) (by rw [hs]; omega)]
      exact swapL_comm l mn 0
    · exact le_trans (swap_swaps _ _ _) (by simp [mkS])
  · rw [if_neg hz]
    push_neg at hz
    refine ⟨0, by omega, ?_, ?_, ?_⟩
    · intro j hj
      exact hz ▸ hall j (Nat.zero_le j) hj
    · rw [swapL_self]
      rfl
    · simp [mkS]

theorem pdqMin_ordered (l : List Int) (hn : 1 ≤ l.length) (limit : Nat) :
    minSwapRes l (pdqselectOrderedGo ltInt (mkS l) 0 l.length 0 limit) := by
  have hs : (mkS l).n = l.length := rfl
  unfold pdqselectOrderedGo
  rw [if_pos rfl]
  obtain ⟨hp, hle, hall⟩ := fastMin_spec (mkS l) l.length 0 1 l.length (by omega)
  set mn := fastMinFrom ltInt (mkS l) l.length 0 1 l.length with hmn
  have hmnlt : mn < l.length := by
    rcases hp with h | h
    · omega
    · exact h.2
  refine ⟨mn, hmnlt, ?_, ?_, ?_⟩
  · intro j hj
    rcases Nat.eq_zero_or_pos j with rfl | hj1
    · exact hle
    · exact hall j hj1 hj
  · rw [swap_data _ _ _ (by rw [hs]; omega) (by rw [hs]; exact hmnlt)]
    rfl
  · exact le_trans (swap_swaps _ _ _) (by simp [mkS])

theorem pdqMin_func (l : List Int) (hn : 1 ≤ l.length) (limit : Nat) :
    minSwapRes l (pdqselectFuncGo cmpInt (mkS l) 0 l.length 0 limit) := by
  have hs : (mkS l).n = l.length := rfl
  unfold pdqselectFuncGo
  rw [if_pos rfl, fastMinFromF_cmpInt]
  obtain ⟨hp, hle, hall⟩ := fastMin_spec (mkS l) l.length 0 1 l.length (by omega)
  set mn := fastMinFrom ltInt (mkS l) l.length 0 1 l.length with hmn
  have hmnlt : mn < l.length := by
    rcases hp with h | h
    · omega
    · exact h.2
  have hmin : ∀ j, j < l.length → l.getD mn 0 ≤ l.getD j 0 := by
    intro j hj
    rcases Nat.eq_zero_or_pos j with rfl | hj1
    · exact hle
    · exact hall j hj1 hj
  by_cases hz : mn ≠ 0
  · rw [if_pos hz]
    refine ⟨mn, hmnlt, hmin, ?_, ?_⟩
    · rw [swap_data _ _ _ (by rw [hs]; omega) (by rw [hs]; exact hmnlt)]
      rfl
    · exact le_trans (swap_swaps _ _ _) (by simp [mkS])
  · rw [if_neg hz]
    push_neg at hz
    refine ⟨0, by omega, hz ▸ hmin, ?_, ?_⟩
    · rw [swapL_self]
      rfl
    · simp [mkS]

theorem pdqMax_interface (l : List Int) (hn : 2 ≤ l.length) (limit : Nat) :
    maxSwapRes l (pdqselectGo ltInt (mkS l) 0 l.length (l.length - 1) limit) := by
  have hs : (mkS l).n = l.length := rfl
  unfold pdqselectGo
  rw [if_neg (by omega), if_pos rfl]
  obtain ⟨hp, hle, hall⟩ := fastMax_spec (mkS l) l.length 0 1 l.length (by omega)
  set mx := fastMaxFrom ltInt (mkS l) l.length 0 1 l.length with hmx
  have hmxlt : mx < l.length := by
    rcases hp with h | h
    · omega
    · exact h.2
  have hmax : ∀ j, j < l.length → l.getD j 0 ≤ l.getD mx 0 := by
    intro j hj
    rcases Nat.eq_zero_or_pos j with rfl | hj1
    · exact hle
    · exact hall j hj1 hj
  by_cases hz : mx ≠ l.length - 1
  · rw [if_pos hz]
    refine ⟨mx, hmxlt, hmax, ?_, ?_⟩
    · rw [swap_data _ _ _ (by rw [hs]; exact hmxlt) (by rw [hs]; omega)]
      exact swapL_comm l mx (l.length - 1)
    · exact le_trans (swap_swaps _ _ _) (by simp [mkS])
  · rw [if_neg hz]
    push_neg at hz
    refine ⟨l.length - 1, by omega, hz ▸ hmax, ?_, ?_⟩
    · rw [swapL_self]
      rfl
    · simp [mkS]

theorem pdqMax_ordered (l : List Int) (hn : 2 ≤ l.length) (limit : Nat) :
    maxSwapRes l (pdqselectOrderedGo ltInt (mkS l) 0 l.length (l.length - 1) limit) := by
  have hs : (mkS l).n = l.length := rfl
  unfold pdqselectOrderedGo
  rw [if_neg (by omega), if_pos rfl]
  obtain ⟨hp, hle, hall⟩ := fastMax_spec (mkS l) l.length 0 1 l.length (by omega)
  set mx := fastMaxFrom ltInt (mkS l) l.length 0 1 l.length with hmx
  have hmxlt : mx < l.length := by
    rcases hp with h | h
    · omega
    · exact h.2
  refine ⟨mx, hmxlt, ?_, ?_, ?_⟩
  · intro j hj
    rcases Nat.eq_zero_or_pos j with rfl | hj1
    · exact hle
    · exact hall j hj1 hj
  · rw [swap_data _ _ _ (by rw [hs]; omega) (by rw [hs]; exact hmxlt)]
    rfl
  · exact le_trans (swap_swaps _ _ _) (by simp [mkS])

theorem pdqMax_func (l : List Int) (hn : 2 ≤ l.length) (limit : Nat) :
    maxSwapRes l (pdqselectFuncGo cmpInt (mkS l) 0 l.length (l.length - 1) limit) := by
  have hs : (mkS l).n = l.length := rfl
  unfold pdqselectFuncGo
  rw [if_neg (by omega), if_pos rfl, fastMaxFromF_cmpInt]
  obtain ⟨hp, hle, hall⟩ := fastMax_spec (mkS l) l.length 0 1 l.length (by omega)
  set mx := fastMaxFrom ltInt (mkS l) l.length 0 1 l.length with hmx
  have hmxlt : mx < l.length := by
    rcases hp with h | h
    · omega
    · exact h.2
  have hmax : ∀ j, j < l.length → l.getD j 0 ≤ l.getD mx 0 := by
    intro j hj
    rcases Nat.eq_zero_or_pos j with rfl | hj1
    · exact hle
    · exact hall j hj1 hj
  by_cases hz : mx ≠ l.length - 1
  · rw [if_pos hz]
    refine ⟨mx, hmxlt, hmax, ?_, ?_⟩
    · rw [swap_data _ _ _ (by rw [hs]; omega) (by rw [hs]; exact hmxlt)]
      rfl
    · exact le_trans (swap_swaps _ _ _) (by simp [mkS])
  · rw [if_neg hz]
    push_neg at hz
    refine ⟨l.length - 1, by omega, hz ▸ hmax, ?_, ?_⟩
    · rw [swapL_self]
      rfl
    · simp [mkS]

theorem minmax_of_single (l : List Int) (s' : SSt) (h1 : l.length = 1) :
    minSwapRes l s' → maxSwapRes l s' := by
  rintro ⟨m, hm, hmin, hdata, hsw⟩
  have hm0 : m = 0 := by omega
  subst hm0
  refine ⟨0, by omega, ?_, by rw [h1]; exact hdata, hsw⟩
  intro j hj
  have hj0 : j = 0 := by omega
  subst hj0
  exact le_refl _

/-! ### C10: the k = 1 and k = N fast paths -/

/-- C10: for every nonempty sequence, `select(S, 1)` and `select(S, N)` (in
each of the three entry points) produce the input with position 0
(respectively N-1) exchanged with one minimum (respectively maximum)
position, leaving every other position at its original element, and perform
at most one swap. -/
theorem c10_fast_paths (l : List Int) (h : l ≠ []) :
    minSwapRes l (goSelect l 1) ∧ minSwapRes l (goOrdered l 1) ∧
      minSwapRes l (goFunc l 1 cmpInt) ∧
      maxSwapRes l (goSelect l (l.length : Int)) ∧
      maxSwapRes l (goOrdered l (l.length : Int)) ∧
      maxSwapRes l (goFunc l (l.length : Int) cmpInt) := by
  have hn : 1 ≤ l.length := List.length_pos.mpr h
  have e1 : ((1 : Int) - 1).toNat = 0 := rfl
  have eN : ((l.length : Int) - 1).toNat = l.length - 1 := by omega
  have g1 : goSelect l 1 = pdqselectGo ltInt (mkS l) 0 l.length 0 (bitsLen l.length) := by
    rw [goSelect_in_range l 1 (by norm_num) (by exact_mod_cast hn), e1]
  have g2 : goOrdered l 1 =
      pdqselectOrderedGo ltInt (mkS l) 0 l.length 0 (bitsLen l.length) := by
    rw [goOrdered_in_range l 1 (by norm_num) (by exact_mod_cast hn), e1]
  have g3 : goFunc l 1 cmpInt =
      pdqselectFuncGo cmpInt (mkS l) 0 l.length 0 (bitsLen l.length) := by
    rw [goFunc_in_range l 1 cmpInt (by norm_num) (by exact_mod_cast hn), e1]
  have g4 : goSelect l (l.length : Int) =
      pdqselectGo ltInt (mkS l) 0 l.length (l.length - 1) (bitsLen l.length) := by
    rw [goSelect_in_range l _ (by exact_mod_cast hn) (le_refl _), eN]
  have g5 : goOrdered l (l.length : Int) =
      pdqselectOrderedGo ltInt (mkS l) 0 l.length (l.length - 1) (bitsLen l.length) := by
    rw [goOrdered_in_range l _ (by exact_mod_cast hn) (le_refl _), eN]
  have g6 : goFunc l (l.length : Int) cmpInt =
      pdqselectFuncGo cmpInt (mkS l) 0 l.length (l.length - 1) (bitsLen l.length) := by
    rw [goFunc_in_range l _ cmpInt (by exact_mod_cast hn) (le_refl _), eN]
  rcases Nat.lt_or_ge l.length 2 with h1 | h2
  · have hl1 : l.length = 1 := by omega
    have z : l.length - 1 = 0 := by omega
    refine ⟨g1 ▸ pdqMin_interface l hn _, g2 ▸ pdqMin_ordered l hn _,
      g3 ▸ pdqMin_func l hn _, ?_, ?_, ?_⟩
    · rw [g4, z]
      exact minmax_of_single l _ hl1 (pdqMin_interface l hn _)
    · rw [g5, z]
      exact minmax_of_single l _ hl1 (pdqMin_ordered l hn _)
    · rw [g6, z]
      exact minmax_of_single l _ hl1 (pdqMin_func l hn _)
  · exact ⟨g1 ▸ pdqMin_interface l hn _, g2 ▸ pdqMin_ordered l hn _,
      g3 ▸ pdqMin_func l hn _, g4 ▸ pdqMax_interface l h2 _,
      g5 ▸ pdqMax_ordered l h2 _, g6 ▸ pdqMax_func l h2 _⟩

theorem c10_fast_paths_witness :
    minSwapRes [3, 1, 2] (goSelect [3, 1, 2] 1) ∧
      minSwapRes [3, 1, 2] (goOrdered [3, 1, 2] 1) ∧
      minSwapRes [3, 1, 2] (goFunc [3, 1, 2] 1 cmpInt) ∧
      maxSwapRes [3, 1, 2] (goSelect [3, 1, 2] 3) ∧
      maxSwapRes [3, 1, 2] (goOrdered [3, 1, 2] 3) ∧
      maxSwapRes [3, 1, 2] (goFunc [3, 1, 2] 3 cmpInt) :=
  c10_fast_paths [3, 1, 2] (by simp)

/-! ### C3: what the driver passes to heap-select -/

/-- C3: evaluating the driver at a concrete state with exhausted budget.  On
`[a, b) = [1, 14)` with target `t = 2` the driver's heap-select branch is
exactly `heapSelect data a b t` - the absolute target index `t`, not the
relative rank `t - a` the spec prescribes - and the resulting sequence
differs from heap-select at the relative rank `t - a = 1`.  Moreover, on
`[2, 15)` with `t = 13` the call `heapSelect data a b t` swaps index
`a + t = 15`, outside the 15-element sequence (`bad` is set where Go
panics). -/
theorem c3_heap_rank_bug :
    pdqselectGo ltInt (mkS [14, 13, 12, 11, 10, 9, 8, 7, 6, 5, 4, 3, 2, 1, 0]) 1 14 2 0 =
      heapSelect ltInt (mkS [14, 13, 12, 11, 10, 9, 8, 7, 6, 5, 4, 3, 2, 1, 0]) 1 14 2 ∧
    (pdqselectGo ltInt (mkS [14, 13, 12, 11, 10, 9, 8, 7, 6, 5, 4, 3, 2, 1, 0]) 1 14 2 0).data ≠
      (heapSelect ltInt (mkS [14, 13, 12, 11, 10, 9, 8, 7, 6, 5, 4, 3, 2, 1, 0]) 1 14 1).data ∧
    (pdqselectGo ltInt (mkS [14, 13, 12, 11, 10, 9, 8, 7, 6, 5, 4, 3, 2, 1, 0]) 2 15 13 0).bad = true := by
  refine ⟨by decide, by decide, by decide⟩

/-! ### Permutation lemmas (the whole algorithm only swaps in place) -/

theorem swapL_perm (l : List Int) (i j : Nat) (hi : i < l.length)
    (hj : j < l.length) : (swapL l i j).Perm l := by
  rcases eq_or_ne i j with rfl | hne
  · rw [swapL_self]
  · rw [List.perm_iff_count]
    intro x
    unfold swapL
    have hj1 : j < (l.set i (l.getD j 0)).length := by simpa using hj
    rw [List.count_set _ _ _ _ hj1, List.count_set _ _ _ _ hi]
    have e1 : (l.set i (l.getD j 0))[j] = l[j] := by
      rw [List.getElem_set_ne (by omega)]
    rw [e1, List.getD_eq_getElem l 0 hj, List.getD_eq_getElem l 0 hi]
    have m1 : l[i] ∈ l := List.getElem_mem hi
    have m2 : l[j] ∈ l := List.getElem_mem hj
    have c1 : (l[i] = x) → 1 ≤ List.count x l := fun h => by
      rw [← h]; exact List.count_pos_iff_mem.mpr m1
    have c2 : (l[j] = x) → 1 ≤ List.count x l := fun h => by
      rw [← h]; exact List.count_pos_iff_mem.mpr m2
    by_cases e2 : l[i] = x <;> by_cases e3 : l[j] = x <;>
      simp [e2, e3] <;> omega

theorem swap_perm (s : SSt) (i j : Nat) : (s.swap i j).data.Perm s.data := by
  unfold SSt.swap
  split
  · rename_i h
    exact swapL_perm s.data i j h.1 h.2
  · exact List.Perm.refl _

theorem insShift_perm (lt : Int → Int → Bool) (s : SSt) (a j : Nat) :
    (insShift lt s a j).data.Perm s.data := by
  induction j generalizing s with
  | zero => exact List.Perm.refl _
  | succ j ih =>
    simp only [insShift]
    split
    · exact (ih _).trans (swap_perm _ _ _)
    · exact List.Perm.refl _

theorem insOuter_perm (lt : Int → Int → Bool) (fuel : Nat) (s : SSt)
    (a b i : Nat) : (insOuter lt fuel s a b i).data.Perm s.data := by
  induction fuel generalizing s i with
  | zero => exact List.Perm.refl _
  | succ fuel ih =>
    simp only [insOuter]
    split
    · exact (ih _ _).trans (insShift_perm lt s a i)
    · exact List.Perm.refl _

theorem insertionSort_perm (lt : Int → Int → Bool) (s : SSt) (a b : Nat) :
    (insertionSort lt s a b).data.Perm s.data :=
  insOuter_perm lt b s a b (a + 1)

theorem pShift_perm (lt : Int → Int → Bool) (s : SSt) (a j budget : Nat) :
    (pShift lt s a j budget).1.data.Perm s.data := by
  induction j generalizing s budget with
  | zero => exact List.Perm.refl _
  | succ j ih =>
    simp only [pShift]
    split
    · match budget with
      | 0 => exact List.Perm.refl _
      | bud + 1 => exact (ih _ _).trans (swap_perm _ _ _)
    · exact List.Perm.refl _

theorem pInsOuter_perm (lt : Int → Int → Bool) (fuel : Nat) (s : SSt)
    (a b i budget : Nat) : (pInsOuter lt fuel s a b i budget).2.data.Perm s.data := by
  induction fuel generalizing s i budget with
  | zero => exact List.Perm.refl _
  | succ fuel ih =>
    simp only [pInsOuter]
    split
    · have hps := pShift_perm lt s a i budget
      rcases hmatch : pShift lt s a i budget with ⟨s', bud', fl⟩
      rw [hmatch] at hps
      match fl with
      | true => exact hps
      | false => exact (ih _ _ _).trans hps
    · exact List.Perm.refl _

theorem pInsSort_perm (lt : Int → Int → Bool) (s : SSt) (a b : Nat) :
    (pInsSort lt s a b).2.data.Perm s.data :=
  pInsOuter_perm lt b s a b (a + 1) 8

theorem csw_perm (lt : Int → Int → Bool) (s : SSt) (p q : Nat) :
    (csw lt s p q).1.data.Perm s.data := by
  unfold csw
  split
  · exact swap_perm _ _ _
  · exact List.Perm.refl _

theorem med3_perm (lt : Int → Int → Bool) (s : SSt) (x c y : Nat) :
    (med3 lt s x c y).1.data.Perm s.data := by
  unfold med3
  exact ((csw_perm lt _ x c).trans (csw_perm lt _ c y)).trans (csw_perm lt s x c)

theorem choosePivot_perm (lt : Int → Int → Bool) (s : SSt) (a b : Nat) :
    (choosePivot lt s a b).1.data.Perm s.data := by
  simp only [choosePivot]
  split
  · exact List.Perm.refl _
  · split
    · have h := med3_perm lt s a (a + (b - a) / 2) (b - 1)
      rcases hm : med3 lt s a (a + (b - a) / 2) (b - 1) with ⟨s1, sw⟩
      rw [hm] at h
      exact h
    · have h1 := med3_perm lt s (a + (b - a) / 4 - 1) (a + (b - a) / 4) (a + (b - a) / 4 + 1)
      rcases hm1 : med3 lt s (a + (b - a) / 4 - 1) (a + (b - a) / 4) (a + (b - a) / 4 + 1) with ⟨s1, w1⟩
      rw [hm1] at h1
      have h2 := med3_perm lt s1 (a + 2 * ((b - a) / 4) - 1) (a + 2 * ((b - a) / 4)) (a + 2 * ((b - a) / 4) + 1)
      rcases hm2 : med3 lt s1 (a + 2 * ((b - a) / 4) - 1) (a + 2 * ((b - a) / 4)) (a + 2 * ((b - a) / 4) + 1) with ⟨s2, w2⟩
      rw [hm2] at h2
      have h3 := med3_perm lt s2 (a + 3 * ((b - a) / 4) - 1) (a + 3 * ((b - a) / 4)) (a + 3 * ((b - a) / 4) + 1)
      rcases hm3 : med3 lt s2 (a + 3 * ((b - a) / 4) - 1) (a + 3 * ((b - a) / 4)) (a + 3 * ((b - a) / 4) + 1) with ⟨s3, w3⟩
      rw [hm3] at h3
      have h4 := med3_perm lt s3 (a + (b - a) / 4) (a + 2 * ((b - a) / 4)) (a + 3 * ((b - a) / 4))
      rcases hm4 : med3 lt s3 (a + (b - a) / 4) (a + 2 * ((b - a) / 4)) (a + 3 * ((b - a) / 4)) with ⟨s4, w4⟩
      rw [hm4] at h4
      exact ((h4.trans h3).trans h2).trans h1

theorem revRangeAux_perm (fuel : Nat) (s : SSt) (a b : Nat) :
    (revRangeAux fuel s a b).data.Perm s.data := by
  induction fuel generalizing s a b with
  | zero => exact List.Perm.refl _
  | succ fuel ih =>
    simp only [revRangeAux]
    split
    · exact (ih _ _ _).trans (swap_perm _ _ _)
    · exact List.Perm.refl _

theorem reverseRange_perm (s : SSt) (a b : Nat) :
    (reverseRange s a b).data.Perm s.data :=
  revRangeAux_perm b s a b

theorem bpOne_perm (s : SSt) (a len pos r : Nat) :
    (bpOne s a len pos r).1.data.Perm s.data :=
  swap_perm _ _ _

theorem breakPatterns_perm (s : SSt) (a b : Nat) :
    (breakPatterns s a b).data.Perm s.data := by
  simp only [breakPatterns]
  set s0 : SSt := { s with breaks := s.breaks + 1 } with hs0
  have h0 : s0.data = s.data := rfl
  split
  · have h1 := bpOne_perm s0 a (b - a) (a + (b - a) / 2 - 1) (b - a)
    rcases hm1 : bpOne s0 a (b - a) (a + (b - a) / 2 - 1) (b - a) with ⟨s1, r1⟩
    rw [hm1] at h1
    have h2 := bpOne_perm s1 a (b - a) (a + (b - a) / 2 - 1 + 1) r1
    rcases hm2 : bpOne s1 a (b - a) (a + (b - a) / 2 - 1 + 1) r1 with ⟨s2, r2⟩
    rw [hm2] at h2
    exact (bpOne_perm s2 a (b - a) (a + (b - a) / 2 - 1 + 2) r2).trans
      (h2.trans (h0 ▸ h1))
  · exact h0 ▸ List.Perm.refl s.data

theorem partLoop_perm (lt : Int → Int → Bool) (pv : Int) (fuel : Nat)
    (s : SSt) (i j : Nat) (sw : Bool) :
    (partLoop lt pv fuel s i j sw).2.2.data.Perm s.data := by
  induction fuel generalizing s i j sw with
  | zero => exact List.Perm.refl _
  | succ fuel ih =>
    simp only [partLoop]
    split
    · exact List.Perm.refl _
    · exact (ih _ _ _ _).trans (swap_perm _ _ _)

theorem partition_perm (lt : Int → Int → Bool) (s : SSt) (a b p : Nat) :
    (partition lt s a b p).2.2.data.Perm s.data := by
  simp only [partition]
  have h1 := swap_perm s a p
  have h2 := partLoop_perm lt ((s.swap a p).get a) b (s.swap a p) (a + 1) (b - 1) false
  rcases hm : partLoop lt ((s.swap a p).get a) b (s.swap a p) (a + 1) (b - 1) false with ⟨j, ap, s2⟩
  rw [hm] at h2
  exact ((swap_perm s2 j a).trans h2).trans h1

theorem peLoop_perm (lt : Int → Int → Bool) (pv : Int) (fuel : Nat)
    (s : SSt) (i j : Nat) :
    (peLoop lt pv fuel s i j).2.data.Perm s.data := by
  induction fuel generalizing s i j with
  | zero => exact List.Perm.refl _
  | succ fuel ih =>
    simp only [peLoop]
    split
    · exact List.Perm.refl _
    · exact (ih _ _ _).trans (swap_perm _ _ _)

theorem partitionEqual_perm (lt : Int → Int → Bool) (s : SSt) (a b p : Nat) :
    (partitionEqual lt s a b p).2.data.Perm s.data := by
  simp only [partitionEqual]
  exact (peLoop_perm lt _ b _ (a + 1) (b - 1)).trans (swap_perm s a p)

theorem siftDown_perm (lt : Int → Int → Bool) (fuel : Nat) (s : SSt)
    (root hi first : Nat) : (siftDown lt fuel s root hi first).data.Perm s.data := by
  induction fuel generalizing s root with
  | zero => exact List.Perm.refl _
  | succ fuel ih =>
    simp only [siftDown]
    split
    · split <;> split <;> first
        | exact (ih _ _).trans (swap_perm _ _ _)
        | exact List.Perm.refl _
    · exact List.Perm.refl _

theorem hsBuild_perm (lt : Int → Int → Bool) (s : SSt) (hi a i : Nat) :
    (hsBuild lt s hi a i).data.Perm s.data := by
  induction i generalizing s with
  | zero => exact siftDown_perm lt hi s 0 hi a
  | succ i ih => exact (ih _).trans (siftDown_perm lt hi s (i + 1) hi a)

theorem hsStream_perm (lt : Int → Int → Bool) (fuel : Nat) (s : SSt)
    (a hi n i : Nat) : (hsStream lt fuel s a hi n i).data.Perm s.data := by
  induction fuel generalizing s i with
  | zero => exact List.Perm.refl _
  | succ fuel ih =>
    simp only [hsStream]
    split
    · refine (ih _ _).trans ?_
      split
      · exact (siftDown_perm lt hi _ 0 hi a).trans (swap_perm _ _ _)
      · exact List.Perm.refl _
    · exact List.Perm.refl _

theorem heapSelect_perm (lt : Int → Int → Bool) (s : SSt) (a b k : Nat) :
    (heapSelect lt s a b k).data.Perm s.data := by
  unfold heapSelect
  exact (swap_perm _ _ _).trans
    ((hsStream_perm lt _ _ a (k + 1) (b - a) (k + 1)).trans (hsBuild_perm lt s (k + 1) a (k / 2)))

theorem pivotPrep_perm (lt : Int → Int → Bool) (s1 : SSt) (a b : Nat) :
    (pivotPrep lt s1 a b).1.data.Perm s1.data := by
  simp only [pivotPrep]
  have h := choosePivot_perm lt s1 a b
  rcases hm : choosePivot lt s1 a b with ⟨s2, p0, h0⟩
  rw [hm] at h
  split
  · exact (reverseRange_perm s2 a b).trans h
  · exact h

theorem pdqStepTail_perm (lt : Int → Int → Bool) (len : Nat) (s4 : SSt)
    (a b k limit' p1 : Nat) (wb wp : Bool) :
    (pdqStepTail lt len s4 a b k limit' p1 wb wp).st.data.Perm s4.data := by
  simp only [pdqStepTail]
  split
  · have h := partitionEqual_perm lt s4 a b p1
    rcases hm : partitionEqual lt s4 a b p1 with ⟨mid, s5⟩
    rw [hm] at h
    split
    · exact h
    · exact h
  · have h := partition_perm lt s4 a b p1
    rcases hm : partition lt s4 a b p1 with ⟨mid, ap, s5⟩
    rw [hm] at h
    split
    · exact h
    · split
      · exact h
      · exact h

theorem pdqStepTailFunc_perm (c : Int → Int → Int) (len : Nat) (s4 : SSt)
    (a b k limit' p1 : Nat) (wb wp : Bool) :
    (pdqStepTailFunc c len s4 a b k limit' p1 wb wp).st.data.Perm s4.data := by
  simp only [pdqStepTailFunc]
  split
  · have h := partitionEqual_perm (ltc c) s4 a b p1
    rcases hm : partitionEqual (ltc c) s4 a b p1 with ⟨mid, s5⟩
    rw [hm] at h
    split
    · exact h
    · exact h
  · have h := partition_perm (ltc c) s4 a b p1
    rcases hm : partition (ltc c) s4 a b p1 with ⟨mid, ap, s5⟩
    rw [hm] at h
    split
    · exact h
    · split
      · exact h
      · exact h

theorem pdqStep_perm (lt : Int → Int → Bool) (s : SSt) (a b k limit : Nat)
    (wb wp : Bool) : (pdqStep lt s a b k limit wb wp).st.data.Perm s.data := by
  simp only [pdqStep]
  split
  · exact insertionSort_perm lt s a b
  split
  · exact heapSelect_perm lt s a b k
  set s1v := (if wb then s else breakPatterns s a b) with hs1v
  have hS1 : s1v.data.Perm s.data := by
    rw [hs1v]
    split
    · exact List.Perm.refl _
    · exact breakPatterns_perm s a b
  have hpp : (pivotPrep lt s1v a b).1.data.Perm s.data :=
    (pivotPrep_perm lt _ a b).trans hS1
  rcases hg : (if wb ∧ wp ∧ (pivotPrep lt s1v a b).2.2 = SortedHint.increasing
      then pInsSort lt (pivotPrep lt s1v a b).1 a b
      else (false, (pivotPrep lt s1v a b).1)) with ⟨fl, s4⟩
  have h4 : s4.data.Perm s.data := by
    split at hg
    · have h := pInsSort_perm lt (pivotPrep lt s1v a b).1 a b
      rw [hg] at h
      exact h.trans hpp
    · rw [← ((Prod.mk.injEq _ _ _ _).mp hg).2]
      exact hpp
  cases fl
  · exact (pdqStepTail_perm lt _ s4 a b k _ _ wb wp).trans h4
  · exact h4

theorem pdqStepFunc_perm (c : Int → Int → Int) (s : SSt) (a b k limit : Nat)
    (wb wp : Bool) : (pdqStepFunc c s a b k limit wb wp).st.data.Perm s.data := by
  simp only [pdqStepFunc]
  split
  · exact insertionSort_perm (ltc c) s a b
  split
  · exact heapSelect_perm (ltc c) s a b k
  set s1v := (if wb then s else breakPatterns s a b) with hs1v
  have hS1 : s1v.data.Perm s.data := by
    rw [hs1v]
    split
    · exact List.Perm.refl _
    · exact breakPatterns_perm s a b
  have hpp : (pivotPrep (ltc c) s1v a b).1.data.Perm s.data :=
    (pivotPrep_perm (ltc c) _ a b).trans hS1
  rcases hg : (if wb ∧ wp ∧ (pivotPrep (ltc c) s1v a b).2.2 = SortedHint.increasing
      then pInsSort (ltc c) (pivotPrep (ltc c) s1v a b).1 a b
      else (false, (pivotPrep (ltc c) s1v a b).1)) with ⟨fl, s4⟩
  have h4 : s4.data.Perm s.data := by
    split at hg
    · have h := pInsSort_perm (ltc c) (pivotPrep (ltc c) s1v a b).1 a b
      rw [hg] at h
      exact h.trans hpp
    · rw [← ((Prod.mk.injEq _ _ _ _).mp hg).2]
      exact hpp
  cases fl
  · exact (pdqStepTailFunc_perm c _ s4 a b k _ _ wb wp).trans h4
  · exact h4

theorem pdqLoop_perm (lt : Int → Int → Bool) (fuel : Nat) (s : SSt)
    (a b k limit : Nat) (wb wp : Bool) :
    (pdqLoop lt fuel s a b k limit wb wp).data.Perm s.data := by
  induction fuel generalizing s a b limit wb wp with
  | zero => exact List.Perm.refl _
  | succ fuel ih =>
    simp only [pdqLoop]
    have h := pdqStep_perm lt s a b k limit wb wp
    rcases hs : pdqStep lt s a b k limit wb wp with s' | ⟨s', a', b', limit', wb', wp'⟩ <;>
      rw [hs] at h
    · exact h
    · exact (ih _ _ _ _ _ _).trans h

theorem pdqLoopFunc_perm (c : Int → Int → Int) (fuel : Nat) (s : SSt)
    (a b k limit : Nat) (wb wp : Bool) :
    (pdqLoopFunc c fuel s a b k limit wb wp).data.Perm s.data := by
  induction fuel generalizing s a b limit wb wp with
  | zero => exact List.Perm.refl _
  | succ fuel ih =>
    simp only [pdqLoopFunc]
    have h := pdqStepFunc_perm c s a b k limit wb wp
    rcases hs : pdqStepFunc c s a b k limit wb wp with s' | ⟨s', a', b', limit', wb', wp'⟩ <;>
      rw [hs] at h
    · exact h
    · exact (ih _ _ _ _ _ _).trans h

theorem pdqselectGo_perm (lt : Int → Int → Bool) (s : SSt) (a b k limit : Nat) :
    (pdqselectGo lt s a b k limit).data.Perm s.data := by
  simp only [pdqselectGo]
  split
  · split
    · exact swap_perm _ _ _
    · exact List.Perm.refl _
  · split
    · split
      · exact swap_perm _ _ _
      · exact List.Perm.refl _
    · exact pdqLoop_perm lt _ s a b k limit true true

theorem pdqselectOrderedGo_perm (lt : Int → Int → Bool) (s : SSt)
    (a b k limit : Nat) :
    (pdqselectOrderedGo lt s a b k limit).data.Perm s.data := by
  simp only [pdqselectOrderedGo]
  split
  · exact swap_perm _ _ _
  · split
    · exact swap_perm _ _ _
    · exact pdqLoop_perm lt _ s a b k limit true true

theorem pdqselectFuncGo_perm (c : Int → Int → Int) (s : SSt)
    (a b k limit : Nat) :
    (pdqselectFuncGo c s a b k limit).data.Perm s.data := by
  simp only [pdqselectFuncGo]
  split
  · split
    · exact swap_perm _ _ _
    · exact List.Perm.refl _
  · split
    · split
      · exact swap_perm _ _ _
      · exact List.Perm.refl _
    · exact pdqLoopFunc_perm c _ s a b k limit true true

theorem sortL_perm (l : List Int) : (sortL l).Perm l :=
  List.mergeSort_perm l _

theorem sortL_sorted (l : List Int) :
    List.Pairwise (fun x y : Int => x ≤ y) (sortL l) := by
  have h := @List.sorted_mergeSort Int (fun x y : Int => decide (x ≤ y))
    (fun a b c hab hbc => by simp at hab hbc ⊢; omega)
    (fun a b => by simpa using Int.le_total a b) l
  exact h.imp (fun hab => by simpa using hab)

theorem perm_sortL_eq (l1 l2 : List Int) (h : l1.Perm l2) :
    sortL l1 = sortL l2 :=
  List.eq_of_perm_of_sorted ((sortL_perm l1).trans (h.trans (sortL_perm l2).symm))
    (sortL_sorted l1) (sortL_sorted l2)

theorem goSelect_perm (l : List Int) (k : Int) : (goSelect l k).data.Perm l := by
  simp only [goSelect]
  split
  · exact List.Perm.refl _
  · exact pdqselectGo_perm ltInt (mkS l) 0 (mkS l).n (k - 1).toNat (initialLimit (mkS l).n)

theorem goOrdered_perm (l : List Int) (k : Int) : (goOrdered l k).data.Perm l := by
  simp only [goOrdered]
  split
  · exact List.Perm.refl _
  · exact pdqselectOrderedGo_perm ltInt (mkS l) 0 (mkS l).n (k - 1).toNat (initialLimit (mkS l).n)

theorem goFunc_perm (l : List Int) (k : Int) (c : Int → Int → Int) :
    (goFunc l k c).data.Perm l := by
  simp only [goFunc]
  split
  · exact List.Perm.refl _
  · exact pdqselectFuncGo_perm c (mkS l) 0 (mkS l).n (k - 1).toNat (initialLimit (mkS l).n)

/-! ### C7: the multiset of elements is preserved -/

/-- C7: for every sequence S, every k (in-range or not) and every comparator,
the multiset of elements after select equals the multiset before - the final
sequence is a permutation of the input, and sorting before and after the call
yields the same list.  This holds for all three entry points (the algorithm
only ever exchanges two positions in place). -/
theorem c7_multiset (l : List Int) (k : Int) (c : Int → Int → Int) :
    (goSelect l k).data.Perm l ∧ sortL (goSelect l k).data = sortL l ∧
      (goOrdered l k).data.Perm l ∧ sortL (goOrdered l k).data = sortL l ∧
      (goFunc l k c).data.Perm l ∧ sortL (goFunc l k c).data = sortL l :=
  ⟨goSelect_perm l k, perm_sortL_eq _ _ (goSelect_perm l k),
    goOrdered_perm l k, perm_sortL_eq _ _ (goOrdered_perm l k),
    goFunc_perm l k c, perm_sortL_eq _ _ (goFunc_perm l k c)⟩

theorem swap_self_data (s : SSt) (i : Nat) : (s.swap i i).data = s.data := by
  unfold SSt.swap
  split
  · show (s.data.set i (s.get i)).set i (s.get i) = s.data
    rw [List.set_set]
    exact set_getD_self s.data i
  · rfl

theorem swap_data_comm (s : SSt) (i j : Nat) :
    (s.swap i j).data = (s.swap j i).data := by
  unfold SSt.swap
  by_cases h : i < s.n ∧ j < s.n
  · rw [if_pos h, if_pos ⟨h.2, h.1⟩]
    exact swapL_comm s.data i j
  · rw [if_neg h, if_neg (fun hc => h ⟨hc.2, hc.1⟩)]

theorem fastMinFrom_fuel (lt : Int → Int → Bool) (s : SSt) :
    ∀ f g mn i b, b ≤ i + f → b ≤ i + g →
      fastMinFrom lt s f mn i b = fastMinFrom lt s g mn i b := by
  intro f
  induction f with
  | zero =>
    intro g mn i b hf hg
    cases g with
    | zero => rfl
    | succ g =>
      simp only [fastMinFrom]
      rw [if_neg (by omega)]
  | succ f ih =>
    intro g mn i b hf hg
    cases g with
    | zero =>
      simp only [fastMinFrom]
      rw [if_neg (by omega)]
    | succ g =>
      simp only [fastMinFrom]
      by_cases hib : i < b
      · rw [if_pos hib, if_pos hib]
        exact ih g _ (i + 1) b (by omega) (by omega)
      · rw [if_neg hib, if_neg hib]

theorem ltInt_irrefl (x : Int) : ltInt x x = false := by
  simp [ltInt]

theorem fastMinFrom_start (lt : Int → Int → Bool) (s : SSt) (a b f : Nat)
    (hab : a < b) (hirr : lt (s.get a) (s.get a) = false) :
    fastMinFrom lt s (f + 1) a a b = fastMinFrom lt s f a (a + 1) b := by
  simp only [fastMinFrom]
  rw [if_pos hab, hirr]
  simp

theorem ltc_cmpInt : ltc cmpInt = ltInt := by
  funext x y
  simp only [ltc, ltInt]
  exact decide_eq_decide.mpr (cmpInt_lt_zero x y)

theorem pdqStepTailFunc_cmpInt (len : Nat) (s4 : SSt)
    (a b k limit' p1 : Nat) (wb wp : Bool) :
    pdqStepTailFunc cmpInt len s4 a b k limit' p1 wb wp =
      pdqStepTail ltInt len s4 a b k limit' p1 wb wp := by
  simp only [pdqStepTailFunc, pdqStepTail, ltc_cmpInt]
  have hc : (0 < a ∧ 0 ≤ cmpInt (s4.get (a - 1)) (s4.get p1)) ↔
      (0 < a ∧ ¬ ltInt (s4.get (a - 1)) (s4.get p1)) := by
    constructor
    · rintro ⟨h1, h2⟩
      refine ⟨h1, ?_⟩
      simp only [ltInt, decide_eq_true_eq]
      exact not_lt.mpr ((cmpInt_nonneg _ _).mp h2)
    · rintro ⟨h1, h2⟩
      refine ⟨h1, (cmpInt_nonneg _ _).mpr ?_⟩
      simp only [ltInt, decide_eq_true_eq] at h2
      exact not_lt.mp h2
  exact if_congr hc rfl rfl

theorem pdqStepFunc_cmpInt (s : SSt) (a b k limit : Nat) (wb wp : Bool) :
    pdqStepFunc cmpInt s a b k limit wb wp = pdqStep ltInt s a b k limit wb wp := by
  simp only [pdqStepFunc, pdqStep, ltc_cmpInt, pdqStepTailFunc_cmpInt]

theorem pdqLoopFunc_cmpInt (fuel : Nat) (s : SSt) (a b k limit : Nat)
    (wb wp : Bool) :
    pdqLoopFunc cmpInt fuel s a b k limit wb wp =
      pdqLoop ltInt fuel s a b k limit wb wp := by
  induction fuel generalizing s a b limit wb wp with
  | zero => rfl
  | succ fuel ih =>
    simp only [pdqLoopFunc, pdqLoop, pdqStepFunc_cmpInt]
    rcases h : pdqStep ltInt s a b k limit wb wp with s' | ⟨s', a', b', limit', wb', wp'⟩
    · rfl
    · exact ih _ _ _ _ _ _

theorem pdqselect_data_ordered (s : SSt) (a b k limit : Nat) :
    (pdqselectGo ltInt s a b k limit).data =
      (pdqselectOrderedGo ltInt s a b k limit).data := by
  simp only [pdqselectGo, pdqselectOrderedGo]
  by_cases hk0 : k = 0
  · rw [if_pos hk0, if_pos hk0]
    by_cases hab : a < b
    · obtain ⟨f, rfl⟩ : ∃ f, b = f + 1 := ⟨b - 1, by omega⟩
      rw [fastMinFrom_start ltInt s a (f + 1) f hab (ltInt_irrefl _),
        fastMinFrom_fuel ltInt s f (f + 1) a (a + 1) (f + 1) (by omega) (by omega)]
      set mn := fastMinFrom ltInt s (f + 1) a (a + 1) (f + 1) with hmn
      by_cases hz : mn ≠ a
      · rw [if_pos hz]
        exact swap_data_comm s mn a
      · rw [if_neg hz]
        push_neg at hz
        rw [hz, swap_self_data]
    · have h1 : fastMinFrom ltInt s b a a b = a := by
        cases b with
        | zero => rfl
        | succ f =>
          simp only [fastMinFrom]
          rw [if_neg hab]
      have h2 : fastMinFrom ltInt s b a (a + 1) b = a := by
        cases b with
        | zero => rfl
        | succ f =>
          simp only [fastMinFrom]
          rw [if_neg (by omega)]
      rw [h1, h2, if_neg (by simp), swap_self_data]
  · rw [if_neg hk0, if_neg hk0]
    by_cases hkb : k = b - 1
    · rw [if_pos hkb, if_pos hkb]
      set mx := fastMaxFrom ltInt s b a (a + 1) b with hmx
      by_cases hz : mx ≠ b - 1
      · rw [if_pos hz]
        exact swap_data_comm s mx (b - 1)
      · rw [if_neg hz]
        push_neg at hz
        rw [hz, swap_self_data]
    · rw [if_neg hkb, if_neg hkb]

theorem pdqselect_data_func (s : SSt) (a b k limit : Nat) :
    (pdqselectOrderedGo ltInt s a b k limit).data =
      (pdqselectFuncGo cmpInt s a b k limit).data := by
  simp only [pdqselectOrderedGo, pdqselectFuncGo]
  by_cases hk0 : k = 0
  · rw [if_pos hk0, if_pos hk0, fastMinFromF_cmpInt]
    set mn := fastMinFrom ltInt s b a (a + 1) b with hmn
    by_cases hz : mn ≠ a
    · rw [if_pos hz]
    · rw [if_neg hz]
      push_neg at hz
      rw [hz, swap_self_data]
  · rw [if_neg hk0, if_neg hk0]
    by_cases hkb : k = b - 1
    · rw [if_pos hkb, if_pos hkb, fastMaxFromF_cmpInt]
      set mx := fastMaxFrom ltInt s b a (a + 1) b with hmx
      by_cases hz : mx ≠ b - 1
      · rw [if_pos hz]
      · rw [if_neg hz]
        push_neg at hz
        rw [hz, swap_self_data]
    · rw [if_neg hkb, if_neg hkb, pdqLoopFunc_cmpInt]

/-! ### C6: the three public entry points coincide -/

/-- C6: for every integer slice S and every k, the three public entry points
produce identical final sequences: Select over sort.IntSlice, Ordered, and
Func with the natural comparator leave S in the same state. -/
theorem c6_entry_equiv (l : List Int) (k : Int) :
    (goSelect l k).data = (goOrdered l k).data ∧
      (goOrdered l k).data = (goFunc l k cmpInt).data := by
  by_cases hr : k < 1 ∨ (((mkS l).n : Int) < k)
  · constructor <;>
      · simp only [goSelect, goOrdered, goFunc]
        rw [if_pos hr, if_pos hr]
  · constructor
    · simp only [goSelect, goOrdered]
      rw [if_neg hr, if_neg hr]
      exact pdqselect_data_ordered (mkS l) 0 (mkS l).n (k - 1).toNat (initialLimit (mkS l).n)
    · simp only [goOrdered, goFunc]
      rw [if_neg hr, if_neg hr]
      exact pdqselect_data_func (mkS l) 0 (mkS l).n (k - 1).toNat (initialLimit (mkS l).n)

theorem getD_set_eq (l : List Int) (i : Nat) (v : Int) (h : i < l.length) :
    (l.set i v).getD i 0 = v := by
  simp [List.getD_eq_getElem?_getD, List.getElem?_set, h]

theorem getD_set_ne (l : List Int) (i x : Nat) (v : Int) (h : i ≠ x) :
    (l.set i v).getD x 0 = l.getD x 0 := by
  simp [List.getD_eq_getElem?_getD, List.getElem?_set, h]

theorem swap_n (s : SSt) (i j : Nat) : (s.swap i j).n = s.n := by
  unfold SSt.swap
  split <;> simp [SSt.n]

theorem get_swap_fst (s : SSt) (i j : Nat) (hi : i < s.n) (hj : j < s.n) :
    (s.swap i j).get i = s.get j := by
  unfold SSt.swap
  rw [if_pos ⟨hi, hj⟩]
  show ((s.data.set i (s.get j)).set j (s.get i)).getD i 0 = s.get j
  rcases eq_or_ne j i with rfl | hne
  · rw [List.set_set]
    exact getD_set_eq _ _ _ hi
  · rw [getD_set_ne _ _ _ _ hne]
    exact getD_set_eq _ _ _ hi

theorem get_swap_snd (s : SSt) (i j : Nat) (hi : i < s.n) (hj : j < s.n) :
    (s.swap i j).get j = s.get i := by
  unfold SSt.swap
  rw [if_pos ⟨hi, hj⟩]
  show ((s.data.set i (s.get j)).set j (s.get i)).getD j 0 = s.get i
  exact getD_set_eq _ _ _ (by simpa using hj)

theorem get_swap_other (s : SSt) (i j x : Nat) (hx1 : x ≠ i) (hx2 : x ≠ j) :
    (s.swap i j).get x = s.get x := by
  unfold SSt.swap
  split
  · show ((s.data.set i (s.get j)).set j (s.get i)).getD x 0 = s.get x
    rw [getD_set_ne _ _ _ _ (Ne.symm hx2), getD_set_ne _ _ _ _ (Ne.symm hx1)]
    rfl
  · rfl

theorem swapL_length (l : List Int) (i j : Nat) :
    (swapL l i j).length = l.length := by
  simp [swapL]

theorem swapL_getD_fst (l : List Int) (i j : Nat) (hi : i < l.length) :
    (swapL l i j).getD i 0 = l.getD j 0 := by
  unfold swapL
  rcases eq_or_ne j i with rfl | hne
  · rw [List.set_set]
    exact getD_set_eq _ _ _ hi
  · rw [getD_set_ne _ _ _ _ hne]
    exact getD_set_eq _ _ _ hi

theorem swapL_getD_snd (l : List Int) (i j : Nat) (hj : j < l.length) :
    (swapL l i j).getD j 0 = l.getD i 0 := by
  unfold swapL
  exact getD_set_eq _ _ _ (by simpa using hj)

theorem swapL_getD_other (l : List Int) (i j x : Nat) (hx1 : x ≠ i) (hx2 : x ≠ j) :
    (swapL l i j).getD x 0 = l.getD x 0 := by
  unfold swapL
  rw [getD_set_ne _ _ _ _ (Ne.symm hx2), getD_set_ne _ _ _ _ (Ne.symm hx1)]

theorem swapL_eq_self_of_eq (l : List Int) (i j : Nat)
    (h : l.getD i 0 = l.getD j 0) : swapL l i j = l := by
  unfold swapL
  rw [← h, set_getD_self, h, set_getD_self]

theorem fastMin_stay (s : SSt) (mn : Nat) :
    ∀ (f i b : Nat), (∀ x, i ≤ x → x < b → ¬ s.get x < s.get mn) →
      fastMinFrom ltInt s f mn i b = mn := by
  intro f
  induction f with
  | zero => intro i b h; rfl
  | succ f ih =>
    intro i b h
    simp only [fastMinFrom]
    by_cases hib : i < b
    · rw [if_pos hib, if_neg (by simpa [ltInt] using h i (le_refl i) hib)]
      exact ih (i + 1) b (fun x hx hxb => h x (by omega) hxb)
    · rw [if_neg hib]

theorem insShift_spec (a B : Nat) :
    ∀ (j : Nat) (s : SSt), j < B → B ≤ s.n → sortedRange s a j →
      sortedRange (insShift ltInt s a j) a (j + 1) ∧
      (∀ m, m < a ∨ j < m → (insShift ltInt s a j).get m = s.get m) ∧
      (∀ x : Int, (∀ p, a ≤ p → p ≤ j → s.get p ≤ x) →
        ∀ p, a ≤ p → p ≤ j → (insShift ltInt s a j).get p ≤ x) := by
  intro j
  induction j with
  | zero =>
    intro s hj hB hsort
    refine ⟨?_, fun m _ => rfl, fun x hx p hp hpj => hx p hp hpj⟩
    intro p q hp hpq hq
    have hp0 : p = 0 := by omega
    have hq0 : q = 0 := by omega
    subst hp0
    rw [hq0]
  | succ j ih =>
    intro s hj hB hsort
    simp only [insShift]
    by_cases hg : a < j + 1 ∧ ltInt (s.get (j + 1)) (s.get j)
    · rw [if_pos hg]
      obtain ⟨ha, hlt⟩ := hg
      have hvw : s.get (j + 1) < s.get j := by simpa [ltInt] using hlt
      have hjn : j < s.n := by omega
      have hj1n : j + 1 < s.n := by omega
      set s1 := s.swap (j + 1) j with hs1
      have g1 : s1.get j = s.get (j + 1) := get_swap_snd s (j + 1) j hj1n hjn
      have g2' : s1.get (j + 1) = s.get j := get_swap_fst s (j + 1) j hj1n hjn
      have g3 : ∀ m, m ≠ j → m ≠ j + 1 → s1.get m = s.get m := fun m h1 h2 =>
        get_swap_other s (j + 1) j m h2 h1
      have hsort1 : sortedRange s1 a j := by
        intro p q hp hpq hq
        rw [g3 p (by omega) (by omega), g3 q (by omega) (by omega)]
        exact hsort p q hp hpq (by omega)
      have hBn : B ≤ s1.n := by rw [hs1, swap_n]; exact hB
      obtain ⟨ih1, ih2, ih3⟩ := ih s1 (by omega) hBn hsort1
      have hrj1 : (insShift ltInt s1 a j).get (j + 1) = s.get j := by
        rw [ih2 (j + 1) (Or.inr (by omega)), g2']
      refine ⟨?_, ?_, ?_⟩
      · intro p q hp hpq hq
        rcases Nat.lt_or_ge q (j + 1) with hq' | hq'
        · exact ih1 p q hp hpq hq'
        · have hq1 : q = j + 1 := by omega
          subst hq1
          rw [hrj1]
          rcases Nat.lt_or_ge p (j + 1) with hp' | hp'
          · refine ih3 (s.get j) ?_ p hp (by omega)
            intro p2 hp2 hp2j
            rcases Nat.lt_or_ge p2 j with hp2' | hp2'
            · rw [g3 p2 (by omega) (by omega)]
              exact hsort p2 j hp2 (by omega) (by omega)
            · have : p2 = j := by omega
              subst this
              rw [g1]
              exact le_of_lt hvw
          · have : p = j + 1 := by omega
            subst this
            rw [hrj1]
      · intro m hm
        have hm' : m < a ∨ j < m := by omega
        rcases hm with hm | hm
        · rw [ih2 m (Or.inl hm), g3 m (by omega) (by omega)]
        · rw [ih2 m (Or.inr (by omega)), g3 m (by omega) (by omega)]
      · intro x hx p hp hpj
        rcases Nat.lt_or_ge p (j + 1) with hp' | hp'
        · refine ih3 x ?_ p hp (by omega)
          intro p2 hp2 hp2j
          rcases Nat.lt_or_ge p2 j with hp2' | hp2'
          · rw [g3 p2 (by omega) (by omega)]
            exact hx p2 hp2 (by omega)
          · have : p2 = j := by omega
            subst this
            rw [g1]
            exact hx _ (by omega) (le_refl _)
        · have : p = j + 1 := by omega
          subst this
          rw [hrj1]
          exact hx j (by omega) (by omega)
    · rw [if_neg hg]
      refine ⟨?_, fun m _ => rfl, fun x hx p hp hpj => hx p hp hpj⟩
      intro p q hp hpq hq
      rcases Nat.lt_or_ge q (j + 1) with hq' | hq'
      · exact hsort p q hp hpq hq'
      · have hq1 : q = j + 1 := by omega
        subst hq1
        by_cases ha : a < j + 1
        · have hle : s.get j ≤ s.get (j + 1) := by
            have : ¬ ltInt (s.get (j + 1)) (s.get j) := fun hc => hg ⟨ha, hc⟩
            simpa [ltInt] using this
          rcases Nat.lt_or_ge p (j + 1) with hp' | hp'
          · exact le_trans (hsort p j hp (by omega) (by omega)) hle
          · have : p = j + 1 := by omega
            subst this
            exact le_refl _
        · have : p = j + 1 := by omega
          subst this
          exact le_refl _

theorem insOuter_spec (a b : Nat) :
    ∀ (fuel : Nat) (s : SSt) (i : Nat), b ≤ i + fuel → b ≤ s.n → a < i →
      sortedRange s a i →
      sortedRange (insOuter ltInt fuel s a b i) a b ∧
      (∀ m, m < a ∨ b ≤ m → (insOuter ltInt fuel s a b i).get m = s.get m) := by
  intro fuel
  induction fuel with
  | zero =>
    intro s i hfuel hB hai hsort
    refine ⟨fun p q hp hpq hq => hsort p q hp hpq (by omega), fun m _ => rfl⟩
  | succ fuel ih =>
    intro s i hfuel hB hai hsort
    simp only [insOuter]
    by_cases hib : i < b
    · rw [if_pos hib]
      obtain ⟨sh1, sh2, _⟩ := insShift_spec a b i s hib hB hsort
      have hBn : b ≤ (insShift ltInt s a i).n := by
        show b ≤ (insShift ltInt s a i).data.length
        rw [(insShift_perm ltInt s a i).length_eq]
        exact hB
      obtain ⟨o1, o2⟩ := ih (insShift ltInt s a i) (i + 1) (by omega) hBn (by omega) sh1
      refine ⟨o1, ?_⟩
      intro m hm
      rw [o2 m hm, sh2 m (by omega)]
    · rw [if_neg hib]
      exact ⟨fun p q hp hpq hq => hsort p q hp hpq (by omega), fun m _ => rfl⟩

theorem insertionSort_sorts (s : SSt) (a b : Nat) (hB : b ≤ s.n) :
    sortedRange (insertionSort ltInt s a b) a b ∧
    (∀ m, m < a ∨ b ≤ m → (insertionSort ltInt s a b).get m = s.get m) := by
  unfold insertionSort
  exact insOuter_spec a b b s (a + 1) (by omega) hB (by omega)
    (fun p q hp hpq hq => by
      have hpa : p = a := by omega
      have hqa : q = a := by omega
      subst hpa
      rw [hqa])

theorem insShift_id (lt : Int → Int → Bool) (s : SSt) (a j : Nat)
    (h : ¬ (a < j ∧ lt (s.get j) (s.get (j - 1)))) : insShift lt s a j = s := by
  cases j with
  | zero => rfl
  | succ j =>
    simp only [insShift]
    rw [if_neg (by simpa using h)]

theorem insOuter_id (s : SSt) (a b : Nat) (hsort : sortedRange s a b) :
    ∀ (fuel : Nat) (i : Nat), a < i → insOuter ltInt fuel s a b i = s := by
  intro fuel
  induction fuel with
  | zero => intro i _; rfl
  | succ fuel ih =>
    intro i hai
    simp only [insOuter]
    by_cases hib : i < b
    · rw [if_pos hib, insShift_id ltInt s a i (by
        rintro ⟨h1, h2⟩
        have := hsort (i - 1) i (by omega) (by omega) hib
        simp [ltInt] at h2
        omega)]
      exact ih (i + 1) (by omega)
    · rw [if_neg hib]

theorem insertionSort_id_of_sorted (s : SSt) (a b : Nat)
    (hsort : sortedRange s a b) : insertionSort ltInt s a b = s :=
  insOuter_id s a b hsort b (a + 1) (by omega)

theorem pdqLoop_small (lt : Int → Int → Bool) (fuel : Nat) (s : SSt)
    (a b k limit : Nat) (wb wp : Bool) (h : b - a ≤ 12) :
    pdqLoop lt (fuel + 1) s a b k limit wb wp = insertionSort lt s a b := by
  have hstep : pdqStep lt s a b k limit wb wp = .done (insertionSort lt s a b) := by
    simp only [pdqStep]
    rw [if_pos h]
  simp only [pdqLoop]
  rw [hstep]

theorem goSelect_skip (l : List Int) (k : Int)
    (h : k < 1 ∨ (l.length : Int) < k) : goSelect l k = mkS l := by
  simp only [goSelect]
  rw [if_pos (show k < 1 ∨ ((mkS l).n : Int) < k from h)]

/-- C9 (counterexample): on the 13-element reversed sequence with k = 7, a
second call to Select with the same k changes the sequence again, so the
second call is not a no-op. -/
theorem c9_counterexample :
    (goSelect (goSelect [12,11,10,9,8,7,6,5,4,3,2,1,0] 7).data 7).data ≠
      (goSelect [12,11,10,9,8,7,6,5,4,3,2,1,0] 7).data := by decide

/-- C9 (amended): a second call to Select with the same k always preserves
the multiset of elements, and for sequences of length at most 12 (the pure
insertion-sort regime of the driver) the second call leaves the sequence
exactly unchanged. -/
theorem c9_amended (l : List Int) (k : Int) :
    sortL (goSelect (goSelect l k).data k).data = sortL (goSelect l k).data ∧
    (l.length ≤ 12 →
      (goSelect (goSelect l k).data k).data = (goSelect l k).data) := by
  have hlen : (goSelect l k).data.length = l.length := (goSelect_perm l k).length_eq
  constructor
  · exact perm_sortL_eq _ _ (goSelect_perm _ _)
  intro h12
  by_cases hk : 1 ≤ k ∧ k ≤ (l.length : Int)
  case neg =>
    have hno : goSelect (goSelect l k).data k = mkS (goSelect l k).data := by
      refine goSelect_skip _ _ ?_
      rw [hlen]
      omega
    rw [hno]
    rfl
  case pos =>
    obtain ⟨hk1, hk2⟩ := hk
    have hN1 : 1 ≤ l.length := by omega
    have hfirst : goSelect l k =
        pdqselectGo ltInt (mkS l) 0 l.length (k - 1).toNat (bitsLen l.length) :=
      goSelect_in_range l k hk1 hk2
    have hsecond : goSelect (goSelect l k).data k =
        pdqselectGo ltInt (mkS (goSelect l k).data) 0 (goSelect l k).data.length
          (k - 1).toNat (bitsLen (goSelect l k).data.length) :=
      goSelect_in_range _ k hk1 (by rw [hlen]; exact hk2)
    rw [hsecond, hlen]
    by_cases hk0 : (k - 1).toNat = 0
    · rw [hk0]
      rw [hk0] at hfirst
      obtain ⟨m, hm, hmin, hdata, _⟩ := pdqMin_interface l hN1 (bitsLen l.length)
      have hl1 : (goSelect l k).data = swapL l 0 m := by rw [hfirst]; exact hdata
      have hget : ∀ x, x < l.length → l.getD m 0 ≤ (swapL l 0 m).getD x 0 := by
        intro x hx
        by_cases hx0 : x = 0
        · subst hx0
          rw [swapL_getD_fst l 0 m (by omega)]
        · by_cases hxm : x = m
          · rw [hxm, swapL_getD_snd l 0 m hm]
            exact hmin 0 (by omega)
          · rw [swapL_getD_other l 0 m x hx0 hxm]
            exact hmin x hx
      have hstay :
          fastMinFrom ltInt (mkS (goSelect l k).data) l.length 0 0 l.length = 0 := by
        apply fastMin_stay
        intro x _ hx
        rw [not_lt]
        show (goSelect l k).data.getD 0 0 ≤ (goSelect l k).data.getD x 0
        rw [hl1, swapL_getD_fst l 0 m (by omega)]
        exact hget x hx
      unfold pdqselectGo
      rw [if_pos rfl, hstay, if_neg (fun hc => hc rfl)]
      rfl
    · by_cases hkN : (k - 1).toNat = l.length - 1
      · rw [hkN]
        rw [hkN] at hfirst
        have hN2 : 2 ≤ l.length := by omega
        obtain ⟨m, hm, hmax, hdata, _⟩ := pdqMax_interface l hN2 (bitsLen l.length)
        have hl1 : (goSelect l k).data = swapL l (l.length - 1) m := by
          rw [hfirst]; exact hdata
        have hmaxval : (goSelect l k).data.getD (l.length - 1) 0 = l.getD m 0 := by
          rw [hl1, swapL_getD_fst l (l.length - 1) m (by omega)]
        have hget : ∀ x, x < l.length →
            (goSelect l k).data.getD x 0 ≤ l.getD m 0 := by
          intro x hx
          rw [hl1]
          by_cases hx0 : x = l.length - 1
          · subst hx0
            rw [swapL_getD_fst l (l.length - 1) m (by omega)]
          · by_cases hxm : x = m
            · rw [hxm, swapL_getD_snd l (l.length - 1) m hm]
              exact hmax (l.length - 1) (by omega)
            · rw [swapL_getD_other l (l.length - 1) m x hx0 hxm]
              exact hmax x hx
        unfold pdqselectGo
        rw [if_neg (show ¬(l.length - 1 = 0) by omega), if_pos rfl]
        obtain ⟨hp, hle, hall⟩ :=
          fastMax_spec (mkS (goSelect l k).data) l.length 0 1 l.length (by omega)
        set mx := fastMaxFrom ltInt (mkS (goSelect l k).data) l.length 0 1 l.length
          with hmx
        have hmxlt : mx < l.length := by
          rcases hp with h | h
          · omega
          · exact h.2
        have heq : (goSelect l k).data.getD mx 0 =
            (goSelect l k).data.getD (l.length - 1) 0 := by
          refine le_antisymm ?_ ?_
          · rw [hmaxval]
            exact hget mx hmxlt
          · exact hall (l.length - 1) (by omega) (by omega)
        by_cases hz : mx ≠ l.length - 1
        · rw [if_pos hz]
          have hsn : (mkS (goSelect l k).data).n = l.length := by
            show (goSelect l k).data.length = l.length
            exact hlen
          rw [swap_data _ _ _ (by rw [hsn]; exact hmxlt) (by rw [hsn]; omega)]
          exact swapL_eq_self_of_eq _ _ _ heq
        · rw [if_neg hz]
          rfl
      · have hF : pdqselectGo ltInt (mkS l) 0 l.length (k - 1).toNat
            (bitsLen l.length) = insertionSort ltInt (mkS l) 0 l.length := by
          unfold pdqselectGo
          rw [if_neg hk0, if_neg hkN]
          show pdqLoop ltInt (l.length + 1) (mkS l) 0 l.length (k - 1).toNat
            (bitsLen l.length) true true = _
          exact pdqLoop_small ltInt l.length (mkS l) 0 l.length (k - 1).toNat
            (bitsLen l.length) true true (by omega)
        have hsorted1 :
            sortedRange (insertionSort ltInt (mkS l) 0 l.length) 0 l.length :=
          (insertionSort_sorts (mkS l) 0 l.length (le_refl _)).1
        have hl1 : (goSelect l k).data =
            (insertionSort ltInt (mkS l) 0 l.length).data := by
          rw [hfirst, hF]
        have hsorted : sortedRange (mkS (goSelect l k).data) 0 l.length := by
          intro p q hp hpq hq
          show (goSelect l k).data.getD p 0 ≤ (goSelect l k).data.getD q 0
          rw [hl1]
          exact hsorted1 p q hp hpq hq
        unfold pdqselectGo
        rw [if_neg hk0, if_neg hkN]
        show (pdqLoop ltInt (l.length + 1) (mkS (goSelect l k).data) 0 l.length
          (k - 1).toNat (bitsLen l.length) true true).data = _
        rw [pdqLoop_small ltInt l.length (mkS (goSelect l k).data) 0 l.length
          (k - 1).toNat (bitsLen l.length) true true (by omega)]
        rw [insertionSort_id_of_sorted (mkS (goSelect l k).data) 0 l.length hsorted]
        rfl

theorem c9_amended_witness :
    (sortL (goSelect (goSelect [3, 1, 2] 2).data 2).data =
      sortL (goSelect [3, 1, 2] 2).data) ∧
    (goSelect (goSelect [3, 1, 2] 2).data 2).data = (goSelect [3, 1, 2] 2).data :=
  ⟨(c9_amended [3, 1, 2] 2).1, (c9_amended [3, 1, 2] 2).2 (by decide)⟩



theorem swap_breaks (s : SSt) (i j : Nat) : (s.swap i j).breaks = s.breaks := by
  unfold SSt.swap
  split <;> rfl

theorem insShift_breaks (lt : Int → Int → Bool) (s : SSt) (a j : Nat) :
    (insShift lt s a j).breaks = s.breaks := by
  induction j generalizing s with
  | zero => rfl
  | succ j ih =>
    simp only [insShift]
    split
    · rw [ih, swap_breaks]
    · rfl

theorem insOuter_breaks (lt : Int → Int → Bool) (fuel : Nat) (s : SSt)
    (a b i : Nat) : (insOuter lt fuel s a b i).breaks = s.breaks := by
  induction fuel generalizing s i with
  | zero => rfl
  | succ fuel ih =>
    simp only [insOuter]
    split
    · rw [ih, insShift_breaks]
    · rfl

theorem insertionSort_breaks (lt : Int → Int → Bool) (s : SSt) (a b : Nat) :
    (insertionSort lt s a b).breaks = s.breaks :=
  insOuter_breaks lt b s a b (a + 1)

theorem pShift_breaks (lt : Int → Int → Bool) (s : SSt) (a j budget : Nat) :
    (pShift lt s a j budget).1.breaks = s.breaks := by
  induction j generalizing s budget with
  | zero => rfl
  | succ j ih =>
    simp only [pShift]
    split
    · match budget with
      | 0 => rfl
      | bud + 1 => rw [ih, swap_breaks]
    · rfl

theorem pInsOuter_breaks (lt : Int → Int → Bool) (fuel : Nat) (s : SSt)
    (a b i budget : Nat) : (pInsOuter lt fuel s a b i budget).2.breaks = s.breaks := by
  induction fuel generalizing s i budget with
  | zero => rfl
  | succ fuel ih =>
    simp only [pInsOuter]
    split
    · have h := pShift_breaks lt s a i budget
      rcases hm : pShift lt s a i budget with ⟨s1, bud, fl⟩
      rw [hm] at h
      cases fl
      · rw [ih, h]
      · exact h
    · rfl

theorem pInsSort_breaks (lt : Int → Int → Bool) (s : SSt) (a b : Nat) :
    (pInsSort lt s a b).2.breaks = s.breaks :=
  pInsOuter_breaks lt b s a b (a + 1) 8

theorem csw_breaks (lt : Int → Int → Bool) (s : SSt) (p q : Nat) :
    (csw lt s p q).1.breaks = s.breaks := by
  unfold csw
  split
  · exact swap_breaks _ _ _
  · rfl

theorem med3_breaks (lt : Int → Int → Bool) (s : SSt) (x c y : Nat) :
    (med3 lt s x c y).1.breaks = s.breaks := by
  unfold med3
  rw [csw_breaks, csw_breaks, csw_breaks]

theorem choosePivot_breaks (lt : Int → Int → Bool) (s : SSt) (a b : Nat) :
    (choosePivot lt s a b).1.breaks = s.breaks := by
  simp only [choosePivot]
  split
  · rfl
  · split
    · have h := med3_breaks lt s a (a + (b - a) / 2) (b - 1)
      rcases hm : med3 lt s a (a + (b - a) / 2) (b - 1) with ⟨s1, sw⟩
      rw [hm] at h
      exact h
    · have h1 := med3_breaks lt s (a + (b - a) / 4 - 1) (a + (b - a) / 4) (a + (b - a) / 4 + 1)
      rcases hm1 : med3 lt s (a + (b - a) / 4 - 1) (a + (b - a) / 4) (a + (b - a) / 4 + 1) with ⟨s1, w1⟩
      rw [hm1] at h1
      have h2 := med3_breaks lt s1 (a + 2 * ((b - a) / 4) - 1) (a + 2 * ((b - a) / 4)) (a + 2 * ((b - a) / 4) + 1)
      rcases hm2 : med3 lt s1 (a + 2 * ((b - a) / 4) - 1) (a + 2 * ((b - a) / 4)) (a + 2 * ((b - a) / 4) + 1) with ⟨s2, w2⟩
      rw [hm2] at h2
      have h3 := med3_breaks lt s2 (a + 3 * ((b - a) / 4) - 1) (a + 3 * ((b - a) / 4)) (a + 3 * ((b - a) / 4) + 1)
      rcases hm3 : med3 lt s2 (a + 3 * ((b - a) / 4) - 1) (a + 3 * ((b - a) / 4)) (a + 3 * ((b - a) / 4) + 1) with ⟨s3, w3⟩
      rw [hm3] at h3
      have h4 := med3_breaks lt s3 (a + (b - a) / 4) (a + 2 * ((b - a) / 4)) (a + 3 * ((b - a) / 4))
      rcases hm4 : med3 lt s3 (a + (b - a) / 4) (a + 2 * ((b - a) / 4)) (a + 3 * ((b - a) / 4)) with ⟨s4, w4⟩
      rw [hm4] at h4
      rw [h4, h3, h2, h1]

theorem revRangeAux_breaks (fuel : Nat) (s : SSt) (a b : Nat) :
    (revRangeAux fuel s a b).breaks = s.breaks := by
  induction fuel generalizing s a b with
  | zero => rfl
  | succ fuel ih =>
    simp only [revRangeAux]
    split
    · rw [ih, swap_breaks]
    · rfl

theorem reverseRange_breaks (s : SSt) (a b : Nat) :
    (reverseRange s a b).breaks = s.breaks :=
  revRangeAux_breaks b s a b

theorem bpOne_breaks (s : SSt) (a len pos r : Nat) :
    (bpOne s a len pos r).1.breaks = s.breaks :=
  swap_breaks _ _ _

theorem breakPatterns_breaks (s : SSt) (a b : Nat) :
    (breakPatterns s a b).breaks = s.breaks + 1 := by
  simp only [breakPatterns]
  set s0 : SSt := { s with breaks := s.breaks + 1 } with hs0
  have h0 : s0.breaks = s.breaks + 1 := rfl
  split
  · have h1 := bpOne_breaks s0 a (b - a) (a + (b - a) / 2 - 1) (b - a)
    rcases hm1 : bpOne s0 a (b - a) (a + (b - a) / 2 - 1) (b - a) with ⟨s1, r1⟩
    rw [hm1] at h1
    have h2 := bpOne_breaks s1 a (b - a) (a + (b - a) / 2 - 1 + 1) r1
    rcases hm2 : bpOne s1 a (b - a) (a + (b - a) / 2 - 1 + 1) r1 with ⟨s2, r2⟩
    rw [hm2] at h2
    rw [bpOne_breaks s2 a (b - a) (a + (b - a) / 2 - 1 + 2) r2, h2, h1, h0]
  · exact h0

theorem partLoop_breaks (lt : Int → Int → Bool) (pv : Int) (fuel : Nat)
    (s : SSt) (i j : Nat) (sw : Bool) :
    (partLoop lt pv fuel s i j sw).2.2.breaks = s.breaks := by
  induction fuel generalizing s i j sw with
  | zero => rfl
  | succ fuel ih =>
    simp only [partLoop]
    split
    · rfl
    · rw [ih, swap_breaks]

theorem partition_breaks (lt : Int → Int → Bool) (s : SSt) (a b p : Nat) :
    (partition lt s a b p).2.2.breaks = s.breaks := by
  simp only [partition]
  have h := partLoop_breaks lt ((s.swap a p).get a) b (s.swap a p) (a + 1) (b - 1) false
  rcases hm : partLoop lt ((s.swap a p).get a) b (s.swap a p) (a + 1) (b - 1) false
    with ⟨j, ap, s2⟩
  rw [hm] at h
  rw [swap_breaks, h, swap_breaks]

theorem peLoop_breaks (lt : Int → Int → Bool) (pv : Int) (fuel : Nat)
    (s : SSt) (i j : Nat) :
    (peLoop lt pv fuel s i j).2.breaks = s.breaks := by
  induction fuel generalizing s i j with
  | zero => rfl
  | succ fuel ih =>
    simp only [peLoop]
    split
    · rfl
    · rw [ih, swap_breaks]

theorem partitionEqual_breaks (lt : Int → Int → Bool) (s : SSt) (a b p : Nat) :
    (partitionEqual lt s a b p).2.breaks = s.breaks := by
  simp only [partitionEqual]
  rw [peLoop_breaks, swap_breaks]

theorem siftDown_breaks (lt : Int → Int → Bool) (fuel : Nat) (s : SSt)
    (root hi first : Nat) : (siftDown lt fuel s root hi first).breaks = s.breaks := by
  induction fuel generalizing s root with
  | zero => rfl
  | succ fuel ih =>
    simp only [siftDown]
    split
    · split <;> split <;> first
        | rw [ih, swap_breaks]
        | rfl
    · rfl

theorem hsBuild_breaks (lt : Int → Int → Bool) (s : SSt) (hi a i : Nat) :
    (hsBuild lt s hi a i).breaks = s.breaks := by
  induction i generalizing s with
  | zero => exact siftDown_breaks lt hi s 0 hi a
  | succ i ih => rw [hsBuild, ih, siftDown_breaks]

theorem hsStream_breaks (lt : Int → Int → Bool) (fuel : Nat) (s : SSt)
    (a hi n i : Nat) : (hsStream lt fuel s a hi n i).breaks = s.breaks := by
  induction fuel generalizing s i with
  | zero => rfl
  | succ fuel ih =>
    simp only [hsStream]
    split
    · rw [ih]
      split
      · rw [siftDown_breaks, swap_breaks]
      · rfl
    · rfl

theorem heapSelect_breaks (lt : Int → Int → Bool) (s : SSt) (a b k : Nat) :
    (heapSelect lt s a b k).breaks = s.breaks := by
  unfold heapSelect
  rw [swap_breaks, hsStream_breaks, hsBuild_breaks]

theorem pivotPrep_breaks (lt : Int → Int → Bool) (s1 : SSt) (a b : Nat) :
    (pivotPrep lt s1 a b).1.breaks = s1.breaks := by
  simp only [pivotPrep]
  have h := choosePivot_breaks lt s1 a b
  rcases hm : choosePivot lt s1 a b with ⟨s2, p0, h0⟩
  rw [hm] at h
  split
  · rw [reverseRange_breaks, h]
  · exact h

theorem pdqStepTail_breaks (lt : Int → Int → Bool) (len : Nat) (s4 : SSt)
    (a b k limit2 p1 : Nat) (wb wp : Bool) :
    (pdqStepTail lt len s4 a b k limit2 p1 wb wp).st.breaks = s4.breaks ∧
    (pdqStepTail lt len s4 a b k limit2 p1 wb wp).limRem ≤ limit2 := by
  simp only [pdqStepTail]
  split
  · have h := partitionEqual_breaks lt s4 a b p1
    rcases hm : partitionEqual lt s4 a b p1 with ⟨mid, s5⟩
    rw [hm] at h
    split
    · exact ⟨h, Nat.zero_le _⟩
    · exact ⟨h, le_refl _⟩
  · have h := partition_breaks lt s4 a b p1
    rcases hm : partition lt s4 a b p1 with ⟨mid, ap, s5⟩
    rw [hm] at h
    split
    · exact ⟨h, Nat.zero_le _⟩
    · split
      · exact ⟨h, le_refl _⟩
      · exact ⟨h, le_refl _⟩

theorem pdqStepTailFunc_breaks (c : Int → Int → Int) (len : Nat) (s4 : SSt)
    (a b k limit2 p1 : Nat) (wb wp : Bool) :
    (pdqStepTailFunc c len s4 a b k limit2 p1 wb wp).st.breaks = s4.breaks ∧
    (pdqStepTailFunc c len s4 a b k limit2 p1 wb wp).limRem ≤ limit2 := by
  simp only [pdqStepTailFunc]
  split
  · have h := partitionEqual_breaks (ltc c) s4 a b p1
    rcases hm : partitionEqual (ltc c) s4 a b p1 with ⟨mid, s5⟩
    rw [hm] at h
    split
    · exact ⟨h, Nat.zero_le _⟩
    · exact ⟨h, le_refl _⟩
  · have h := partition_breaks (ltc c) s4 a b p1
    rcases hm : partition (ltc c) s4 a b p1 with ⟨mid, ap, s5⟩
    rw [hm] at h
    split
    · exact ⟨h, Nat.zero_le _⟩
    · split
      · exact ⟨h, le_refl _⟩
      · exact ⟨h, le_refl _⟩

theorem pdqStep_breaks (lt : Int → Int → Bool) (s : SSt) (a b k limit : Nat)
    (wb wp : Bool) :
    (pdqStep lt s a b k limit wb wp).st.breaks +
      (pdqStep lt s a b k limit wb wp).limRem ≤ s.breaks + limit := by
  simp only [pdqStep]
  split
  · simpa [StepRes.st, StepRes.limRem, insertionSort_breaks] using
      Nat.le_add_right s.breaks limit
  split
  · simpa [StepRes.st, StepRes.limRem, heapSelect_breaks] using
      Nat.le_add_right s.breaks limit
  rename_i hlim
  set s1v := (if wb then s else breakPatterns s a b) with hs1v
  set limit2 := (if wb then limit else limit - 1) with hlimit2
  have hkey : s1v.breaks + limit2 ≤ s.breaks + limit := by
    rw [hs1v, hlimit2]
    cases wb
    · simp only [if_neg Bool.false_ne_true, breakPatterns_breaks]
      omega
    · simp only [if_pos rfl]
      exact le_refl _
  have hpp : (pivotPrep lt s1v a b).1.breaks = s1v.breaks := pivotPrep_breaks lt s1v a b
  rcases hg : (if wb ∧ wp ∧ (pivotPrep lt s1v a b).2.2 = SortedHint.increasing
      then pInsSort lt (pivotPrep lt s1v a b).1 a b
      else (false, (pivotPrep lt s1v a b).1)) with ⟨fl, s4⟩
  have h4 : s4.breaks = s1v.breaks := by
    split at hg
    · have h := pInsSort_breaks lt (pivotPrep lt s1v a b).1 a b
      rw [hg] at h
      rw [h, hpp]
    · rw [← ((Prod.mk.injEq _ _ _ _).mp hg).2, hpp]
  cases fl
  · obtain ⟨ht1, ht2⟩ := pdqStepTail_breaks lt (b - a) s4 a b k limit2 (pivotPrep lt s1v a b).2.1 wb wp
    calc (pdqStepTail lt (b - a) s4 a b k limit2 (pivotPrep lt s1v a b).2.1 wb wp).st.breaks +
          (pdqStepTail lt (b - a) s4 a b k limit2 (pivotPrep lt s1v a b).2.1 wb wp).limRem
        ≤ s4.breaks + limit2 := by omega
      _ = s1v.breaks + limit2 := by rw [h4]
      _ ≤ s.breaks + limit := hkey
  · calc s4.breaks + 0 = s1v.breaks := by omega
      _ ≤ s.breaks + limit := le_trans (Nat.le_add_right _ _) hkey

theorem pdqStepFunc_breaks (c : Int → Int → Int) (s : SSt) (a b k limit : Nat)
    (wb wp : Bool) :
    (pdqStepFunc c s a b k limit wb wp).st.breaks +
      (pdqStepFunc c s a b k limit wb wp).limRem ≤ s.breaks + limit := by
  simp only [pdqStepFunc]
  split
  · simpa [StepRes.st, StepRes.limRem, insertionSort_breaks] using
      Nat.le_add_right s.breaks limit
  split
  · simpa [StepRes.st, StepRes.limRem, heapSelect_breaks] using
      Nat.le_add_right s.breaks limit
  rename_i hlim
  set s1v := (if wb then s else breakPatterns s a b) with hs1v
  set limit2 := (if wb then limit else limit - 1) with hlimit2
  have hkey : s1v.breaks + limit2 ≤ s.breaks + limit := by
    rw [hs1v, hlimit2]
    cases wb
    · simp only [if_neg Bool.false_ne_true, breakPatterns_breaks]
      omega
    · simp only [if_pos rfl]
      exact le_refl _
  have hpp : (pivotPrep (ltc c) s1v a b).1.breaks = s1v.breaks :=
    pivotPrep_breaks (ltc c) s1v a b
  rcases hg : (if wb ∧ wp ∧ (pivotPrep (ltc c) s1v a b).2.2 = SortedHint.increasing
      then pInsSort (ltc c) (pivotPrep (ltc c) s1v a b).1 a b
      else (false, (pivotPrep (ltc c) s1v a b).1)) with ⟨fl, s4⟩
  have h4 : s4.breaks = s1v.breaks := by
    split at hg
    · have h := pInsSort_breaks (ltc c) (pivotPrep (ltc c) s1v a b).1 a b
      rw [hg] at h
      rw [h, hpp]
    · rw [← ((Prod.mk.injEq _ _ _ _).mp hg).2, hpp]
  cases fl
  · obtain ⟨ht1, ht2⟩ := pdqStepTailFunc_breaks c (b - a) s4 a b k limit2
      (pivotPrep (ltc c) s1v a b).2.1 wb wp
    calc (pdqStepTailFunc c (b - a) s4 a b k limit2 (pivotPrep (ltc c) s1v a b).2.1 wb wp).st.breaks +
          (pdqStepTailFunc c (b - a) s4 a b k limit2 (pivotPrep (ltc c) s1v a b).2.1 wb wp).limRem
        ≤ s4.breaks + limit2 := by omega
      _ = s1v.breaks + limit2 := by rw [h4]
      _ ≤ s.breaks + limit := hkey
  · calc s4.breaks + 0 = s1v.breaks := by omega
      _ ≤ s.breaks + limit := le_trans (Nat.le_add_right _ _) hkey

theorem pdqLoop_breaks (lt : Int → Int → Bool) (fuel : Nat) (s : SSt)
    (a b k limit : Nat) (wb wp : Bool) :
    (pdqLoop lt fuel s a b k limit wb wp).breaks ≤ s.breaks + limit := by
  induction fuel generalizing s a b limit wb wp with
  | zero => exact Nat.le_add_right _ _
  | succ fuel ih =>
    simp only [pdqLoop]
    have h := pdqStep_breaks lt s a b k limit wb wp
    rcases hs : pdqStep lt s a b k limit wb wp with s2 | ⟨s2, a2, b2, l2, wb2, wp2⟩ <;>
      rw [hs] at h <;> simp only [StepRes.st, StepRes.limRem] at h
    · show s2.breaks ≤ s.breaks + limit
      omega
    · show (pdqLoop lt fuel s2 a2 b2 k l2 wb2 wp2).breaks ≤ s.breaks + limit
      exact le_trans (ih _ _ _ _ _ _) (by omega)

theorem pdqLoopFunc_breaks (c : Int → Int → Int) (fuel : Nat) (s : SSt)
    (a b k limit : Nat) (wb wp : Bool) :
    (pdqLoopFunc c fuel s a b k limit wb wp).breaks ≤ s.breaks + limit := by
  induction fuel generalizing s a b limit wb wp with
  | zero => exact Nat.le_add_right _ _
  | succ fuel ih =>
    simp only [pdqLoopFunc]
    have h := pdqStepFunc_breaks c s a b k limit wb wp
    rcases hs : pdqStepFunc c s a b k limit wb wp with s2 | ⟨s2, a2, b2, l2, wb2, wp2⟩ <;>
      rw [hs] at h <;> simp only [StepRes.st, StepRes.limRem] at h
    · show s2.breaks ≤ s.breaks + limit
      omega
    · show (pdqLoopFunc c fuel s2 a2 b2 k l2 wb2 wp2).breaks ≤ s.breaks + limit
      exact le_trans (ih _ _ _ _ _ _) (by omega)

theorem scanI_ge (lt : Int → Int → Bool) (pv : Int) (s : SSt) (fuel : Nat) :
    ∀ i j, i ≤ scanI lt pv s fuel i j := by
  induction fuel with
  | zero => intro i j; exact le_refl _
  | succ fuel ih =>
    intro i j
    simp only [scanI]
    split
    · exact le_trans (by omega) (ih (i + 1) j)
    · exact le_refl _

theorem scanI_le (lt : Int → Int → Bool) (pv : Int) (s : SSt) (fuel : Nat) :
    ∀ i j, i ≤ j + 1 → scanI lt pv s fuel i j ≤ j + 1 := by
  induction fuel with
  | zero => intro i j h; exact h
  | succ fuel ih =>
    intro i j h
    simp only [scanI]
    split
    · rename_i hc
      exact ih (i + 1) j (by omega)
    · exact h

theorem scanJ_le (lt : Int → Int → Bool) (pv : Int) (s : SSt) (i : Nat) :
    ∀ j, scanJ lt pv s i j ≤ j := by
  intro j
  induction j with
  | zero => exact le_refl _
  | succ j ih =>
    simp only [scanJ]
    split
    · exact le_trans ih (by omega)
    · exact le_refl _

theorem scanJ_ge (lt : Int → Int → Bool) (pv : Int) (s : SSt) (a i : Nat)
    (hi : a + 1 ≤ i) : ∀ j, a ≤ j → a ≤ scanJ lt pv s i j := by
  intro j
  induction j with
  | zero => intro h; simp only [scanJ]; omega
  | succ j ih =>
    intro h
    simp only [scanJ]
    split
    · rename_i hc
      exact ih (by omega)
    · omega

theorem partLoop_fst_le (lt : Int → Int → Bool) (pv : Int) (fuel : Nat) :
    ∀ s i j sw, (partLoop lt pv fuel s i j sw).1 ≤ j := by
  induction fuel with
  | zero => intro s i j sw; exact le_refl _
  | succ fuel ih =>
    intro s i j sw
    simp only [partLoop]
    split
    · exact scanJ_le lt pv s _ j
    · rename_i hns
      refine le_trans (ih _ _ _ _) ?_
      have := scanJ_le lt pv s (scanI lt pv s (j + 1 - i) i j) j
      omega

theorem partLoop_fst_ge (lt : Int → Int → Bool) (pv : Int) (a : Nat) (fuel : Nat) :
    ∀ s i j sw, a + 1 ≤ i → a ≤ j → a ≤ (partLoop lt pv fuel s i j sw).1 := by
  induction fuel with
  | zero => intro s i j sw h1 h2; exact h2
  | succ fuel ih =>
    intro s i j sw h1 h2
    simp only [partLoop]
    have hi1 : i ≤ scanI lt pv s (j + 1 - i) i j := scanI_ge lt pv s _ i j
    have hj1 : a ≤ scanJ lt pv s (scanI lt pv s (j + 1 - i) i j) j :=
      scanJ_ge lt pv s a _ (by omega) j h2
    split
    · exact hj1
    · rename_i hns
      exact ih _ _ _ _ (by omega) (by omega)

theorem scanIE_ge (lt : Int → Int → Bool) (pv : Int) (s : SSt) (fuel : Nat) :
    ∀ i j, i ≤ scanIE lt pv s fuel i j := by
  induction fuel with
  | zero => intro i j; exact le_refl _
  | succ fuel ih =>
    intro i j
    simp only [scanIE]
    split
    · exact le_trans (by omega) (ih (i + 1) j)
    · exact le_refl _

theorem peLoop_fst_ge (lt : Int → Int → Bool) (pv : Int) (fuel : Nat) :
    ∀ s i j, i ≤ (peLoop lt pv fuel s i j).1 := by
  induction fuel with
  | zero => intro s i j; exact le_refl _
  | succ fuel ih =>
    intro s i j
    simp only [peLoop]
    split
    · exact scanIE_ge lt pv s _ i j
    · refine le_trans ?_ (ih _ _ _)
      have := scanIE_ge lt pv s (j + 1 - i) i j
      omega

theorem partitionEqual_fst_ge (lt : Int → Int → Bool) (s : SSt) (a b p : Nat) :
    a + 1 ≤ (partitionEqual lt s a b p).1 := by
  simp only [partitionEqual]
  exact peLoop_fst_ge lt _ b _ (a + 1) (b - 1)

theorem partition_fst_le (lt : Int → Int → Bool) (s : SSt) (a b p : Nat) :
    (partition lt s a b p).1 ≤ b - 1 := by
  simp only [partition]
  have h := partLoop_fst_le lt ((s.swap a p).get a) b (s.swap a p) (a + 1) (b - 1) false
  rcases hm : partLoop lt ((s.swap a p).get a) b (s.swap a p) (a + 1) (b - 1) false
    with ⟨j, ap, s2⟩
  rw [hm] at h
  exact h

theorem partition_fst_ge (lt : Int → Int → Bool) (s : SSt) (a b p : Nat)
    (hab : a + 1 ≤ b) : a ≤ (partition lt s a b p).1 := by
  simp only [partition]
  have h := partLoop_fst_ge lt ((s.swap a p).get a) a b (s.swap a p) (a + 1) (b - 1) false
    (by omega) (by omega)
  rcases hm : partLoop lt ((s.swap a p).get a) b (s.swap a p) (a + 1) (b - 1) false
    with ⟨j, ap, s2⟩
  rw [hm] at h
  simpa using h

theorem pdqStepTail_shrink (lt : Int → Int → Bool) (len : Nat) (s4 : SSt)
    (a b k limit2 p1 : Nat) (wb wp : Bool) (hab : a + 13 ≤ b)
    (s2 : SSt) (a2 b2 l2 : Nat) (wb2 wp2 : Bool)
    (h : pdqStepTail lt len s4 a b k limit2 p1 wb wp =
      StepRes.cont s2 a2 b2 l2 wb2 wp2) : b2 - a2 < b - a := by
  simp only [pdqStepTail] at h
  split at h
  · have hge := partitionEqual_fst_ge lt s4 a b p1
    rcases hm : partitionEqual lt s4 a b p1 with ⟨mid, s5⟩
    rw [hm] at h hge
    split at h
    · exact absurd h (by intro hc; cases hc)
    · rcases h with ⟨⟩
      omega
  · have hge := partition_fst_ge lt s4 a b p1 (by omega)
    have hle := partition_fst_le lt s4 a b p1
    rcases hm : partition lt s4 a b p1 with ⟨mid, ap, s5⟩
    rw [hm] at h hge hle
    split at h
    · exact absurd h (by intro hc; cases hc)
    · split at h
      · rcases h with ⟨⟩
        omega
      · rcases h with ⟨⟩
        omega

theorem pdqStepTailFunc_shrink (c : Int → Int → Int) (len : Nat) (s4 : SSt)
    (a b k limit2 p1 : Nat) (wb wp : Bool) (hab : a + 13 ≤ b)
    (s2 : SSt) (a2 b2 l2 : Nat) (wb2 wp2 : Bool)
    (h : pdqStepTailFunc c len s4 a b k limit2 p1 wb wp =
      StepRes.cont s2 a2 b2 l2 wb2 wp2) : b2 - a2 < b - a := by
  simp only [pdqStepTailFunc] at h
  split at h
  · have hge := partitionEqual_fst_ge (ltc c) s4 a b p1
    rcases hm : partitionEqual (ltc c) s4 a b p1 with ⟨mid, s5⟩
    rw [hm] at h hge
    split at h
    · exact absurd h (by intro hc; cases hc)
    · rcases h with ⟨⟩
      omega
  · have hge := partition_fst_ge (ltc c) s4 a b p1 (by omega)
    have hle := partition_fst_le (ltc c) s4 a b p1
    rcases hm : partition (ltc c) s4 a b p1 with ⟨mid, ap, s5⟩
    rw [hm] at h hge hle
    split at h
    · exact absurd h (by intro hc; cases hc)
    · split at h
      · rcases h with ⟨⟩
        omega
      · rcases h with ⟨⟩
        omega

theorem pdqStep_shrink (lt : Int → Int → Bool) (s : SSt) (a b k limit : Nat)
    (wb wp : Bool) (s2 : SSt) (a2 b2 l2 : Nat) (wb2 wp2 : Bool)
    (h : pdqStep lt s a b k limit wb wp = StepRes.cont s2 a2 b2 l2 wb2 wp2) :
    b2 - a2 < b - a := by
  simp only [pdqStep] at h
  split at h
  · exact absurd h (by intro hc; cases hc)
  split at h
  · exact absurd h (by intro hc; cases hc)
  rename_i hlen hlim
  rcases hg : (if wb ∧ wp ∧ (pivotPrep lt (if wb then s else breakPatterns s a b) a b).2.2 =
        SortedHint.increasing
      then pInsSort lt (pivotPrep lt (if wb then s else breakPatterns s a b) a b).1 a b
      else (false, (pivotPrep lt (if wb then s else breakPatterns s a b) a b).1))
    with ⟨fl, s4⟩
  rw [hg] at h
  cases fl
  · exact pdqStepTail_shrink lt (b - a) s4 a b k _ _ wb wp (by omega) s2 a2 b2 l2 wb2 wp2 h
  · exact absurd h (by intro hc; cases hc)

theorem pdqStepFunc_shrink (c : Int → Int → Int) (s : SSt) (a b k limit : Nat)
    (wb wp : Bool) (s2 : SSt) (a2 b2 l2 : Nat) (wb2 wp2 : Bool)
    (h : pdqStepFunc c s a b k limit wb wp = StepRes.cont s2 a2 b2 l2 wb2 wp2) :
    b2 - a2 < b - a := by
  simp only [pdqStepFunc] at h
  split at h
  · exact absurd h (by intro hc; cases hc)
  split at h
  · exact absurd h (by intro hc; cases hc)
  rename_i hlen hlim
  rcases hg : (if wb ∧ wp ∧ (pivotPrep (ltc c) (if wb then s else breakPatterns s a b) a b).2.2 =
        SortedHint.increasing
      then pInsSort (ltc c) (pivotPrep (ltc c) (if wb then s else breakPatterns s a b) a b).1 a b
      else (false, (pivotPrep (ltc c) (if wb then s else breakPatterns s a b) a b).1))
    with ⟨fl, s4⟩
  rw [hg] at h
  cases fl
  · exact pdqStepTailFunc_shrink c (b - a) s4 a b k _ _ wb wp (by omega) s2 a2 b2 l2 wb2 wp2 h
  · exact absurd h (by intro hc; cases hc)

theorem pdqLoop_fuel (lt : Int → Int → Bool) :
    ∀ (n fuel1 fuel2 : Nat) (s : SSt) (a b k limit : Nat) (wb wp : Bool),
      b - a ≤ n → b - a < fuel1 → b - a < fuel2 →
      pdqLoop lt fuel1 s a b k limit wb wp = pdqLoop lt fuel2 s a b k limit wb wp := by
  intro n
  induction n with
  | zero =>
    intro fuel1 fuel2 s a b k limit wb wp hn h1 h2
    match fuel1, h1 with
    | f1 + 1, _ =>
    match fuel2, h2 with
    | f2 + 1, _ =>
    simp only [pdqLoop]
    rcases hs : pdqStep lt s a b k limit wb wp with s2 | ⟨s2, a2, b2, l2, wb2, wp2⟩
    · rfl
    · exact absurd (pdqStep_shrink lt s a b k limit wb wp s2 a2 b2 l2 wb2 wp2 hs) (by omega)
  | succ n ih =>
    intro fuel1 fuel2 s a b k limit wb wp hn h1 h2
    match fuel1, h1 with
    | f1 + 1, _ =>
    match fuel2, h2 with
    | f2 + 1, _ =>
    simp only [pdqLoop]
    rcases hs : pdqStep lt s a b k limit wb wp with s2 | ⟨s2, a2, b2, l2, wb2, wp2⟩
    · rfl
    · have hlt := pdqStep_shrink lt s a b k limit wb wp s2 a2 b2 l2 wb2 wp2 hs
      exact ih f1 f2 s2 a2 b2 k l2 wb2 wp2 (by omega) (by omega) (by omega)

theorem pdqLoopFunc_fuel (c : Int → Int → Int) :
    ∀ (n fuel1 fuel2 : Nat) (s : SSt) (a b k limit : Nat) (wb wp : Bool),
      b - a ≤ n → b - a < fuel1 → b - a < fuel2 →
      pdqLoopFunc c fuel1 s a b k limit wb wp =
        pdqLoopFunc c fuel2 s a b k limit wb wp := by
  intro n
  induction n with
  | zero =>
    intro fuel1 fuel2 s a b k limit wb wp hn h1 h2
    match fuel1, h1 with
    | f1 + 1, _ =>
    match fuel2, h2 with
    | f2 + 1, _ =>
    simp only [pdqLoopFunc]
    rcases hs : pdqStepFunc c s a b k limit wb wp with s2 | ⟨s2, a2, b2, l2, wb2, wp2⟩
    · rfl
    · exact absurd (pdqStepFunc_shrink c s a b k limit wb wp s2 a2 b2 l2 wb2 wp2 hs) (by omega)
  | succ n ih =>
    intro fuel1 fuel2 s a b k limit wb wp hn h1 h2
    match fuel1, h1 with
    | f1 + 1, _ =>
    match fuel2, h2 with
    | f2 + 1, _ =>
    simp only [pdqLoopFunc]
    rcases hs : pdqStepFunc c s a b k limit wb wp with s2 | ⟨s2, a2, b2, l2, wb2, wp2⟩
    · rfl
    · have hlt := pdqStepFunc_shrink c s a b k limit wb wp s2 a2 b2 l2 wb2 wp2 hs
      exact ih f1 f2 s2 a2 b2 k l2 wb2 wp2 (by omega) (by omega) (by omega)

theorem pdqselectGo_breaks (lt : Int → Int → Bool) (s : SSt) (a b k limit : Nat) :
    (pdqselectGo lt s a b k limit).breaks ≤ s.breaks + limit := by
  simp only [pdqselectGo]
  split
  · split
    · exact le_trans (le_of_eq (swap_breaks _ _ _)) (Nat.le_add_right _ _)
    · exact Nat.le_add_right _ _
  · split
    · split
      · exact le_trans (le_of_eq (swap_breaks _ _ _)) (Nat.le_add_right _ _)
      · exact Nat.le_add_right _ _
    · exact pdqLoop_breaks lt _ s a b k limit true true

theorem pdqselectOrderedGo_breaks (lt : Int → Int → Bool) (s : SSt)
    (a b k limit : Nat) :
    (pdqselectOrderedGo lt s a b k limit).breaks ≤ s.breaks + limit := by
  simp only [pdqselectOrderedGo]
  split
  · exact le_trans (le_of_eq (swap_breaks _ _ _)) (Nat.le_add_right _ _)
  · split
    · exact le_trans (le_of_eq (swap_breaks _ _ _)) (Nat.le_add_right _ _)
    · exact pdqLoop_breaks lt _ s a b k limit true true

theorem pdqselectFuncGo_breaks (c : Int → Int → Int) (s : SSt)
    (a b k limit : Nat) :
    (pdqselectFuncGo c s a b k limit).breaks ≤ s.breaks + limit := by
  simp only [pdqselectFuncGo]
  split
  · split
    · exact le_trans (le_of_eq (swap_breaks _ _ _)) (Nat.le_add_right _ _)
    · exact Nat.le_add_right _ _
  · split
    · split
      · exact le_trans (le_of_eq (swap_breaks _ _ _)) (Nat.le_add_right _ _)
      · exact Nat.le_add_right _ _
    · exact pdqLoopFunc_breaks c _ s a b k limit true true

theorem goSelect_breaks (l : List Int) (k : Int) :
    (goSelect l k).breaks ≤ initialLimit l.length := by
  simp only [goSelect]
  split
  · exact Nat.zero_le _
  · have h := pdqselectGo_breaks ltInt (mkS l) 0 l.length (k - 1).toNat
      (initialLimit l.length)
    have e2 : (mkS l).breaks = 0 := rfl
    rw [e2] at h
    show (pdqselectGo ltInt (mkS l) 0 l.length (k - 1).toNat
      (initialLimit l.length)).breaks ≤ initialLimit l.length
    omega

theorem goOrdered_breaks (l : List Int) (k : Int) :
    (goOrdered l k).breaks ≤ initialLimit l.length := by
  simp only [goOrdered]
  split
  · exact Nat.zero_le _
  · have h := pdqselectOrderedGo_breaks ltInt (mkS l) 0 l.length (k - 1).toNat
      (initialLimit l.length)
    have e2 : (mkS l).breaks = 0 := rfl
    rw [e2] at h
    show (pdqselectOrderedGo ltInt (mkS l) 0 l.length (k - 1).toNat
      (initialLimit l.length)).breaks ≤ initialLimit l.length
    omega

theorem goFunc_breaks (l : List Int) (k : Int) (c : Int → Int → Int) :
    (goFunc l k c).breaks ≤ initialLimit l.length := by
  simp only [goFunc]
  split
  · exact Nat.zero_le _
  · have h := pdqselectFuncGo_breaks c (mkS l) 0 l.length (k - 1).toNat
      (initialLimit l.length)
    have e2 : (mkS l).breaks = 0 := rfl
    rw [e2] at h
    show (pdqselectFuncGo c (mkS l) 0 l.length (k - 1).toNat
      (initialLimit l.length)).breaks ≤ initialLimit l.length
    omega

/-- C5 (amended): every call terminates - the driver loop's result is already
reached with fuel `N + 1`, so any larger iteration bound gives the same final
state (each continuing iteration strictly shrinks the subrange) - and the
number of pattern-break iterations of any call, through any of the three
entry points, is at most `bits.Len(N) = floor(log2 N) + 1` (not
`floor(log2 N)`: the spec's bound is one too small, see the counterexample). -/
theorem c5_amended (l : List Int) (k : Int) (c : Int → Int → Int) (fuel : Nat)
    (hf : l.length < fuel) :
    (pdqLoopFunc c fuel (mkS l) 0 l.length (k - 1).toNat
        (initialLimit l.length) true true =
      pdqLoopFunc c (l.length + 1) (mkS l) 0 l.length (k - 1).toNat
        (initialLimit l.length) true true) ∧
    (goFunc l k c).breaks ≤ initialLimit l.length ∧
    (goSelect l k).breaks ≤ initialLimit l.length ∧
    (goOrdered l k).breaks ≤ initialLimit l.length :=
  ⟨pdqLoopFunc_fuel c l.length fuel (l.length + 1) (mkS l) 0 l.length
      (k - 1).toNat (initialLimit l.length) true true (by omega) (by omega) (by omega),
    goFunc_breaks l k c, goSelect_breaks l k, goOrdered_breaks l k⟩

theorem c5_amended_witness :
    (([3, 1, 2] : List Int).length < 4) ∧
    ((pdqLoopFunc cmpInt 4 (mkS [3, 1, 2]) 0 ([3, 1, 2] : List Int).length
        ((2 : Int) - 1).toNat (initialLimit ([3, 1, 2] : List Int).length) true true =
      pdqLoopFunc cmpInt (([3, 1, 2] : List Int).length + 1) (mkS [3, 1, 2]) 0
        ([3, 1, 2] : List Int).length ((2 : Int) - 1).toNat
        (initialLimit ([3, 1, 2] : List Int).length) true true) ∧
     (goFunc [3, 1, 2] 2 cmpInt).breaks ≤ initialLimit ([3, 1, 2] : List Int).length ∧
     (goSelect [3, 1, 2] 2).breaks ≤ initialLimit ([3, 1, 2] : List Int).length ∧
     (goOrdered [3, 1, 2] 2).breaks ≤ initialLimit ([3, 1, 2] : List Int).length) :=
  ⟨by decide, c5_amended [3, 1, 2] 2 cmpInt 4 (by decide)⟩

theorem get_oob (s : SSt) (i : Nat) (h : s.n ≤ i) : s.get i = 0 :=
  List.getD_eq_default _ _ h

theorem siftDown_id (lt : Int → Int → Bool) (fuel : Nat) (s : SSt)
    (root hi first : Nat) (hroot : s.n ≤ first + (2 * root + 1))
    (hlt0 : lt 0 0 = false)
    (hval : lt (s.get (first + root)) 0 = false) :
    siftDown lt fuel s root hi first = s := by
  cases fuel with
  | zero => rfl
  | succ fuel =>
    simp only [siftDown]
    by_cases hc : 2 * root + 1 < hi
    · rw [if_pos hc]
      have h0 : s.get (first + (2 * root + 1)) = 0 := get_oob _ _ hroot
      have h1 : s.get (first + (2 * root + 1) + 1) = 0 := get_oob _ _ (by omega)
      have hch : ¬ (2 * root + 1 + 1 < hi ∧
          lt (s.get (first + (2 * root + 1))) (s.get (first + (2 * root + 1) + 1)) = true) := by
        rw [h0, h1, hlt0]
        simp
      rw [if_neg hch]
      have hv : lt (s.get (first + root)) (s.get (first + (2 * root + 1))) = false := by
        rw [h0]
        exact hval
      rw [hv]
      simp
    · rw [if_neg hc]

theorem hsBuild_step (lt : Int → Int → Bool) (s : SSt) (hi a i : Nat) :
    hsBuild lt s hi a (i + 1) = hsBuild lt (siftDown lt hi s (i + 1) hi a) hi a i :=
  rfl

theorem hsBuild_collapse (lt : Int → Int → Bool) (s : SSt) (hi a : Nat) :
    ∀ M m, m ≤ M → (∀ i, m < i → i ≤ M → siftDown lt hi s i hi a = s) →
      hsBuild lt s hi a M = hsBuild lt s hi a m := by
  intro M
  induction M with
  | zero =>
    intro m hm _
    have hm0 : m = 0 := by omega
    rw [hm0]
  | succ M ih =>
    intro m hm hid
    rcases Nat.eq_or_lt_of_le hm with he | hlt
    · rw [he]
    · rw [hsBuild_step, hid (M + 1) (by omega) (le_refl _)]
      exact ih m (by omega) (fun i h1 h2 => hid i h1 (by omega))

theorem csw_frame (lt : Int → Int → Bool) (s : SSt) (p q : Nat) (m : Nat)
    (h1 : m ≠ p) (h2 : m ≠ q) : (csw lt s p q).1.get m = s.get m := by
  unfold csw
  split
  · exact get_swap_other s p q m h1 h2
  · rfl

theorem med3_frame (lt : Int → Int → Bool) (s : SSt) (x c y : Nat) (m : Nat)
    (h1 : m ≠ x) (h2 : m ≠ c) (h3 : m ≠ y) :
    (med3 lt s x c y).1.get m = s.get m := by
  unfold med3
  rw [csw_frame _ _ _ _ _ h1 h2, csw_frame _ _ _ _ _ h2 h3, csw_frame _ _ _ _ _ h1 h2]

theorem choosePivot_frame (lt : Int → Int → Bool) (s : SSt) (a b : Nat)
    (m : Nat) (hm : m < a ∨ b ≤ m) :
    (choosePivot lt s a b).1.get m = s.get m := by
  simp only [choosePivot]
  split
  · rfl
  · rename_i h8
    split
    · have h := med3_frame lt s a (a + (b - a) / 2) (b - 1) m
        (by omega) (by omega) (by omega)
      rcases hm1 : med3 lt s a (a + (b - a) / 2) (b - 1) with ⟨s1, sw⟩
      rw [hm1] at h
      exact h
    · rename_i h50
      have hq : 12 ≤ (b - a) / 4 := by omega
      have hb : a + 3 * ((b - a) / 4) + 1 < b := by omega
      have h1 := med3_frame lt s (a + (b - a) / 4 - 1) (a + (b - a) / 4) (a + (b - a) / 4 + 1) m
        (by omega) (by omega) (by omega)
      rcases hm1 : med3 lt s (a + (b - a) / 4 - 1) (a + (b - a) / 4) (a + (b - a) / 4 + 1) with ⟨s1, w1⟩
      rw [hm1] at h1
      have h2 := med3_frame lt s1 (a + 2 * ((b - a) / 4) - 1) (a + 2 * ((b - a) / 4)) (a + 2 * ((b - a) / 4) + 1) m
        (by omega) (by omega) (by omega)
      rcases hm2 : med3 lt s1 (a + 2 * ((b - a) / 4) - 1) (a + 2 * ((b - a) / 4)) (a + 2 * ((b - a) / 4) + 1) with ⟨s2, w2⟩
      rw [hm2] at h2
      have h3 := med3_frame lt s2 (a + 3 * ((b - a) / 4) - 1) (a + 3 * ((b - a) / 4)) (a + 3 * ((b - a) / 4) + 1) m
        (by omega) (by omega) (by omega)
      rcases hm3 : med3 lt s2 (a + 3 * ((b - a) / 4) - 1) (a + 3 * ((b - a) / 4)) (a + 3 * ((b - a) / 4) + 1) with ⟨s3, w3⟩
      rw [hm3] at h3
      have h4 := med3_frame lt s3 (a + (b - a) / 4) (a + 2 * ((b - a) / 4)) (a + 3 * ((b - a) / 4)) m
        (by omega) (by omega) (by omega)
      rcases hm4 : med3 lt s3 (a + (b - a) / 4) (a + 2 * ((b - a) / 4)) (a + 3 * ((b - a) / 4)) with ⟨s4, w4⟩
      rw [hm4] at h4
      rw [h4, h3, h2, h1]

theorem revRangeAux_frame (fuel : Nat) :
    ∀ (s : SSt) (x y a b m : Nat), a ≤ x → y ≤ b → m < a ∨ b ≤ m →
      (revRangeAux fuel s x y).get m = s.get m := by
  induction fuel with
  | zero => intro s x y a b m _ _ _; rfl
  | succ fuel ih =>
    intro s x y a b m hx hy hm
    simp only [revRangeAux]
    split
    · rename_i hxy
      rw [ih _ (x + 1) (y - 1) a b m (by omega) (by omega) hm,
        get_swap_other s x (y - 1) m (by omega) (by omega)]
    · rfl

theorem reverseRange_frame (s : SSt) (a b m : Nat) (hm : m < a ∨ b ≤ m) :
    (reverseRange s a b).get m = s.get m :=
  revRangeAux_frame b s a b a b m (le_refl a) (le_refl b) hm

theorem two_pow_bitsLen_le (n : Nat) (hn : 1 ≤ n) : nextPowerOfTwo n ≤ 2 * n := by
  unfold nextPowerOfTwo bitsLen
  rw [bitsLenAux_eq n n hn (le_refl n)]
  have h := Nat.log2_self_le (by omega : n ≠ 0)
  calc (1 <<< (Nat.log2 n + 1)) = 2 ^ (Nat.log2 n + 1) := by
        rw [Nat.shiftLeft_eq, one_mul]
    _ = 2 * 2 ^ Nat.log2 n := by ring
    _ ≤ 2 * n := by omega

theorem bpOne_frame (s : SSt) (a len pos r : Nat) (hlen : 1 ≤ len)
    (hpos1 : a ≤ pos) (hpos2 : pos < a + len) (m : Nat)
    (hm : m < a ∨ a + len ≤ m) : (bpOne s a len pos r).1.get m = s.get m := by
  simp only [bpOne]
  have hpow : 0 < nextPowerOfTwo len := by
    unfold nextPowerOfTwo
    rw [Nat.shiftLeft_eq, one_mul]
    positivity
  have hnp : xnext r % nextPowerOfTwo len < nextPowerOfTwo len :=
    Nat.mod_lt _ hpow
  have hb := two_pow_bitsLen_le len hlen
  refine get_swap_other s pos _ m (by omega) ?_
  split
  · omega
  · omega

theorem breakPatterns_frame (s : SSt) (a b m : Nat) (hm : m < a ∨ b ≤ m) :
    (breakPatterns s a b).get m = s.get m := by
  simp only [breakPatterns]
  set s0 : SSt := { s with breaks := s.breaks + 1 } with hs0
  have h0 : s0.get m = s.get m := rfl
  split
  · rename_i h8
    have h1 := bpOne_frame s0 a (b - a) (a + (b - a) / 2 - 1) (b - a) (by omega)
      (by omega) (by omega) m (by omega)
    rcases hm1 : bpOne s0 a (b - a) (a + (b - a) / 2 - 1) (b - a) with ⟨s1, r1⟩
    rw [hm1] at h1
    have h2 := bpOne_frame s1 a (b - a) (a + (b - a) / 2 - 1 + 1) r1 (by omega)
      (by omega) (by omega) m (by omega)
    rcases hm2 : bpOne s1 a (b - a) (a + (b - a) / 2 - 1 + 1) r1 with ⟨s2, r2⟩
    rw [hm2] at h2
    rw [bpOne_frame s2 a (b - a) (a + (b - a) / 2 - 1 + 2) r2 (by omega)
      (by omega) (by omega) m (by omega), h2, h1, h0]
  · exact h0

theorem insShift_frame (lt : Int → Int → Bool) (a : Nat) :
    ∀ (j : Nat) (s : SSt) (m : Nat), m < a ∨ j < m →
      (insShift lt s a j).get m = s.get m := by
  intro j
  induction j with
  | zero => intro s m _; rfl
  | succ j ih =>
    intro s m hm
    simp only [insShift]
    split
    · rename_i hc
      rw [ih _ m (by omega), get_swap_other s (j + 1) j m (by omega) (by omega)]
    · rfl

theorem insOuter_frame (lt : Int → Int → Bool) (fuel : Nat) :
    ∀ (s : SSt) (a b i m : Nat), m < a ∨ b ≤ m → i ≤ b →
      (insOuter lt fuel s a b i).get m = s.get m := by
  induction fuel with
  | zero => intro s a b i m _ _; rfl
  | succ fuel ih =>
    intro s a b i m hm hi
    simp only [insOuter]
    split
    · rename_i hib
      rw [ih _ a b (i + 1) m hm (by omega), insShift_frame lt a i s m (by omega)]
    · rfl

theorem insertionSort_frame (lt : Int → Int → Bool) (s : SSt) (a b m : Nat)
    (hm : m < a ∨ b ≤ m) : (insertionSort lt s a b).get m = s.get m := by
  unfold insertionSort
  by_cases hab : a + 1 ≤ b
  · exact insOuter_frame lt b s a b (a + 1) m hm hab
  · cases b with
    | zero => rfl
    | succ b2 =>
      simp only [insOuter]
      rw [if_neg (by omega)]

theorem pShift_frame (lt : Int → Int → Bool) (a : Nat) :
    ∀ (j : Nat) (budget : Nat) (s : SSt) (m : Nat), m < a ∨ j < m →
      (pShift lt s a j budget).1.get m = s.get m := by
  intro j
  induction j with
  | zero => intro budget s m _; rfl
  | succ j ih =>
    intro budget s m hm
    simp only [pShift]
    split
    · match budget with
      | 0 => rfl
      | bud + 1 =>
        rw [ih bud _ m (by omega), get_swap_other s (j + 1) j m (by omega) (by omega)]
    · rfl

theorem pInsOuter_frame (lt : Int → Int → Bool) (fuel : Nat) :
    ∀ (s : SSt) (a b i budget m : Nat), m < a ∨ b ≤ m → i ≤ b →
      (pInsOuter lt fuel s a b i budget).2.get m = s.get m := by
  induction fuel with
  | zero => intro s a b i budget m _ _; rfl
  | succ fuel ih =>
    intro s a b i budget m hm hi
    simp only [pInsOuter]
    split
    · rename_i hib
      have h := pShift_frame lt a i budget s m (by omega)
      rcases hp : pShift lt s a i budget with ⟨s1, bud, fl⟩
      rw [hp] at h
      cases fl
      · rw [ih _ a b (i + 1) bud m hm (by omega), h]
      · exact h
    · rfl

theorem pInsSort_frame (lt : Int → Int → Bool) (s : SSt) (a b m : Nat)
    (hm : m < a ∨ b ≤ m) (hab : a < b) : (pInsSort lt s a b).2.get m = s.get m :=
  pInsOuter_frame lt b s a b (a + 1) 8 m hm (by omega)

theorem partLoop_frame (lt : Int → Int → Bool) (pv : Int) (fuel : Nat) :
    ∀ (s : SSt) (i j a b m : Nat) (sw0 : Bool), a < i → j < b → m < a ∨ b ≤ m →
      (partLoop lt pv fuel s i j sw0).2.2.get m = s.get m := by
  induction fuel with
  | zero => intro s i j a b m sw0 _ _ _; rfl
  | succ fuel ih =>
    intro s i j a b m sw0 hi hj hm
    simp only [partLoop]
    have hi1 : i ≤ scanI lt pv s (j + 1 - i) i j := scanI_ge lt pv s _ i j
    have hj1 : scanJ lt pv s (scanI lt pv s (j + 1 - i) i j) j ≤ j :=
      scanJ_le lt pv s _ j
    split
    · rfl
    · rw [ih _ _ _ a b m _ (by omega) (by omega) hm,
        get_swap_other s _ _ m (by omega) (by omega)]

theorem partition_frame (lt : Int → Int → Bool) (s : SSt) (a b p m : Nat)
    (hp1 : a ≤ p) (hp2 : p < b) (hm : m < a ∨ b ≤ m) :
    (partition lt s a b p).2.2.get m = s.get m := by
  simp only [partition]
  have hge := partLoop_fst_ge lt ((s.swap a p).get a) a b (s.swap a p) (a + 1) (b - 1) false
    (by omega) (by omega)
  have hle := partLoop_fst_le lt ((s.swap a p).get a) b (s.swap a p) (a + 1) (b - 1) false
  have hfr := partLoop_frame lt ((s.swap a p).get a) b (s.swap a p) (a + 1) (b - 1) a b m
    false (by omega) (by omega) hm
  rcases hm1 : partLoop lt ((s.swap a p).get a) b (s.swap a p) (a + 1) (b - 1) false
    with ⟨j, ap, s2⟩
  rw [hm1] at hge hle hfr
  rw [get_swap_other s2 j a m (by omega) (by omega), hfr,
    get_swap_other s a p m (by omega) (by omega)]

theorem scanJE_le (lt : Int → Int → Bool) (pv : Int) (s : SSt) (i : Nat) :
    ∀ j, scanJE lt pv s i j ≤ j := by
  intro j
  induction j with
  | zero => exact le_refl _
  | succ j ih =>
    simp only [scanJE]
    split
    · exact le_trans ih (by omega)
    · exact le_refl _

theorem scanIE_le (lt : Int → Int → Bool) (pv : Int) (s : SSt) (fuel : Nat) :
    ∀ i j, i ≤ j + 1 → scanIE lt pv s fuel i j ≤ j + 1 := by
  induction fuel with
  | zero => intro i j h; exact h
  | succ fuel ih =>
    intro i j h
    simp only [scanIE]
    split
    · rename_i hc
      exact ih (i + 1) j (by omega)
    · exact h

theorem peLoop_frame (lt : Int → Int → Bool) (pv : Int) (fuel : Nat) :
    ∀ (s : SSt) (i j a b m : Nat), a < i → j < b → m < a ∨ b ≤ m →
      (peLoop lt pv fuel s i j).2.get m = s.get m := by
  induction fuel with
  | zero => intro s i j a b m _ _ _; rfl
  | succ fuel ih =>
    intro s i j a b m hi hj hm
    simp only [peLoop]
    have hi1 : i ≤ scanIE lt pv s (j + 1 - i) i j := scanIE_ge lt pv s _ i j
    have hj1 : scanJE lt pv s (scanIE lt pv s (j + 1 - i) i j) j ≤ j :=
      scanJE_le lt pv s _ j
    split
    · rfl
    · rw [ih _ _ _ a b m (by omega) (by omega) hm,
        get_swap_other s _ _ m (by omega) (by omega)]

theorem partitionEqual_frame (lt : Int → Int → Bool) (s : SSt) (a b p m : Nat)
    (hp1 : a ≤ p) (hp2 : p < b) (hm : m < a ∨ b ≤ m) :
    (partitionEqual lt s a b p).2.get m = s.get m := by
  simp only [partitionEqual]
  rw [peLoop_frame lt _ b _ (a + 1) (b - 1) a b m (by omega) (by omega) hm,
    get_swap_other s a p m (by omega) (by omega)]

theorem scanI_post (lt : Int → Int → Bool) (pv : Int) (s : SSt) (fuel : Nat) :
    ∀ i j, j + 1 - i ≤ fuel →
      (∀ x, i ≤ x → x < scanI lt pv s fuel i j → lt (s.get x) pv = true) ∧
      (scanI lt pv s fuel i j ≤ j → lt (s.get (scanI lt pv s fuel i j)) pv = false) := by
  induction fuel with
  | zero =>
    intro i j hf
    simp only [scanI]
    exact ⟨fun x h1 h2 => absurd (lt_of_le_of_lt h1 h2) (by omega),
      fun h => absurd h (by omega)⟩
  | succ fuel ih =>
    intro i j hf
    simp only [scanI]
    split
    · rename_i hc
      obtain ⟨ih1, ih2⟩ := ih (i + 1) j (by omega)
      refine ⟨?_, ih2⟩
      intro x h1 h2
      rcases Nat.eq_or_lt_of_le h1 with rfl | h1'
      · exact hc.2
      · exact ih1 x (by omega) h2
    · rename_i hc
      refine ⟨fun x h1 h2 => absurd (lt_of_le_of_lt h1 h2) (lt_irrefl i), ?_⟩
      intro hij
      rcases Bool.eq_false_or_eq_true (lt (s.get i) pv) with h | h
      · exact absurd ⟨hij, h⟩ hc
      · exact h

theorem scanJ_post (lt : Int → Int → Bool) (pv : Int) (s : SSt) (i : Nat)
    (hi : 1 ≤ i) :
    ∀ j, (∀ y, scanJ lt pv s i j < y → y ≤ j → lt (s.get y) pv = false) ∧
      (i ≤ scanJ lt pv s i j → lt (s.get (scanJ lt pv s i j)) pv = true) := by
  intro j
  induction j with
  | zero =>
    simp only [scanJ]
    exact ⟨fun y h1 h2 => by omega, fun h => by omega⟩
  | succ j ih =>
    simp only [scanJ]
    split
    · rename_i hc
      obtain ⟨ih1, ih2⟩ := ih
      refine ⟨?_, ih2⟩
      intro y h1 h2
      rcases Nat.eq_or_lt_of_le h2 with rfl | h2'
      · simpa using hc.2
      · exact ih1 y h1 (by omega)
    · rename_i hc
      refine ⟨fun y h1 h2 => by omega, ?_⟩
      intro hij
      rcases Bool.eq_false_or_eq_true (lt (s.get (j + 1)) pv) with h | h
      · exact h
      · exact absurd ⟨hij, by simp [h]⟩ hc

theorem partLoop_post (lt : Int → Int → Bool) (pv : Int) (a b : Nat)
    (fuel : Nat) :
    ∀ (s : SSt) (i j : Nat) (sw : Bool), a + 1 ≤ i → i ≤ j + 2 → j ≤ b - 1 → 1 ≤ b →
      b ≤ s.n → j + 2 - i ≤ fuel →
      (∀ x, a + 1 ≤ x → x < i → lt (s.get x) pv = true) →
      (∀ y, j < y → y < b → lt (s.get y) pv = false) →
      (∀ x, a + 1 ≤ x → x ≤ (partLoop lt pv fuel s i j sw).1 →
        lt ((partLoop lt pv fuel s i j sw).2.2.get x) pv = true) ∧
      (∀ y, (partLoop lt pv fuel s i j sw).1 < y → y < b →
        lt ((partLoop lt pv fuel s i j sw).2.2.get y) pv = false) := by
  induction fuel with
  | zero =>
    intro s i j sw h1 h2 h3 hb hn hf pre1 pre2
    simp only [partLoop]
    constructor
    · intro x hx1 hx2
      exact pre1 x hx1 (by omega)
    · intro y hy1 hy2
      exact pre2 y hy1 hy2
  | succ fuel ih =>
    intro s i j sw h1 h2 h3 hb hn hf pre1 pre2
    simp only [partLoop]
    have hig : i ≤ scanI lt pv s (j + 1 - i) i j := scanI_ge lt pv s _ i j
    obtain ⟨si1, si2⟩ := scanI_post lt pv s (j + 1 - i) i j (le_refl _)
    set i2 := scanI lt pv s (j + 1 - i) i j with hi2
    have hjl : scanJ lt pv s i2 j ≤ j := scanJ_le lt pv s i2 j
    obtain ⟨sj1, sj2⟩ := scanJ_post lt pv s i2 (by omega) j
    set j2 := scanJ lt pv s i2 j with hj2
    clear_value i2 j2
    have hleft : ∀ x, a + 1 ≤ x → x < i2 → lt (s.get x) pv = true := by
      intro x hx1 hx2
      rcases Nat.lt_or_ge x i with hx | hx
      · exact pre1 x hx1 hx
      · exact si1 x hx hx2
    have hright : ∀ y, j2 < y → y < b → lt (s.get y) pv = false := by
      intro y hy1 hy2
      rcases Nat.lt_or_ge j y with hy | hy
      · exact pre2 y hy hy2
      · exact sj1 y hy1 hy
    split
    · rename_i hcross
      constructor
      · intro x hx1 hx2
        exact hleft x hx1 (by omega)
      · intro y hy1 hy2
        exact hright y hy1 hy2
    · rename_i hncross
      have hij : i2 ≤ j2 := by omega
      have hvi : lt (s.get i2) pv = false := si2 (by omega)
      have hvj : lt (s.get j2) pv = true := sj2 (by omega)
      have hn2 : b ≤ (s.swap i2 j2).n := by rw [swap_n]; exact hn
      have ha1 : a + 1 ≤ i2 + 1 := by omega
      have ha2 : i2 + 1 ≤ (j2 - 1) + 2 := by omega
      have ha3 : j2 - 1 ≤ b - 1 := by omega
      have ha4 : (j2 - 1) + 2 - (i2 + 1) ≤ fuel := by omega
      refine ih (s.swap i2 j2) (i2 + 1) (j2 - 1) true ha1 ha2 ha3 hb hn2 ha4 ?_ ?_
      · intro x hx1 hx2
        rcases Nat.lt_or_ge x i2 with hx | hx
        · rw [get_swap_other s i2 j2 x (by omega) (by omega)]
          exact hleft x hx1 hx
        · have hxe : x = i2 := by omega
          rw [hxe, get_swap_fst s i2 j2 (by omega) (by omega)]
          exact hvj
      · intro y hy1 hy2
        rcases Nat.lt_or_ge j2 y with hy | hy
        · rw [get_swap_other s i2 j2 y (by omega) (by omega)]
          exact hright y hy hy2
        · have hye : y = j2 := by omega
          rw [hye, get_swap_snd s i2 j2 (by omega) (by omega)]
          exact hvi


theorem partLoop_frame2 (lt : Int → Int → Bool) (pv : Int) (fuel : Nat) :
    ∀ (s : SSt) (i j b m : Nat) (sw0 : Bool), j < b → m < i ∨ b ≤ m →
      (partLoop lt pv fuel s i j sw0).2.2.get m = s.get m := by
  induction fuel with
  | zero => intro s i j b m sw0 _ _; rfl
  | succ fuel ih =>
    intro s i j b m sw0 hj hm
    simp only [partLoop]
    have hi1 : i ≤ scanI lt pv s (j + 1 - i) i j := scanI_ge lt pv s _ i j
    have hj1 : scanJ lt pv s (scanI lt pv s (j + 1 - i) i j) j ≤ j :=
      scanJ_le lt pv s _ j
    split
    · rfl
    · rename_i hns
      rw [ih _ _ _ b m _ (by omega) (by omega),
        get_swap_other s _ _ m (by omega) (by omega)]

theorem partition_post (lt : Int → Int → Bool) (s : SSt) (a b p : Nat)
    (hp1 : a ≤ p) (hp2 : p < b) (hb : b ≤ s.n) :
    (partition lt s a b p).2.2.get (partition lt s a b p).1 = (s.swap a p).get a ∧
    (∀ x, a ≤ x → x < (partition lt s a b p).1 →
      lt ((partition lt s a b p).2.2.get x) ((s.swap a p).get a) = true) ∧
    (∀ y, (partition lt s a b p).1 < y → y < b →
      lt ((partition lt s a b p).2.2.get y) ((s.swap a p).get a) = false) := by
  simp only [partition]
  have hge := partLoop_fst_ge lt ((s.swap a p).get a) a b (s.swap a p) (a + 1) (b - 1) false
    (by omega) (by omega)
  have hle := partLoop_fst_le lt ((s.swap a p).get a) b (s.swap a p) (a + 1) (b - 1) false
  have hfr := partLoop_frame2 lt ((s.swap a p).get a) b (s.swap a p) (a + 1) (b - 1) b a
    false (by omega) (by omega)
  have hpost := partLoop_post lt ((s.swap a p).get a) a b b (s.swap a p) (a + 1) (b - 1)
    false (le_refl _) (by omega) (le_refl _) (by omega)
    (by rw [swap_n]; exact hb) (by omega)
    (fun x h1 h2 => absurd (lt_of_le_of_lt h1 h2) (lt_irrefl _))
    (fun y h1 h2 => absurd h1 (by omega))
  have hperm := partLoop_perm lt ((s.swap a p).get a) b (s.swap a p) (a + 1) (b - 1) false
  rcases hm1 : partLoop lt ((s.swap a p).get a) b (s.swap a p) (a + 1) (b - 1) false
    with ⟨j, ap, s2⟩
  rw [hm1] at hge hle hfr hpost hperm
  have hge' : a ≤ j := hge
  have hle' : j ≤ b - 1 := hle
  have hfr' : s2.get a = (s.swap a p).get a := hfr
  have P1 : ∀ x, a + 1 ≤ x → x ≤ j → lt (s2.get x) ((s.swap a p).get a) = true := hpost.1
  have P2 : ∀ y, j < y → y < b → lt (s2.get y) ((s.swap a p).get a) = false := hpost.2
  have hn2 : s2.n = s.n := by
    have h1 : s2.data.length = (s.swap a p).data.length := hperm.length_eq
    have h2 : (s.swap a p).n = s.n := swap_n s a p
    exact h1.trans h2
  have han : a < s2.n := by rw [hn2]; omega
  have hjn : j < s2.n := by rw [hn2]; omega
  refine ⟨?_, ?_, ?_⟩
  · rw [get_swap_fst s2 j a hjn han]
    exact hfr'
  · intro x hx1 hx2
    rcases Nat.eq_or_lt_of_le hx1 with rfl | hx'
    · rw [get_swap_snd s2 j a hjn han]
      exact P1 j (by omega) (le_refl _)
    · rw [get_swap_other s2 j a x (by omega) (by omega)]
      exact P1 x (by omega) (by omega)
  · intro y hy1 hy2
    rw [get_swap_other s2 j a y (by omega) (by omega)]
    exact P2 y hy1 hy2

theorem scanIE_post (lt : Int → Int → Bool) (pv : Int) (s : SSt) (fuel : Nat) :
    ∀ i j, j + 1 - i ≤ fuel →
      (∀ x, i ≤ x → x < scanIE lt pv s fuel i j → lt pv (s.get x) = false) ∧
      (scanIE lt pv s fuel i j ≤ j → lt pv (s.get (scanIE lt pv s fuel i j)) = true) := by
  induction fuel with
  | zero =>
    intro i j hf
    simp only [scanIE]
    exact ⟨fun x h1 h2 => absurd (lt_of_le_of_lt h1 h2) (lt_irrefl i),
      fun h => absurd h (by omega)⟩
  | succ fuel ih =>
    intro i j hf
    simp only [scanIE]
    split
    · rename_i hc
      obtain ⟨ih1, ih2⟩ := ih (i + 1) j (by omega)
      refine ⟨?_, ih2⟩
      intro x h1 h2
      rcases Nat.eq_or_lt_of_le h1 with rfl | h1'
      · simpa using hc.2
      · exact ih1 x (by omega) h2
    · rename_i hc
      refine ⟨fun x h1 h2 => absurd (lt_of_le_of_lt h1 h2) (lt_irrefl i), ?_⟩
      intro hij
      rcases Bool.eq_false_or_eq_true (lt pv (s.get i)) with h | h
      · exact h
      · exact absurd ⟨hij, by simp [h]⟩ hc

theorem scanJE_post (lt : Int → Int → Bool) (pv : Int) (s : SSt) (i : Nat)
    (hi : 1 ≤ i) :
    ∀ j, (∀ y, scanJE lt pv s i j < y → y ≤ j → lt pv (s.get y) = true) ∧
      (i ≤ scanJE lt pv s i j → lt pv (s.get (scanJE lt pv s i j)) = false) := by
  intro j
  induction j with
  | zero =>
    simp only [scanJE]
    exact ⟨fun y h1 h2 => by omega, fun h => by omega⟩
  | succ j ih =>
    simp only [scanJE]
    split
    · rename_i hc
      obtain ⟨ih1, ih2⟩ := ih
      refine ⟨?_, ih2⟩
      intro y h1 h2
      rcases Nat.eq_or_lt_of_le h2 with rfl | h2'
      · exact hc.2
      · exact ih1 y h1 (by omega)
    · rename_i hc
      refine ⟨fun y h1 h2 => by omega, ?_⟩
      intro hij
      rcases Bool.eq_false_or_eq_true (lt pv (s.get (j + 1))) with h | h
      · exact absurd ⟨hij, h⟩ hc
      · exact h

theorem peLoop_frame2 (lt : Int → Int → Bool) (pv : Int) (fuel : Nat) :
    ∀ (s : SSt) (i j b m : Nat), j < b → m < i ∨ b ≤ m →
      (peLoop lt pv fuel s i j).2.get m = s.get m := by
  induction fuel with
  | zero => intro s i j b m _ _; rfl
  | succ fuel ih =>
    intro s i j b m hj hm
    simp only [peLoop]
    have hi1 : i ≤ scanIE lt pv s (j + 1 - i) i j := scanIE_ge lt pv s _ i j
    have hj1 : scanJE lt pv s (scanIE lt pv s (j + 1 - i) i j) j ≤ j :=
      scanJE_le lt pv s _ j
    split
    · rfl
    · rename_i hns
      rw [ih _ _ _ b m (by omega) (by omega),
        get_swap_other s _ _ m (by omega) (by omega)]

theorem peLoop_post (lt : Int → Int → Bool) (pv : Int) (a b : Nat)
    (fuel : Nat) :
    ∀ (s : SSt) (i j : Nat), a + 1 ≤ i → i ≤ j + 2 → j ≤ b - 1 → 1 ≤ b →
      b ≤ s.n → j + 2 - i ≤ fuel →
      (∀ x, a + 1 ≤ x → x < i → lt pv (s.get x) = false) →
      (∀ y, j < y → y < b → lt pv (s.get y) = true) →
      (∀ x, a + 1 ≤ x → x < (peLoop lt pv fuel s i j).1 →
        lt pv ((peLoop lt pv fuel s i j).2.get x) = false) ∧
      (∀ y, (peLoop lt pv fuel s i j).1 ≤ y → y < b →
        lt pv ((peLoop lt pv fuel s i j).2.get y) = true) := by
  induction fuel with
  | zero =>
    intro s i j h1 h2 h3 hb hn hf pre1 pre2
    simp only [peLoop]
    constructor
    · intro x hx1 hx2
      exact pre1 x hx1 hx2
    · intro y hy1 hy2
      exact pre2 y (by omega) hy2
  | succ fuel ih =>
    intro s i j h1 h2 h3 hb hn hf pre1 pre2
    simp only [peLoop]
    have hig : i ≤ scanIE lt pv s (j + 1 - i) i j := scanIE_ge lt pv s _ i j
    obtain ⟨si1, si2⟩ := scanIE_post lt pv s (j + 1 - i) i j (le_refl _)
    set i2 := scanIE lt pv s (j + 1 - i) i j with hi2
    have hjl : scanJE lt pv s i2 j ≤ j := scanJE_le lt pv s i2 j
    obtain ⟨sj1, sj2⟩ := scanJE_post lt pv s i2 (by omega) j
    set j2 := scanJE lt pv s i2 j with hj2
    clear_value i2 j2
    have hleft : ∀ x, a + 1 ≤ x → x < i2 → lt pv (s.get x) = false := by
      intro x hx1 hx2
      rcases Nat.lt_or_ge x i with hx | hx
      · exact pre1 x hx1 hx
      · exact si1 x hx hx2
    have hright : ∀ y, j2 < y → y < b → lt pv (s.get y) = true := by
      intro y hy1 hy2
      rcases Nat.lt_or_ge j y with hy | hy
      · exact pre2 y hy hy2
      · exact sj1 y hy1 hy
    split
    · rename_i hcross
      constructor
      · intro x hx1 hx2
        exact hleft x hx1 hx2
      · intro y hy1 hy2
        exact hright y (by omega) hy2
    · rename_i hncross
      have hij : i2 ≤ j2 := by omega
      have hvi : lt pv (s.get i2) = true := si2 (by omega)
      have hvj : lt pv (s.get j2) = false := sj2 (by omega)
      have hn2 : b ≤ (s.swap i2 j2).n := by rw [swap_n]; exact hn
      have ha1 : a + 1 ≤ i2 + 1 := by omega
      have ha2 : i2 + 1 ≤ (j2 - 1) + 2 := by omega
      have ha3 : j2 - 1 ≤ b - 1 := by omega
      have ha4 : (j2 - 1) + 2 - (i2 + 1) ≤ fuel := by omega
      refine ih (s.swap i2 j2) (i2 + 1) (j2 - 1) ha1 ha2 ha3 hb hn2 ha4 ?_ ?_
      · intro x hx1 hx2
        rcases Nat.lt_or_ge x i2 with hx | hx
        · rw [get_swap_other s i2 j2 x (by omega) (by omega)]
          exact hleft x hx1 hx
        · have hxe : x = i2 := by omega
          rw [hxe, get_swap_fst s i2 j2 (by omega) (by omega)]
          exact hvj
      · intro y hy1 hy2
        rcases Nat.lt_or_ge j2 y with hy | hy
        · rw [get_swap_other s i2 j2 y (by omega) (by omega)]
          exact hright y hy hy2
        · have hye : y = j2 := by omega
          rw [hye, get_swap_snd s i2 j2 (by omega) (by omega)]
          exact hvi

theorem partitionEqual_post (lt : Int → Int → Bool) (s : SSt) (a b p : Nat)
    (hp1 : a ≤ p) (hp2 : p < b) (hb : b ≤ s.n) :
    (partitionEqual lt s a b p).2.get a = (s.swap a p).get a ∧
    (∀ x, a + 1 ≤ x → x < (partitionEqual lt s a b p).1 →
      lt ((s.swap a p).get a) ((partitionEqual lt s a b p).2.get x) = false) ∧
    (∀ y, (partitionEqual lt s a b p).1 ≤ y → y < b →
      lt ((s.swap a p).get a) ((partitionEqual lt s a b p).2.get y) = true) := by
  simp only [partitionEqual]
  have hfr := peLoop_frame2 lt ((s.swap a p).get a) b (s.swap a p) (a + 1) (b - 1) b a
    (by omega) (by omega)
  have hpost := peLoop_post lt ((s.swap a p).get a) a b b (s.swap a p) (a + 1) (b - 1)
    (le_refl _) (by omega) (le_refl _) (by omega)
    (by rw [swap_n]; exact hb) (by omega)
    (fun x h1 h2 => absurd (lt_of_le_of_lt h1 h2) (lt_irrefl _))
    (fun y h1 h2 => absurd h1 (by omega))
  rcases hm1 : peLoop lt ((s.swap a p).get a) b (s.swap a p) (a + 1) (b - 1)
    with ⟨m, s2⟩
  rw [hm1] at hfr hpost
  exact ⟨hfr, hpost.1, hpost.2⟩


theorem get_getElem (s : SSt) (i : Nat) (h : i < s.data.length) :
    s.get i = s.data[i] :=
  List.getD_eq_getElem s.data 0 h

theorem take_eq_of_agree (s2 s : SSt) (a : Nat) (hn : s2.n = s.n)
    (hfr : ∀ m, m < a → s2.get m = s.get m) :
    s2.data.take a = s.data.take a := by
  have hlen : s2.data.length = s.data.length := hn
  apply List.ext_getElem
  · rw [List.length_take, List.length_take, hlen]
  · intro i h1 h2
    rw [List.length_take] at h1 h2
    have hia : i < a := by omega
    have hi2 : i < s2.data.length := by omega
    have hi1 : i < s.data.length := by omega
    rw [List.getElem_take, List.getElem_take]
    have h3 := hfr i hia
    rw [get_getElem s2 i hi2, get_getElem s i hi1] at h3
    exact h3

theorem drop_eq_of_agree (s2 s : SSt) (b : Nat) (hn : s2.n = s.n)
    (hfr : ∀ m, b ≤ m → m < s.n → s2.get m = s.get m) :
    s2.data.drop b = s.data.drop b := by
  have hlen : s2.data.length = s.data.length := hn
  apply List.ext_getElem
  · rw [List.length_drop, List.length_drop, hlen]
  · intro i h1 h2
    rw [List.length_drop] at h1 h2
    have hi2 : b + i < s2.data.length := by omega
    have hi1 : b + i < s.data.length := by omega
    rw [List.getElem_drop, List.getElem_drop]
    have h3 := hfr (b + i) (by omega) hi1
    rw [get_getElem s2 _ hi2, get_getElem s _ hi1] at h3
    exact h3

theorem drop_perm_of_agree (s2 s : SSt) (a : Nat) (hperm : s2.data.Perm s.data)
    (hfr : ∀ m, m < a → s2.get m = s.get m) :
    (s2.data.drop a).Perm (s.data.drop a) := by
  have hn : s2.n = s.n := hperm.length_eq
  have ht := take_eq_of_agree s2 s a hn hfr
  have h1 : s2.data.take a ++ s2.data.drop a = s2.data := List.take_append_drop a s2.data
  have h2 : s.data.take a ++ s.data.drop a = s.data := List.take_append_drop a s.data
  rw [← h1, ← h2, ht] at hperm
  exact (List.perm_append_left_iff _).mp hperm

theorem take_perm_of_agree (s2 s : SSt) (b : Nat) (hperm : s2.data.Perm s.data)
    (hfr : ∀ m, b ≤ m → m < s.n → s2.get m = s.get m) :
    (s2.data.take b).Perm (s.data.take b) := by
  have hn : s2.n = s.n := hperm.length_eq
  have hd := drop_eq_of_agree s2 s b hn hfr
  have h1 : s2.data.take b ++ s2.data.drop b = s2.data := List.take_append_drop b s2.data
  have h2 : s.data.take b ++ s.data.drop b = s.data := List.take_append_drop b s.data
  rw [← h1, ← h2, hd] at hperm
  exact (List.perm_append_right_iff _).mp hperm

theorem seg_perm_of_agree (s2 s : SSt) (a b : Nat) (hperm : s2.data.Perm s.data)
    (hfr1 : ∀ m, m < a → s2.get m = s.get m)
    (hfr2 : ∀ m, b ≤ m → m < s.n → s2.get m = s.get m) (hab : a ≤ b) :
    ((s2.data.drop a).take (b - a)).Perm ((s.data.drop a).take (b - a)) := by
  have hn : s2.n = s.n := hperm.length_eq
  have hd : (s2.data.drop a).Perm (s.data.drop a) := drop_perm_of_agree s2 s a hperm hfr1
  have hdd : (s2.data.drop a).drop (b - a) = (s.data.drop a).drop (b - a) := by
    rw [List.drop_drop, List.drop_drop]
    have hba : a + (b - a) = b := by omega
    rw [hba]
    exact drop_eq_of_agree s2 s b hn hfr2
  have h1 : (s2.data.drop a).take (b - a) ++ (s2.data.drop a).drop (b - a) = s2.data.drop a :=
    List.take_append_drop _ _
  have h2 : (s.data.drop a).take (b - a) ++ (s.data.drop a).drop (b - a) = s.data.drop a :=
    List.take_append_drop _ _
  rw [← h1, ← h2, hdd] at hd
  exact (List.perm_append_right_iff _).mp hd

theorem get_mem_drop (s : SSt) (a y : Nat) (h1 : a ≤ y) (h2 : y < s.n) :
    s.get y ∈ s.data.drop a := by
  have h2l : y < s.data.length := h2
  have hidx : y - a < (s.data.drop a).length := by
    rw [List.length_drop]
    omega
  have he : (s.data.drop a)[y - a] = s.get y := by
    rw [List.getElem_drop, get_getElem s y h2l]
    simp only [show a + (y - a) = y from by omega]
  rw [← he]
  exact List.getElem_mem hidx

theorem exists_get_of_mem_drop (s : SSt) (a : Nat) (v : Int)
    (h : v ∈ s.data.drop a) : ∃ z, a ≤ z ∧ z < s.n ∧ s.get z = v := by
  obtain ⟨i, hi, hv⟩ := List.getElem_of_mem h
  rw [List.length_drop] at hi
  have hin : a + i < s.data.length := by omega
  refine ⟨a + i, by omega, hin, ?_⟩
  rw [List.getElem_drop] at hv
  rw [get_getElem s _ hin]
  exact hv

theorem get_mem_take (s : SSt) (b x : Nat) (h1 : x < b) (h2 : x < s.n) :
    s.get x ∈ s.data.take b := by
  have h2l : x < s.data.length := h2
  have hidx : x < (s.data.take b).length := by
    rw [List.length_take]
    omega
  have he : (s.data.take b)[x] = s.get x := by
    rw [List.getElem_take, get_getElem s x h2l]
  rw [← he]
  exact List.getElem_mem hidx

theorem exists_get_of_mem_take (s : SSt) (b : Nat) (v : Int)
    (h : v ∈ s.data.take b) : ∃ z, z < b ∧ z < s.n ∧ s.get z = v := by
  obtain ⟨i, hi, hv⟩ := List.getElem_of_mem h
  rw [List.length_take] at hi
  have hin : i < s.data.length := by omega
  refine ⟨i, by omega, hin, ?_⟩
  rw [List.getElem_take] at hv
  rw [get_getElem s _ hin]
  exact hv

theorem get_mem_seg (s : SSt) (a b y : Nat) (h1 : a ≤ y) (h2 : y < b)
    (h3 : y < s.n) : s.get y ∈ (s.data.drop a).take (b - a) := by
  have h3l : y < s.data.length := h3
  have hlt : y - a < ((s.data.drop a).take (b - a)).length := by
    rw [List.length_take, List.length_drop]
    omega
  have he : ((s.data.drop a).take (b - a))[y - a] = s.get y := by
    rw [List.getElem_take, List.getElem_drop, get_getElem s y h3l]
    simp only [show a + (y - a) = y from by omega]
  rw [← he]
  exact List.getElem_mem hlt

theorem exists_get_of_mem_seg (s : SSt) (a b : Nat) (v : Int)
    (h : v ∈ (s.data.drop a).take (b - a)) :
    ∃ z, a ≤ z ∧ z < b ∧ z < s.n ∧ s.get z = v := by
  obtain ⟨i, hi, hv⟩ := List.getElem_of_mem h
  rw [List.length_take, List.length_drop] at hi
  have hin : a + i < s.data.length := by omega
  refine ⟨a + i, by omega, by omega, hin, ?_⟩
  rw [List.getElem_take, List.getElem_drop] at hv
  rw [get_getElem s _ hin]
  exact hv

theorem leftBound_transfer (s2 s : SSt) (a : Nat) (hperm : s2.data.Perm s.data)
    (hfr : ∀ m, m < a → s2.get m = s.get m) (h : leftBound s a) :
    leftBound s2 a := by
  have hn : s2.n = s.n := hperm.length_eq
  intro x y hx hy hyn
  rw [hfr x hx]
  have hmem : s2.get y ∈ s2.data.drop a := get_mem_drop s2 a y hy hyn
  have hmem2 : s2.get y ∈ s.data.drop a :=
    (drop_perm_of_agree s2 s a hperm hfr).mem_iff.mp hmem
  obtain ⟨z, hz1, hz2, hz3⟩ := exists_get_of_mem_drop s a _ hmem2
  rw [← hz3]
  exact h x z hx hz1 hz2

theorem rightBound_transfer (s2 s : SSt) (b : Nat) (hperm : s2.data.Perm s.data)
    (hfr : ∀ m, b ≤ m → m < s.n → s2.get m = s.get m) (h : rightBound s b) :
    rightBound s2 b := by
  have hn : s2.n = s.n := hperm.length_eq
  intro x y hx hy hyn
  have hyn1 : y < s.n := by rw [← hn]; exact hyn
  rw [hfr y hy hyn1]
  have hxn : x < s2.n := by rw [hn]; omega
  have hmem : s2.get x ∈ s2.data.take b := get_mem_take s2 b x hx hxn
  have hmem2 : s2.get x ∈ s.data.take b :=
    (take_perm_of_agree s2 s b hperm hfr).mem_iff.mp hmem
  obtain ⟨z, hz1, hz2, hz3⟩ := exists_get_of_mem_take s b _ hmem2
  rw [← hz3]
  exact h z y hz1 hy hyn1

theorem strictLeft_transfer (s2 s : SSt) (a b : Nat) (hperm : s2.data.Perm s.data)
    (hfr1 : ∀ m, m < a → s2.get m = s.get m)
    (hfr2 : ∀ m, b ≤ m → m < s.n → s2.get m = s.get m)
    (hab : a ≤ b) (hb : b ≤ s.n) (h : strictLeft s a b) :
    strictLeft s2 a b := by
  have hn : s2.n = s.n := hperm.length_eq
  intro ha y hy1 hy2
  rw [hfr1 (a - 1) (by omega)]
  have hmem : s2.get y ∈ (s2.data.drop a).take (b - a) :=
    get_mem_seg s2 a b y hy1 hy2 (by rw [hn]; omega)
  have hmem2 : s2.get y ∈ (s.data.drop a).take (b - a) :=
    (seg_perm_of_agree s2 s a b hperm hfr1 hfr2 hab).mem_iff.mp hmem
  obtain ⟨z, hz1, hz2, hz3, hz4⟩ := exists_get_of_mem_seg s a b _ hmem2
  rw [← hz4]
  exact h ha z hz1 hz2


theorem shrinkD_eq (n : Nat) : ∀ fuel1 fuel2, n ≤ fuel1 → n ≤ fuel2 →
    shrinkD fuel1 n = shrinkD fuel2 n := by
  induction n using Nat.strong_induction_on with
  | _ n ih =>
    intro fuel1 fuel2 h1 h2
    match fuel1, fuel2 with
    | 0, 0 => rfl
    | 0, f2 + 1 =>
      have hn : n = 0 := by omega
      subst hn
      simp [shrinkD]
    | f1 + 1, 0 =>
      have hn : n = 0 := by omega
      subst hn
      simp [shrinkD]
    | f1 + 1, f2 + 1 =>
      simp only [shrinkD]
      by_cases hc : n ≤ 12
      · rw [if_pos hc, if_pos hc]
      · rw [if_neg hc, if_neg hc,
          ih (n / 8 - 1) (by omega) f1 f2 (by omega) (by omega)]

theorem mu8_le12 (n : Nat) (h : n ≤ 12) : mu8 n = 0 := by
  cases n with
  | zero => rfl
  | succ m => simp [mu8, shrinkD, h]

theorem mu8_rec (n : Nat) (h : 12 < n) : mu8 n = mu8 (n / 8 - 1) + 1 := by
  cases n with
  | zero => omega
  | succ m =>
    show shrinkD (m + 1) (m + 1) = mu8 ((m + 1) / 8 - 1) + 1
    simp only [shrinkD]
    rw [if_neg (by omega)]
    congr 1
    exact shrinkD_eq ((m + 1) / 8 - 1) m ((m + 1) / 8 - 1) (by omega) (le_refl _)

theorem mu8_mono : ∀ n m, m ≤ n → mu8 m ≤ mu8 n := by
  intro n
  induction n using Nat.strong_induction_on with
  | _ n ih =>
    intro m hmn
    by_cases hm : m ≤ 12
    · rw [mu8_le12 m hm]
      omega
    · have hn : 12 < n := by omega
      rw [mu8_rec m (by omega), mu8_rec n hn]
      have hdiv : m / 8 ≤ n / 8 := Nat.div_le_div_right hmn
      have := ih (n / 8 - 1) (by omega) (m / 8 - 1) (by omega)
      omega

theorem bitsLen_eq_log2 (n : Nat) (h : 1 ≤ n) : bitsLen n = Nat.log2 n + 1 :=
  bitsLenAux_eq n n h (le_refl n)

theorem bitsLen_mono (m n : Nat) (h : m ≤ n) : bitsLen m ≤ bitsLen n := by
  cases m with
  | zero =>
    show bitsLenAux 0 0 ≤ bitsLen n
    simp [bitsLenAux]
  | succ m0 =>
    rw [bitsLen_eq_log2 (m0 + 1) (by omega), bitsLen_eq_log2 n (by omega)]
    have : Nat.log2 (m0 + 1) ≤ Nat.log2 n := by
      rw [Nat.log2_eq_log_two, Nat.log2_eq_log_two]
      exact Nat.log_mono_right h
    omega

theorem bitsLen_div8 (n : Nat) (h : 8 ≤ n) : bitsLen (n / 8) + 3 = bitsLen n := by
  have h8 : 1 ≤ n / 8 := by omega
  rw [bitsLen_eq_log2 (n / 8) h8, bitsLen_eq_log2 n (by omega)]
  rw [Nat.log2_eq_log_two, Nat.log2_eq_log_two]
  have e1 : n / 2 / 2 / 2 = n / 8 := by
    rw [Nat.div_div_eq_div_mul, Nat.div_div_eq_div_mul]
  have e2 : Nat.log 2 (n / 2) = Nat.log 2 n - 1 := Nat.log_div_base 2 n
  have e3 : Nat.log 2 (n / 2 / 2) = Nat.log 2 (n / 2) - 1 := Nat.log_div_base 2 (n / 2)
  have e4 : Nat.log 2 (n / 2 / 2 / 2) = Nat.log 2 (n / 2 / 2) - 1 := Nat.log_div_base 2 (n / 2 / 2)
  have hlog3 : 3 ≤ Nat.log 2 n := by
    rw [← Nat.pow_le_iff_le_log (by omega) (by omega)]
    omega
  rw [e1] at e4
  omega

theorem mu8_bits (n : Nat) : 2 * mu8 n ≤ bitsLen n + 1 := by
  induction n using Nat.strong_induction_on with
  | _ n ih =>
    by_cases h12 : n ≤ 12
    · rw [mu8_le12 n h12]
      omega
    · rw [mu8_rec n (by omega)]
      have hb1 : 1 ≤ bitsLen n := by
        rw [bitsLen_eq_log2 n (by omega)]
        omega
      by_cases h16 : n ≤ 15
      · have hz : n / 8 - 1 = 0 := by omega
        rw [hz, mu8_le12 0 (by omega)]
        have h13 : bitsLen 13 ≤ bitsLen n := bitsLen_mono 13 n (by omega)
        have e13 : bitsLen 13 = 4 := rfl
        omega
      · have hih := ih (n / 8 - 1) (by omega)
        have hm : bitsLen (n / 8 - 1) ≤ bitsLen (n / 8) := bitsLen_mono _ _ (by omega)
        have hd : bitsLen (n / 8) + 3 = bitsLen n := bitsLen_div8 n (by omega)
        omega


theorem pShift_spec (a B : Nat) :
    ∀ (j : Nat) (s : SSt) (budget : Nat), j < B → B ≤ s.n → sortedRange s a j →
      (pShift ltInt s a j budget).2.2 = false →
      sortedRange (pShift ltInt s a j budget).1 a (j + 1) ∧
      (∀ m, m < a ∨ j < m → (pShift ltInt s a j budget).1.get m = s.get m) ∧
      (∀ x : Int, (∀ p, a ≤ p → p ≤ j → s.get p ≤ x) →
        ∀ p, a ≤ p → p ≤ j → (pShift ltInt s a j budget).1.get p ≤ x) := by
  intro j
  induction j with
  | zero =>
    intro s budget hj hB hsort hex
    refine ⟨?_, fun m _ => rfl, fun x hx p hp hpj => hx p hp hpj⟩
    intro p q hp hpq hq
    have hp0 : p = 0 := by omega
    have hq0 : q = 0 := by omega
    subst hp0
    rw [hq0]
  | succ j ih =>
    intro s budget hj hB hsort
    simp only [pShift]
    by_cases hg : a < j + 1 ∧ ltInt (s.get (j + 1)) (s.get j)
    · rw [if_pos hg]
      match budget with
      | 0 =>
        intro hex
        exact absurd hex (by simp)
      | bud + 1 =>
        intro hex
        obtain ⟨ha, hlt⟩ := hg
        have hvw : s.get (j + 1) < s.get j := by simpa [ltInt] using hlt
        have hjn : j < s.n := by omega
        have hj1n : j + 1 < s.n := by omega
        set s1 := s.swap (j + 1) j with hs1
        have g1 : s1.get j = s.get (j + 1) := get_swap_snd s (j + 1) j hj1n hjn
        have g2 : s1.get (j + 1) = s.get j := get_swap_fst s (j + 1) j hj1n hjn
        have g3 : ∀ m, m ≠ j → m ≠ j + 1 → s1.get m = s.get m := fun m h1 h2 =>
          get_swap_other s (j + 1) j m h2 h1
        have hsort1 : sortedRange s1 a j := by
          intro p q hp hpq hq
          rw [g3 p (by omega) (by omega), g3 q (by omega) (by omega)]
          exact hsort p q hp hpq (by omega)
        have hBn : B ≤ s1.n := by rw [hs1, swap_n]; exact hB
        obtain ⟨ih1, ih2, ih3⟩ := ih s1 bud (by omega) hBn hsort1 hex
        have hrj1 : (pShift ltInt s1 a j bud).1.get (j + 1) = s.get j := by
          rw [ih2 (j + 1) (Or.inr (by omega)), g2]
        refine ⟨?_, ?_, ?_⟩
        · intro p q hp hpq hq
          rcases Nat.lt_or_ge q (j + 1) with hq2 | hq2
          · exact ih1 p q hp hpq hq2
          · have hq1 : q = j + 1 := by omega
            subst hq1
            rw [hrj1]
            rcases Nat.lt_or_ge p (j + 1) with hp2 | hp2
            · refine ih3 (s.get j) ?_ p hp (by omega)
              intro p2 hp2a hp2j
              rcases Nat.lt_or_ge p2 j with hp3 | hp3
              · rw [g3 p2 (by omega) (by omega)]
                exact hsort p2 j hp2a (by omega) (by omega)
              · have hpj : p2 = j := by omega
                subst hpj
                rw [g1]
                exact le_of_lt hvw
            · have hpe : p = j + 1 := by omega
              subst hpe
              rw [hrj1]
        · intro m hm
          rcases hm with hm | hm
          · rw [ih2 m (Or.inl hm), g3 m (by omega) (by omega)]
          · rw [ih2 m (Or.inr (by omega)), g3 m (by omega) (by omega)]
        · intro x hx p hp hpj
          rcases Nat.lt_or_ge p (j + 1) with hp2 | hp2
          · refine ih3 x ?_ p hp (by omega)
            intro p2 hp2a hp2j
            rcases Nat.lt_or_ge p2 j with hp3 | hp3
            · rw [g3 p2 (by omega) (by omega)]
              exact hx p2 hp2a (by omega)
            · have hpj2 : p2 = j := by omega
              subst hpj2
              rw [g1]
              exact hx _ (by omega) (le_refl _)
          · have hpe : p = j + 1 := by omega
            subst hpe
            rw [hrj1]
            exact hx j (by omega) (by omega)
    · rw [if_neg hg]
      intro hex
      refine ⟨?_, fun m _ => rfl, fun x hx p hp hpj => hx p hp hpj⟩
      intro p q hp hpq hq
      rcases Nat.lt_or_ge q (j + 1) with hq2 | hq2
      · exact hsort p q hp hpq hq2
      · have hq1 : q = j + 1 := by omega
        subst hq1
        by_cases ha : a < j + 1
        · have hle : s.get j ≤ s.get (j + 1) := by
            have hnl : ¬ ltInt (s.get (j + 1)) (s.get j) := fun hc => hg ⟨ha, hc⟩
            simpa [ltInt] using hnl
          rcases Nat.lt_or_ge p (j + 1) with hp2 | hp2
          · exact le_trans (hsort p j hp (by omega) (by omega)) hle
          · have hpe : p = j + 1 := by omega
            subst hpe
            exact le_refl _
        · have hpe : p = j + 1 := by omega
          subst hpe
          exact le_refl _

theorem pInsOuter_spec (a b : Nat) :
    ∀ (fuel : Nat) (s : SSt) (i budget : Nat), b ≤ i + fuel → b ≤ s.n → a < i →
      sortedRange s a i →
      (pInsOuter ltInt fuel s a b i budget).1 = true →
      sortedRange (pInsOuter ltInt fuel s a b i budget).2 a b := by
  intro fuel
  induction fuel with
  | zero =>
    intro s i budget hfuel hB hai hsort _
    exact fun p q hp hpq hq => hsort p q hp hpq (by omega)
  | succ fuel ih =>
    intro s i budget hfuel hB hai hsort
    simp only [pInsOuter]
    by_cases hib : i < b
    · rw [if_pos hib]
      have hps := pShift_spec a b i s budget hib hB hsort
      have hpn : b ≤ (pShift ltInt s a i budget).1.n := by
        show b ≤ (pShift ltInt s a i budget).1.data.length
        rw [(pShift_perm ltInt s a i budget).length_eq]
        exact hB
      rcases hm : pShift ltInt s a i budget with ⟨s1, bud1, ex⟩
      rw [hm] at hps hpn
      cases ex with
      | true =>
        intro hfalse
        exact absurd hfalse (by simp)
      | false =>
        intro htrue
        obtain ⟨h1, h2, h3⟩ := hps rfl
        exact ih s1 (i + 1) bud1 (by omega) hpn (by omega) h1 htrue
    · rw [if_neg hib]
      intro _
      exact fun p q hp hpq hq => hsort p q hp hpq (by omega)

theorem pInsSort_sorts (s : SSt) (a b : Nat) (hB : b ≤ s.n)
    (h : (pInsSort ltInt s a b).1 = true) :
    sortedRange (pInsSort ltInt s a b).2 a b := by
  unfold pInsSort at h ⊢
  exact pInsOuter_spec a b b s (a + 1) 8 (by omega) hB (by omega)
    (fun p q hp hpq hq => by
      have hpa : p = a := by omega
      have hqa : q = a := by omega
      subst hpa
      rw [hqa]) h


theorem ltInt_eq_false (x y : Int) : ltInt x y = false ↔ y ≤ x := by
  simp [ltInt]

theorem pivotPrep_frame (lt : Int → Int → Bool) (s1 : SSt) (a b m : Nat)
    (hm : m < a ∨ b ≤ m) : (pivotPrep lt s1 a b).1.get m = s1.get m := by
  simp only [pivotPrep]
  have h1 := choosePivot_frame lt s1 a b m hm
  rcases hc : choosePivot lt s1 a b with ⟨s2, p0, h0⟩
  rw [hc] at h1
  split
  · rw [reverseRange_frame s2 a b m hm]
    exact h1
  · exact h1

theorem choosePivot_pos (lt : Int → Int → Bool) (s : SSt) (a b : Nat)
    (hab : a + 1 ≤ b) :
    a ≤ (choosePivot lt s a b).2.1 ∧ (choosePivot lt s a b).2.1 < b := by
  simp only [choosePivot]
  split
  · constructor
    · show a ≤ a + (b - a) / 2
      omega
    · show a + (b - a) / 2 < b
      omega
  · split
    · rcases hm1 : med3 lt s a (a + (b - a) / 2) (b - 1) with ⟨s1, sw⟩
      constructor
      · show a ≤ a + (b - a) / 2
        omega
      · show a + (b - a) / 2 < b
        omega
    · rename_i h8 h50
      rcases hm1 : med3 lt s (a + (b - a) / 4 - 1) (a + (b - a) / 4) (a + (b - a) / 4 + 1)
        with ⟨s1, w1⟩
      rcases hm2 : med3 lt s1 (a + 2 * ((b - a) / 4) - 1) (a + 2 * ((b - a) / 4)) (a + 2 * ((b - a) / 4) + 1)
        with ⟨s2, w2⟩
      rcases hm3 : med3 lt s2 (a + 3 * ((b - a) / 4) - 1) (a + 3 * ((b - a) / 4)) (a + 3 * ((b - a) / 4) + 1)
        with ⟨s3, w3⟩
      rcases hm4 : med3 lt s3 (a + (b - a) / 4) (a + 2 * ((b - a) / 4)) (a + 3 * ((b - a) / 4))
        with ⟨s4, w4⟩
      constructor
      · show a ≤ a + 2 * ((b - a) / 4)
        omega
      · show a + 2 * ((b - a) / 4) < b
        have h4 := Nat.mul_div_le (b - a) 4
        omega

theorem pivotPrep_pos (lt : Int → Int → Bool) (s1 : SSt) (a b : Nat)
    (hab : a + 1 ≤ b) :
    a ≤ (pivotPrep lt s1 a b).2.1 ∧ (pivotPrep lt s1 a b).2.1 < b := by
  simp only [pivotPrep]
  have h1 := choosePivot_pos lt s1 a b hab
  rcases hc : choosePivot lt s1 a b with ⟨s2, p0, h0⟩
  rw [hc] at h1
  obtain ⟨ha1, ha2⟩ := h1
  have ha1' : a ≤ p0 := ha1
  have ha2' : p0 < b := ha2
  split
  · constructor
    · show a ≤ b - 1 - (p0 - a)
      omega
    · show b - 1 - (p0 - a) < b
      omega
  · exact ⟨ha1', ha2'⟩

theorem peLoop_fst_le (lt : Int → Int → Bool) (pv : Int) (fuel : Nat) :
    ∀ s i j, (peLoop lt pv fuel s i j).1 ≤ max i (j + 1) := by
  induction fuel with
  | zero =>
    intro s i j
    simp only [peLoop]
    omega
  | succ fuel ih =>
    intro s i j
    simp only [peLoop]
    have hi1 : i ≤ scanIE lt pv s (j + 1 - i) i j := scanIE_ge lt pv s _ i j
    have hi2b : scanIE lt pv s (j + 1 - i) i j ≤ max i (j + 1) := by
      rcases Nat.lt_or_ge (j + 1) i with hgt | hle
      · have hz : j + 1 - i = 0 := by omega
        rw [hz]
        simp only [scanIE]
        omega
      · have := scanIE_le lt pv s (j + 1 - i) i j hle
        omega
    set i2 := scanIE lt pv s (j + 1 - i) i j with hi2e
    have hj1 : scanJE lt pv s i2 j ≤ j := scanJE_le lt pv s i2 j
    set j2 := scanJE lt pv s i2 j with hj2e
    clear_value i2 j2
    split
    · exact hi2b
    · rename_i hns
      have hrec := ih (s.swap i2 j2) (i2 + 1) (j2 - 1)
      omega

theorem partitionEqual_fst_le (lt : Int → Int → Bool) (s : SSt) (a b p : Nat)
    (hab : a + 1 ≤ b) : (partitionEqual lt s a b p).1 ≤ b := by
  simp only [partitionEqual]
  have h := peLoop_fst_le lt ((s.swap a p).get a) b (s.swap a p) (a + 1) (b - 1)
  have hm : max (a + 1) (b - 1 + 1) = b := by omega
  rw [hm] at h
  exact h


theorem pdqStepTail_rank (s4 : SSt) (a b k limit2 p1 : Nat) (wb wp : Bool)
    (h12 : 12 < b - a) (hak : a ≤ k) (hkb : k < b) (hb : b ≤ s4.n)
    (hp1a : a ≤ p1) (hp1b : p1 < b)
    (hL : leftBound s4 a) (hR : rightBound s4 b)
    (hlim1 : 2 * mu8 (b - a) ≤ limit2 + 1)
    (hwbF : wb = false → strictLeft s4 a b ∨ 2 * mu8 (b - a) ≤ limit2) :
    (∀ s5x, pdqStepTail ltInt (b - a) s4 a b k limit2 p1 wb wp = .done s5x →
      s5x.data.Perm s4.data ∧
      (∀ x, x < k → s5x.get x ≤ s5x.get k) ∧
      (∀ y, k < y → y < s4.n → s5x.get k ≤ s5x.get y)) ∧
    (∀ s5x a2 b2 l2 wb2 wp2,
      pdqStepTail ltInt (b - a) s4 a b k limit2 p1 wb wp =
        .cont s5x a2 b2 l2 wb2 wp2 →
      s5x.data.Perm s4.data ∧ a2 ≤ k ∧ k < b2 ∧ b2 ≤ s5x.n ∧ b2 - a2 < b - a ∧
      leftBound s5x a2 ∧ rightBound s5x b2 ∧ budgetInv s5x a2 b2 l2 wb2) := by
  have hn4a : a < s4.n := by omega
  have hp1n : p1 < s4.n := by omega
  have hpv : (s4.swap a p1).get a = s4.get p1 := get_swap_fst s4 a p1 hn4a hp1n
  simp only [pdqStepTail]
  split
  · -- equal-pivot branch
    rename_i hgEq
    obtain ⟨ha0, hnl⟩ := hgEq
    have hple : s4.get p1 ≤ s4.get (a - 1) := by
      rcases Bool.eq_false_or_eq_true (ltInt (s4.get (a - 1)) (s4.get p1)) with ht | hf
      · exact absurd ht hnl
      · exact (ltInt_eq_false _ _).mp hf
    have hpost := partitionEqual_post ltInt s4 a b p1 hp1a hp1b hb
    have hge := partitionEqual_fst_ge ltInt s4 a b p1
    have hle := partitionEqual_fst_le ltInt s4 a b p1 (by omega)
    have hfrE0 : ∀ m, m < a ∨ b ≤ m →
        (partitionEqual ltInt s4 a b p1).2.get m = s4.get m := fun m hm =>
      partitionEqual_frame ltInt s4 a b p1 m hp1a hp1b hm
    have hpermE0 := partitionEqual_perm ltInt s4 a b p1
    set mid := (partitionEqual ltInt s4 a b p1).1 with hmidE
    set s5 := (partitionEqual ltInt s4 a b p1).2 with hs5E
    clear_value mid s5
    have hgeM : a + 1 ≤ mid := hge
    have hleM : mid ≤ b := hle
    have hfrE : ∀ m, m < a ∨ b ≤ m → s5.get m = s4.get m := hfrE0
    have hpermE : s5.data.Perm s4.data := hpermE0
    have E1 : s5.get a = (s4.swap a p1).get a := hpost.1
    have E2 : ∀ x, a + 1 ≤ x → x < mid →
        ltInt ((s4.swap a p1).get a) (s5.get x) = false := hpost.2.1
    have E3 : ∀ y, mid ≤ y → y < b →
        ltInt ((s4.swap a p1).get a) (s5.get y) = true := hpost.2.2
    rw [hpv] at E1 E2 E3
    have hn5 : s5.n = s4.n := hpermE.length_eq
    have hL5 : leftBound s5 a :=
      leftBound_transfer s5 s4 a hpermE (fun m hm => hfrE m (Or.inl hm)) hL
    have hR5 : rightBound s5 b :=
      rightBound_transfer s5 s4 b hpermE (fun m h1 h2 => hfrE m (Or.inr h1)) hR
    have hup : ∀ y, a ≤ y → y < b → s4.get p1 ≤ s5.get y := by
      intro y h1 h2
      have h3 : s5.get (a - 1) ≤ s5.get y := hL5 (a - 1) y (by omega) h1 (by rw [hn5]; omega)
      have h4 : s5.get (a - 1) = s4.get (a - 1) := hfrE (a - 1) (Or.inl (by omega))
      calc s4.get p1 ≤ s4.get (a - 1) := hple
        _ = s5.get (a - 1) := h4.symm
        _ ≤ s5.get y := h3
    have heqv : ∀ x, a ≤ x → x < mid → s5.get x = s4.get p1 := by
      intro x h1 h2
      rcases Nat.eq_or_lt_of_le h1 with he | h1c
      · rw [← he, E1]
      · have h5 := E2 x (by omega) h2
        have h6 : s5.get x ≤ s4.get p1 := (ltInt_eq_false _ _).mp h5
        have h7 : s4.get p1 ≤ s5.get x := hup x h1 (by omega)
        omega
    have hgt : ∀ y, mid ≤ y → y < b → s4.get p1 < s5.get y := fun y h1 h2 =>
      (ltInt_iff _ _).mp (E3 y h1 h2)
    split
    · -- k < mid: done
      rename_i hkm
      constructor
      · intro s5x heq5
        injection heq5 with he
        subst he
        refine ⟨hpermE, ?_, ?_⟩
        · intro x hx
          rcases Nat.lt_or_ge x a with hxa | hxa
          · exact hL5 x k hxa hak (by rw [hn5]; omega)
          · rw [heqv x hxa (by omega), heqv k hak hkm]
        · intro y hy hyn
          rcases Nat.lt_or_ge y b with hyb | hyb
          · rcases Nat.lt_or_ge y mid with hym | hym
            · rw [heqv y (by omega) hym, heqv k hak hkm]
            · rw [heqv k hak hkm]
              exact le_of_lt (hgt y hym hyb)
          · have h8 : s5.get k ≤ s5.get y := hR5 k y (by omega) hyb (by rw [hn5]; exact hyn)
            exact h8
      · intro s5x a2 b2 l2 wb2 wp2 heq5
        exact StepRes.noConfusion heq5
    · -- mid ≤ k: cont on [mid, b)
      rename_i hkm
      constructor
      · intro s5x heq5
        exact StepRes.noConfusion heq5
      · intro s5x a2 b2 l2 wb2 wp2 heq5
        injection heq5 with h1 h2 h3 h4 h5 h6
        subst h1
        subst h2
        subst h3
        subst h4
        subst h5
        subst h6
        refine ⟨hpermE, by omega, hkb, by rw [hn5]; exact hb, by omega, ?_, hR5, ?_⟩
        · intro x y hx hy hyn
          rcases Nat.lt_or_ge x a with hxa | hxa
          · exact hL5 x y hxa (by omega) hyn
          · rcases Nat.lt_or_ge y b with hyb | hyb
            · rw [heqv x hxa hx]
              exact le_of_lt (hgt y hy hyb)
            · exact hR5 x y (by omega) hyb hyn
        · cases wb with
          | true =>
            left
            refine ⟨rfl, ?_⟩
            have hmono := mu8_mono (b - a) (b - mid) (by omega)
            omega
          | false =>
            rcases hwbF rfl with hstr | hbound
            · exfalso
              have hcon := hstr ha0 p1 hp1a hp1b
              have := (ltInt_iff (s4.get (a - 1)) (s4.get p1)).mpr hcon
              exact hnl this
            · right
              left
              refine ⟨rfl, ?_, ?_⟩
              · intro hm0 y hy1 hy2
                have h9 : s5.get (mid - 1) = s4.get p1 := heqv (mid - 1) (by omega) (by omega)
                rw [h9]
                exact hgt y (by omega) hy2
              · have hmono := mu8_mono (b - a) (b - mid) (by omega)
                omega
  · -- partition branch
    rename_i hgPart
    have hpost := partition_post ltInt s4 a b p1 hp1a hp1b hb
    have hge := partition_fst_ge ltInt s4 a b p1 (by omega)
    have hle := partition_fst_le ltInt s4 a b p1
    have hfrP0 : ∀ m, m < a ∨ b ≤ m →
        (partition ltInt s4 a b p1).2.2.get m = s4.get m := fun m hm =>
      partition_frame ltInt s4 a b p1 m hp1a hp1b hm
    have hpermP0 := partition_perm ltInt s4 a b p1
    set mid := (partition ltInt s4 a b p1).1 with hmidP
    set apv := (partition ltInt s4 a b p1).2.1 with hapP
    set s5 := (partition ltInt s4 a b p1).2.2 with hs5P
    clear_value mid apv s5
    have hgeM : a ≤ mid := hge
    have hleM : mid ≤ b - 1 := hle
    have hfrP : ∀ m, m < a ∨ b ≤ m → s5.get m = s4.get m := hfrP0
    have hpermP : s5.data.Perm s4.data := hpermP0
    have P0 : s5.get mid = (s4.swap a p1).get a := hpost.1
    have P1 : ∀ x, a ≤ x → x < mid →
        ltInt (s5.get x) ((s4.swap a p1).get a) = true := hpost.2.1
    have P2 : ∀ y, mid < y → y < b →
        ltInt (s5.get y) ((s4.swap a p1).get a) = false := hpost.2.2
    rw [hpv] at P0 P1 P2
    have hlow : ∀ x, a ≤ x → x < mid → s5.get x < s4.get p1 := fun x h1 h2 =>
      (ltInt_iff _ _).mp (P1 x h1 h2)
    have hhigh : ∀ y, mid < y → y < b → s4.get p1 ≤ s5.get y := fun y h1 h2 =>
      (ltInt_eq_false _ _).mp (P2 y h1 h2)
    have hn5 : s5.n = s4.n := hpermP.length_eq
    have hL5 : leftBound s5 a :=
      leftBound_transfer s5 s4 a hpermP (fun m hm => hfrP m (Or.inl hm)) hL
    have hR5 : rightBound s5 b :=
      rightBound_transfer s5 s4 b hpermP (fun m h1 h2 => hfrP m (Or.inr h1)) hR
    have hpmid : ∀ y, mid ≤ y → y < b → s4.get p1 ≤ s5.get y := by
      intro y h1 h2
      rcases Nat.eq_or_lt_of_le h1 with he | h1c
      · rw [← he]
        exact le_of_eq P0.symm
      · exact hhigh y h1c h2
    split
    · -- k = mid: done
      rename_i hkm
      constructor
      · intro s5x heq5
        injection heq5 with he
        subst he
        refine ⟨hpermP, ?_, ?_⟩
        · intro x hx
          rcases Nat.lt_or_ge x a with hxa | hxa
          · exact hL5 x k hxa hak (by rw [hn5]; omega)
          · rw [hkm, P0]
            exact le_of_lt (hlow x hxa (by omega))
        · intro y hy hyn
          rcases Nat.lt_or_ge y b with hyb | hyb
          · rw [hkm, P0]
            exact hhigh y (by omega) hyb
          · exact hR5 k y (by omega) hyb (by rw [hn5]; exact hyn)
      · intro s5x a2 b2 l2 wb2 wp2 heq5
        exact StepRes.noConfusion heq5
    · rename_i hkm
      split
      · -- k < mid: descend left
        rename_i hklt
        constructor
        · intro s5x heq5
          exact StepRes.noConfusion heq5
        · intro s5x a2 b2 l2 wb2 wp2 heq5
          injection heq5 with h1 h2 h3 h4 h5 h6
          subst h1
          subst h2
          subst h3
          subst h4
          subst h5
          subst h6
          refine ⟨hpermP, hak, hklt, by rw [hn5]; omega, by omega, hL5, ?_, ?_⟩
          · intro x y hx hy hyn
            rcases Nat.lt_or_ge y b with hyb | hyb
            · rcases Nat.lt_or_ge x a with hxa | hxa
              · exact hL5 x y hxa (by omega) hyn
              · exact le_trans (le_of_lt (hlow x hxa hx)) (hpmid y hy hyb)
            · exact hR5 x y (by omega) hyb hyn
          · by_cases hbal : (b - a) / 8 ≤ mid - a
            · left
              refine ⟨by simp [hbal], ?_⟩
              have hmono := mu8_mono (b - a) (mid - a) (by omega)
              omega
            · right
              right
              refine ⟨by simp [hbal], ?_⟩
              have hrec := mu8_rec (b - a) h12
              have hmono := mu8_mono ((b - a) / 8 - 1) (mid - a) (by omega)
              omega
      · -- mid < k: descend right
        rename_i hkgt
        constructor
        · intro s5x heq5
          exact StepRes.noConfusion heq5
        · intro s5x a2 b2 l2 wb2 wp2 heq5
          injection heq5 with h1 h2 h3 h4 h5 h6
          subst h1
          subst h2
          subst h3
          subst h4
          subst h5
          subst h6
          refine ⟨hpermP, by omega, hkb, by rw [hn5]; exact hb, by omega, ?_, hR5, ?_⟩
          · intro x y hx hy hyn
            have hxv : s5.get x ≤ s4.get p1 := by
              rcases Nat.lt_or_ge x mid with hxm | hxm
              · rcases Nat.lt_or_ge x a with hxa | hxa
                · have h10 : s5.get x ≤ s5.get mid := hL5 x mid hxa hgeM (by rw [hn5]; omega)
                  rw [P0] at h10
                  exact h10
                · exact le_of_lt (hlow x hxa hxm)
              · have hxe : x = mid := by omega
                rw [hxe, P0]
            rcases Nat.lt_or_ge y b with hyb | hyb
            · exact le_trans hxv (hpmid y (by omega) hyb)
            · exact hR5 x y (by omega) hyb hyn
          · by_cases hbal : (b - a) / 8 ≤ b - mid
            · left
              refine ⟨by simp [hbal], ?_⟩
              have hmono := mu8_mono (b - a) (b - (mid + 1)) (by omega)
              omega
            · right
              right
              refine ⟨by simp [hbal], ?_⟩
              have hrec := mu8_rec (b - a) h12
              have hmono := mu8_mono ((b - a) / 8 - 1) (b - (mid + 1)) (by omega)
              omega


theorem pdqStep_rank (s : SSt) (a b k limit : Nat) (wb wp : Bool)
    (hak : a ≤ k) (hkb : k < b) (hb : b ≤ s.n)
    (hL : leftBound s a) (hR : rightBound s b)
    (hBI : budgetInv s a b limit wb) :
    (∀ s2, pdqStep ltInt s a b k limit wb wp = .done s2 →
      s2.data.Perm s.data ∧
      (∀ x, x < k → s2.get x ≤ s2.get k) ∧
      (∀ y, k < y → y < s.n → s2.get k ≤ s2.get y)) ∧
    (∀ s2 a2 b2 l2 wb2 wp2,
      pdqStep ltInt s a b k limit wb wp = .cont s2 a2 b2 l2 wb2 wp2 →
      s2.data.Perm s.data ∧ a2 ≤ k ∧ k < b2 ∧ b2 ≤ s2.n ∧ b2 - a2 < b - a ∧
      leftBound s2 a2 ∧ rightBound s2 b2 ∧ budgetInv s2 a2 b2 l2 wb2) := by
  simp only [pdqStep]
  split
  · rename_i h12
    constructor
    · intro s2 heq
      injection heq with he
      subst he
      obtain ⟨hso, hfr⟩ := insertionSort_sorts s a b hb
      have hperm := insertionSort_perm ltInt s a b
      have hn2 : (insertionSort ltInt s a b).n = s.n := hperm.length_eq
      have hL2 := leftBound_transfer _ s a hperm (fun m hm => hfr m (Or.inl hm)) hL
      have hR2 := rightBound_transfer _ s b hperm (fun m h1 h2 => hfr m (Or.inr h1)) hR
      refine ⟨hperm, ?_, ?_⟩
      · intro x hx
        rcases Nat.lt_or_ge x a with hxa | hxa
        · exact hL2 x k hxa hak (by rw [hn2]; omega)
        · exact hso x k hxa (by omega) hkb
      · intro y hy hyn
        rcases Nat.lt_or_ge y b with hyb | hyb
        · exact hso k y hak (by omega) hyb
        · exact hR2 k y hkb hyb (by rw [hn2]; exact hyn)
    · intro s2 a2 b2 l2 wb2 wp2 heq
      exact StepRes.noConfusion heq
  · rename_i h12
    split
    · rename_i h0
      exfalso
      have h1 : 1 ≤ mu8 (b - a) := by
        rw [mu8_rec (b - a) (by omega)]
        omega
      rcases hBI with ⟨hw, hB⟩ | ⟨hw, hst, hB⟩ | ⟨hw, hB⟩ <;> omega
    · rename_i h0
      set s1v := (if wb then s else breakPatterns s a b) with hs1v
      have hS1perm : s1v.data.Perm s.data := by
        rw [hs1v]
        split
        · exact List.Perm.refl _
        · exact breakPatterns_perm s a b
      have hS1fr : ∀ m, m < a ∨ b ≤ m → s1v.get m = s.get m := by
        intro m hm
        rw [hs1v]
        split
        · rfl
        · exact breakPatterns_frame s a b m hm
      set limit2 := (if wb then limit else limit - 1) with hlim2v
      clear_value limit2
      have hppperm : (pivotPrep ltInt s1v a b).1.data.Perm s.data :=
        (pivotPrep_perm ltInt s1v a b).trans hS1perm
      have hppfr : ∀ m, m < a ∨ b ≤ m → (pivotPrep ltInt s1v a b).1.get m = s.get m := by
        intro m hm
        rw [pivotPrep_frame ltInt s1v a b m hm]
        exact hS1fr m hm
      have hpppos := pivotPrep_pos ltInt s1v a b (by omega)
      have hlim1 : 2 * mu8 (b - a) ≤ limit2 + 1 := by
        rcases hBI with ⟨hw, hB⟩ | ⟨hw, hst, hB⟩ | ⟨hw, hB⟩ <;>
          rw [hw] at hlim2v <;> simp at hlim2v <;> omega
      rcases hg : (if wb ∧ wp ∧ (pivotPrep ltInt s1v a b).2.2 = SortedHint.increasing
          then pInsSort ltInt (pivotPrep ltInt s1v a b).1 a b
          else (false, (pivotPrep ltInt s1v a b).1)) with ⟨fl, s4⟩
      have h4perm : s4.data.Perm s.data := by
        split at hg
        · have h := pInsSort_perm ltInt (pivotPrep ltInt s1v a b).1 a b
          rw [hg] at h
          exact h.trans hppperm
        · rw [← ((Prod.mk.injEq _ _ _ _).mp hg).2]
          exact hppperm
      have h4fr : ∀ m, m < a ∨ b ≤ m → s4.get m = s.get m := by
        intro m hm
        split at hg
        · have h := pInsSort_frame ltInt (pivotPrep ltInt s1v a b).1 a b m hm
          rw [hg] at h
          rw [h (by omega)]
          exact hppfr m hm
        · rw [← ((Prod.mk.injEq _ _ _ _).mp hg).2]
          exact hppfr m hm
      have hn4 : s4.n = s.n := h4perm.length_eq
      have hb4 : b ≤ s4.n := by rw [hn4]; exact hb
      have hL4 := leftBound_transfer s4 s a h4perm (fun m hm => h4fr m (Or.inl hm)) hL
      have hR4 := rightBound_transfer s4 s b h4perm (fun m h1 h2 => h4fr m (Or.inr h1)) hR
      cases fl with
      | true =>
        have hps : pInsSort ltInt (pivotPrep ltInt s1v a b).1 a b = (true, s4) := by
          split at hg
          · exact hg
          · exact absurd ((Prod.mk.injEq _ _ _ _).mp hg).1 (by simp)
        have hbpp : b ≤ (pivotPrep ltInt s1v a b).1.n := by
          have h := hppperm.length_eq
          show b ≤ (pivotPrep ltInt s1v a b).1.data.length
          rw [h]
          exact hb
        have hsort : sortedRange s4 a b := by
          have h := pInsSort_sorts (pivotPrep ltInt s1v a b).1 a b hbpp (by rw [hps])
          rw [hps] at h
          exact h
        constructor
        · intro s2 heq
          injection heq with he
          subst he
          refine ⟨h4perm, ?_, ?_⟩
          · intro x hx
            rcases Nat.lt_or_ge x a with hxa | hxa
            · exact hL4 x k hxa hak (by rw [hn4]; omega)
            · exact hsort x k hxa (by omega) hkb
          · intro y hy hyn
            rcases Nat.lt_or_ge y b with hyb | hyb
            · exact hsort k y hak (by omega) hyb
            · exact hR4 k y hkb hyb (by rw [hn4]; exact hyn)
        · intro s2 a2 b2 l2 wb2 wp2 heq
          exact StepRes.noConfusion heq
      | false =>
        have hwbF4 : wb = false → strictLeft s4 a b ∨ 2 * mu8 (b - a) ≤ limit2 := by
          intro hw
          rcases hBI with ⟨hw2, hB⟩ | ⟨hw2, hst, hB⟩ | ⟨hw2, hB⟩
          · rw [hw] at hw2
            exact absurd hw2 (by simp)
          · left
            exact strictLeft_transfer s4 s a b h4perm (fun m hm => h4fr m (Or.inl hm))
              (fun m h1 h2 => h4fr m (Or.inr h1)) (by omega) hb hst
          · right
            rw [hw] at hlim2v
            simp at hlim2v
            omega
        obtain ⟨htd, htc⟩ := pdqStepTail_rank s4 a b k limit2
          (pivotPrep ltInt s1v a b).2.1 wb wp (by omega) hak hkb hb4 hpppos.1 hpppos.2
          hL4 hR4 hlim1 hwbF4
        constructor
        · intro s2 heq
          obtain ⟨hp, hlo, hhi⟩ := htd s2 heq
          refine ⟨hp.trans h4perm, hlo, ?_⟩
          intro y hy hyn
          exact hhi y hy (by rw [hn4]; exact hyn)
        · intro s2 a2 b2 l2 wb2 wp2 heq
          obtain ⟨hp, h1, h2, h3, h4, h5, h6, h7⟩ := htc s2 a2 b2 l2 wb2 wp2 heq
          exact ⟨hp.trans h4perm, h1, h2, h3, h4, h5, h6, h7⟩


theorem pdqLoop_rank (fuel : Nat) :
    ∀ (s : SSt) (a b k limit : Nat) (wb wp : Bool),
      b - a < fuel → a ≤ k → k < b → b ≤ s.n →
      leftBound s a → rightBound s b → budgetInv s a b limit wb →
      (pdqLoop ltInt fuel s a b k limit wb wp).data.Perm s.data ∧
      (∀ x, x < k → (pdqLoop ltInt fuel s a b k limit wb wp).get x ≤
        (pdqLoop ltInt fuel s a b k limit wb wp).get k) ∧
      (∀ y, k < y → y < s.n → (pdqLoop ltInt fuel s a b k limit wb wp).get k ≤
        (pdqLoop ltInt fuel s a b k limit wb wp).get y) := by
  induction fuel with
  | zero =>
    intro s a b k limit wb wp hf hak hkb hb hL hR hBI
    omega
  | succ fuel ih =>
    intro s a b k limit wb wp hf hak hkb hb hL hR hBI
    simp only [pdqLoop]
    obtain ⟨hd, hc⟩ := pdqStep_rank s a b k limit wb wp hak hkb hb hL hR hBI
    rcases hstep : pdqStep ltInt s a b k limit wb wp with s2 | ⟨s2, a2, b2, l2, wb2, wp2⟩
    · obtain ⟨hp, hlo, hhi⟩ := hd s2 hstep
      exact ⟨hp, hlo, hhi⟩
    · obtain ⟨hp, h1, h2, h3, h4, h5, h6, h7⟩ := hc s2 a2 b2 l2 wb2 wp2 hstep
      obtain ⟨rp, rlo, rhi⟩ := ih s2 a2 b2 k l2 wb2 wp2 (by omega) h1 h2 h3 h5 h6 h7
      refine ⟨rp.trans hp, rlo, ?_⟩
      intro y hy hyn
      refine rhi y hy ?_
      show y < s2.data.length
      rw [hp.length_eq]
      exact hyn


theorem countP_ge_head (p : Int → Bool) :
    ∀ (l : List Int) (t : Nat), t ≤ l.length →
      (∀ i, i < t → p (l.getD i 0) = true) → t ≤ l.countP p := by
  intro l
  induction l with
  | nil =>
    intro t h1 h2
    simp only [List.countP_nil]
    simpa using h1
  | cons x xs ih =>
    intro t h1 h2
    cases t with
    | zero => exact Nat.zero_le _
    | succ t0 =>
      rw [List.countP_cons]
      have hx : p x = true := by
        have h := h2 0 (by omega)
        simpa using h
      have hr := ih t0 (by simpa using h1) (fun i hi => by
        have h := h2 (i + 1) (by omega)
        simpa using h)
      rw [hx, if_pos rfl]
      omega

theorem countP_le_of_suffix (p : Int → Bool) :
    ∀ (l : List Int) (t : Nat),
      (∀ i, t ≤ i → i < l.length → p (l.getD i 0) = false) → l.countP p ≤ t := by
  intro l
  induction l with
  | nil =>
    intro t h
    simp
  | cons x xs ih =>
    intro t h
    rw [List.countP_cons]
    cases t with
    | zero =>
      have hx : p x = false := by
        have h0 := h 0 (by omega) (by simp)
        simpa using h0
      have hr := ih 0 (fun i hi h2 => by
        have h3 := h (i + 1) (by omega) (by simp only [List.length_cons]; omega)
        simpa using h3)
      rw [hx, if_neg (by simp)]
      omega
    | succ t0 =>
      have hr := ih t0 (fun i hi h2 => by
        have h3 := h (i + 1) (by omega) (by simp only [List.length_cons]; omega)
        simpa using h3)
      split <;> omega

theorem sorted_getD_mono (m : List Int)
    (hs : List.Pairwise (fun x y : Int => x ≤ y) m)
    (i j : Nat) (hij : i ≤ j) (hj : j < m.length) :
    m.getD i 0 ≤ m.getD j 0 := by
  rcases Nat.eq_or_lt_of_le hij with he | hlt
  · rw [he]
  · have hi : i < m.length := by omega
    rw [List.getD_eq_getElem m 0 hi, List.getD_eq_getElem m 0 hj]
    exact (List.pairwise_iff_getElem.mp hs) i j hi hj hlt

theorem rank_char (l l2 : List Int) (j : Nat) (hperm : l2.Perm l)
    (hj : j < l2.length)
    (hlo : ∀ x, x < j → l2.getD x 0 ≤ l2.getD j 0)
    (hhi : ∀ y, j < y → y < l2.length → l2.getD j 0 ≤ l2.getD y 0) :
    (sortL l).getD j 0 = l2.getD j 0 := by
  have htp : (sortL l).Perm l2 := (sortL_perm l).trans hperm.symm
  have hlen : (sortL l).length = l2.length := htp.length_eq
  have hts := sortL_sorted l
  have hjt : j < (sortL l).length := by omega
  have h1 : (sortL l).getD j 0 ≤ l2.getD j 0 := by
    by_contra hgt
    push_neg at hgt
    have hup : ∀ i, j ≤ i → i < (sortL l).length →
        (fun x : Int => decide (x ≤ l2.getD j 0)) ((sortL l).getD i 0) = false := by
      intro i hi1 hi2
      have hm := sorted_getD_mono (sortL l) hts j i hi1 hi2
      simp only [decide_eq_false_iff_not]
      omega
    have hA : (sortL l).countP (fun x : Int => decide (x ≤ l2.getD j 0)) ≤ j :=
      countP_le_of_suffix _ (sortL l) j hup
    have hdn : ∀ i, i < j + 1 →
        (fun x : Int => decide (x ≤ l2.getD j 0)) (l2.getD i 0) = true := by
      intro i hi
      rcases Nat.lt_or_ge i j with hlt2 | hge
      · simpa using hlo i hlt2
      · have he : i = j := by omega
        rw [he]
        simp
    have hB : j + 1 ≤ l2.countP (fun x : Int => decide (x ≤ l2.getD j 0)) :=
      countP_ge_head _ l2 (j + 1) (by omega) hdn
    have hC := htp.countP_eq (fun x : Int => decide (x ≤ l2.getD j 0))
    omega
  have h2 : l2.getD j 0 ≤ (sortL l).getD j 0 := by
    by_contra hlt2
    push_neg at hlt2
    have hdn : ∀ i, i < j + 1 →
        (fun x : Int => decide (x < l2.getD j 0)) ((sortL l).getD i 0) = true := by
      intro i hi
      have hm := sorted_getD_mono (sortL l) hts i j (by omega) hjt
      simp only [decide_eq_true_eq]
      omega
    have hA : j + 1 ≤ (sortL l).countP (fun x : Int => decide (x < l2.getD j 0)) :=
      countP_ge_head _ (sortL l) (j + 1) (by omega) hdn
    have hup : ∀ i, j ≤ i → i < l2.length →
        (fun x : Int => decide (x < l2.getD j 0)) (l2.getD i 0) = false := by
      intro i h1i h2i
      simp only [decide_eq_false_iff_not]
      rcases Nat.eq_or_lt_of_le h1i with he | hgt2
      · rw [← he]
        omega
      · have hy := hhi i hgt2 h2i
        omega
    have hB : l2.countP (fun x : Int => decide (x < l2.getD j 0)) ≤ j :=
      countP_le_of_suffix _ l2 j hup
    have hC := htp.countP_eq (fun x : Int => decide (x < l2.getD j 0))
    omega
  omega


theorem goSelectGo_rank (l : List Int) (j : Nat) (hj : j < l.length) :
    (pdqselectGo ltInt (mkS l) 0 l.length j (bitsLen l.length)).data.Perm l ∧
    (∀ x, x < j →
      (pdqselectGo ltInt (mkS l) 0 l.length j (bitsLen l.length)).get x ≤
      (pdqselectGo ltInt (mkS l) 0 l.length j (bitsLen l.length)).get j) ∧
    (∀ y, j < y → y < l.length →
      (pdqselectGo ltInt (mkS l) 0 l.length j (bitsLen l.length)).get j ≤
      (pdqselectGo ltInt (mkS l) 0 l.length j (bitsLen l.length)).get y) := by
  by_cases hj0 : j = 0
  · subst hj0
    obtain ⟨m, hm, hmle, hdata, _⟩ := pdqMin_interface l (by omega) (bitsLen l.length)
    refine ⟨?_, ?_, ?_⟩
    · rw [hdata]
      exact swapL_perm l 0 m (by omega) hm
    · intro x hx
      exact absurd hx (Nat.not_lt_zero x)
    · intro y hy hyn
      show (pdqselectGo ltInt (mkS l) 0 l.length 0 (bitsLen l.length)).data.getD 0 0 ≤
        (pdqselectGo ltInt (mkS l) 0 l.length 0 (bitsLen l.length)).data.getD y 0
      rw [hdata, swapL_getD_fst l 0 m (by omega)]
      by_cases hym : y = m
      · rw [hym, swapL_getD_snd l 0 m hm]
        exact hmle 0 (by omega)
      · rw [swapL_getD_other l 0 m y (by omega) hym]
        exact hmle y hyn
  · by_cases hjN : j = l.length - 1
    · subst hjN
      obtain ⟨m, hm, hmge, hdata, _⟩ := pdqMax_interface l (by omega) (bitsLen l.length)
      refine ⟨?_, ?_, ?_⟩
      · rw [hdata]
        exact swapL_perm l (l.length - 1) m (by omega) hm
      · intro x hx
        show (pdqselectGo ltInt (mkS l) 0 l.length (l.length - 1) (bitsLen l.length)).data.getD x 0 ≤
          (pdqselectGo ltInt (mkS l) 0 l.length (l.length - 1) (bitsLen l.length)).data.getD
            (l.length - 1) 0
        rw [hdata, swapL_getD_fst l (l.length - 1) m (by omega)]
        by_cases hxm : x = m
        · rw [hxm, swapL_getD_snd l (l.length - 1) m hm]
          exact hmge (l.length - 1) (by omega)
        · rw [swapL_getD_other l (l.length - 1) m x (by omega) hxm]
          exact hmge x (by omega)
      · intro y hy hyn
        exact absurd hyn (by omega)
    · have hred : pdqselectGo ltInt (mkS l) 0 l.length j (bitsLen l.length) =
          pdqLoop ltInt (l.length - 0 + 1) (mkS l) 0 l.length j (bitsLen l.length) true true := by
        unfold pdqselectGo
        rw [if_neg hj0, if_neg (by omega)]
      rw [hred]
      obtain ⟨rp, rlo, rhi⟩ := pdqLoop_rank (l.length - 0 + 1) (mkS l) 0 l.length j
        (bitsLen l.length) true true (by omega) (Nat.zero_le j) hj (le_refl _)
        (fun x y hx _ _ => absurd hx (Nat.not_lt_zero x))
        (fun x y _ hy hyn => absurd (lt_of_le_of_lt hy hyn) (lt_irrefl _))
        (Or.inl ⟨rfl, by
          have h1 := mu8_bits l.length
          simp only [Nat.sub_zero]
          omega⟩)
      exact ⟨rp, rlo, fun y hy hyn => rhi y hy hyn⟩

/-- C1: for every integer sequence and every in-range rank `k` (`1 ≤ k ≤ N`),
after `Select` the element at position `k-1` equals position `k-1` of the
fully sorted sequence, every element at positions `0..k-2` is at most that
element, and every element at positions `k..N-1` is at least that element. -/
theorem c1_rank (l : List Int) (k : Int) (h1 : 1 ≤ k) (h2 : k ≤ (l.length : Int)) :
    (goSelect l k).get ((k - 1).toNat) = (sortL l).getD ((k - 1).toNat) 0 ∧
    (∀ x, x < (k - 1).toNat →
      (goSelect l k).get x ≤ (goSelect l k).get ((k - 1).toNat)) ∧
    (∀ y, (k - 1).toNat < y → y < l.length →
      (goSelect l k).get ((k - 1).toNat) ≤ (goSelect l k).get y) := by
  have hjl : (k - 1).toNat < l.length := by omega
  rw [goSelect_in_range l k h1 h2]
  obtain ⟨hp, hlo, hhi⟩ := goSelectGo_rank l ((k - 1).toNat) hjl
  refine ⟨?_, hlo, hhi⟩
  have hlen : (pdqselectGo ltInt (mkS l) 0 l.length ((k - 1).toNat)
      (bitsLen l.length)).data.length = l.length := hp.length_eq
  have hchar := rank_char l
    (pdqselectGo ltInt (mkS l) 0 l.length ((k - 1).toNat) (bitsLen l.length)).data
    ((k - 1).toNat) hp (by omega) hlo (fun y hy hyn => hhi y hy (by omega))
  exact hchar.symm

theorem c1_rank_witness :
    ((1 : Int) ≤ 2 ∧ (2 : Int) ≤ (([3, 1, 2] : List Int).length : Int)) ∧
    (goSelect [3, 1, 2] 2).get (((2 : Int) - 1).toNat) =
      (sortL [3, 1, 2]).getD (((2 : Int) - 1).toNat) 0 :=
  ⟨⟨by decide, by decide⟩, (c1_rank [3, 1, 2] 2 (by decide) (by decide)).1⟩

theorem pdqLoopFunc_done (c : Int → Int → Int) (fuel : Nat) (s s2 : SSt)
    (a b k limit : Nat) (wb wp : Bool)
    (h : pdqStepFunc c s a b k limit wb wp = StepRes.done s2) :
    pdqLoopFunc c (fuel + 1) s a b k limit wb wp = s2 := by
  simp only [pdqLoopFunc, h]

theorem pdqLoopFunc_cons (c : Int → Int → Int) (fuel : Nat) (s s2 : SSt)
    (a b k limit a2 b2 limit2 : Nat) (wb wp wb2 wp2 : Bool)
    (h : pdqStepFunc c s a b k limit wb wp = StepRes.cont s2 a2 b2 limit2 wb2 wp2) :
    pdqLoopFunc c (fuel + 1) s a b k limit wb wp =
      pdqLoopFunc c fuel s2 a2 b2 k limit2 wb2 wp2 := by
  simp only [pdqLoopFunc, h]

set_option maxRecDepth 4000 in
set_option maxHeartbeats 4000000 in
theorem advStep1 :
    pdqStepFunc cAdv (mkS advList)
      0 248 240 8 true true =
    StepRes.cont (⟨[
    -214, -6, -7, -8, -9, -10, -11, -12, -13, -14, -15, -16, -17, -18, -19, -20,
    -21, -22, -23, -24, -25, -26, -27, -28, -29, -30, -31, -32, -33, -34, -35, -36,
    -37, -38, -39, -40, -41, -42, -43, -44, -45, -46, -47, -48, -49, -50, -51, -52,
    -53, -54, -55, -56, -57, -58, -59, -60, -61, -62, -63, -64, -65, -3, -2, -218,
    -66, -67, -68, -69, -70, -71, -72, -73, -74, -75, -76, -77, -78, -79, -80, -81,
    -82, -83, -84, -85, -86, -87, -88, -89, -90, -91, -92, -93, -94, -95, -96, -97,
    -98, -99, -100, -101, -102, -103, -104, -105, -106, -107, -108, -109, -110, -111, -112, -113,
    -114, -115, -116, -117, -118, -119, -120, -121, -122, -123, -124, -1, -5, -217, -125, -126,
    -127, -128, -129, -130, -131, -132, -133, -134, -135, -136, -137, -138, -139, -140, -141, -142,
    -143, -144, -145, -146, -147, -148, -149, -150, -151, -152, -153, -154, -155, -156, -157, -158,
    -159, -160, -161, -162, -163, -164, -165, -166, -167, -168, -169, -170, -171, -172, -173, -174,
    -175, -176, -177, -178, -179, -180, -181, -182, -183, -4, -216, -215, -184, -185, -186, -187,
    -188, -189, -190, -191, -192, -193, -194, -195, -196, -197, -198, -199, -200, -201, -202, -203,
    -204, -205, -206, -207, -208, -209, -210, -211, -212, -213, 0, 1003, 200, 1001, 900, 1004,
    400, 700, 1007, 1008, 600, 1010, 1011, 1012, 1013, 1014, 500, 1016, 1017, 1018, 1019, 1020,
    1021, 1022, 1023, 1024, 1025, 300, 1027, 800],
    false, 7, 0⟩ : SSt)
      219 248 8 false false := by decide

set_option maxRecDepth 4000 in
set_option maxHeartbeats 4000000 in
theorem advStep2 :
    pdqStepFunc cAdv (⟨[
    -214, -6, -7, -8, -9, -10, -11, -12, -13, -14, -15, -16, -17, -18, -19, -20,
    -21, -22, -23, -24, -25, -26, -27, -28, -29, -30, -31, -32, -33, -34, -35, -36,
    -37, -38, -39, -40, -41, -42, -43, -44, -45, -46, -47, -48, -49, -50, -51, -52,
    -53, -54, -55, -56, -57, -58, -59, -60, -61, -62, -63, -64, -65, -3, -2, -218,
    -66, -67, -68, -69, -70, -71, -72, -73, -74, -75, -76, -77, -78, -79, -80, -81,
    -82, -83, -84, -85, -86, -87, -88, -89, -90, -91, -92, -93, -94, -95, -96, -97,
    -98, -99, -100, -101, -102, -103, -104, -105, -106, -107, -108, -109, -110, -111, -112, -113,
    -114, -115, -116, -117, -118, -119, -120, -121, -122, -123, -124, -1, -5, -217, -125, -126,
    -127, -128, -129, -130, -131, -132, -133, -134, -135, -136, -137, -138, -139, -140, -141, -142,
    -143, -144, -145, -146, -147, -148, -149, -150, -151, -152, -153, -154, -155, -156, -157, -158,
    -159, -160, -161, -162, -163, -164, -165, -166, -167, -168, -169, -170, -171, -172, -173, -174,
    -175, -176, -177, -178, -179, -180, -181, -182, -183, -4, -216, -215, -184, -185, -186, -187,
    -188, -189, -190, -191, -192, -193, -194, -195, -196, -197, -198, -199, -200, -201, -202, -203,
    -204, -205, -206, -207, -208, -209, -210, -211, -212, -213, 0, 1003, 200, 1001, 900, 1004,
    400, 700, 1007, 1008, 600, 1010, 1011, 1012, 1013, 1014, 500, 1016, 1017, 1018, 1019, 1020,
    1021, 1022, 1023, 1024, 1025, 300, 1027, 800],
    false, 7, 0⟩ : SSt)
      219 248 240 8 false false =
    StepRes.cont (⟨[
    -214, -6, -7, -8, -9, -10, -11, -12, -13, -14, -15, -16, -17, -18, -19, -20,
    -21, -22, -23, -24, -25, -26, -27, -28, -29, -30, -31, -32, -33, -34, -35, -36,
    -37, -38, -39, -40, -41, -42, -43, -44, -45, -46, -47, -48, -49, -50, -51, -52,
    -53, -54, -55, -56, -57, -58, -59, -60, -61, -62, -63, -64, -65, -3, -2, -218,
    -66, -67, -68, -69, -70, -71, -72, -73, -74, -75, -76, -77, -78, -79, -80, -81,
    -82, -83, -84, -85, -86, -87, -88, -89, -90, -91, -92, -93, -94, -95, -96, -97,
    -98, -99, -100, -101, -102, -103, -104, -105, -106, -107, -108, -109, -110, -111, -112, -113,
    -114, -115, -116, -117, -118, -119, -120, -121, -122, -123, -124, -1, -5, -217, -125, -126,
    -127, -128, -129, -130, -131, -132, -133, -134, -135, -136, -137, -138, -139, -140, -141, -142,
    -143, -144, -145, -146, -147, -148, -149, -150, -151, -152, -153, -154, -155, -156, -157, -158,
    -159, -160, -161, -162, -163, -164, -165, -166, -167, -168, -169, -170, -171, -172, -173, -174,
    -175, -176, -177, -178, -179, -180, -181, -182, -183, -4, -216, -215, -184, -185, -186, -187,
    -188, -189, -190, -191, -192, -193, -194, -195, -196, -197, -198, -199, -200, -201, -202, -203,
    -204, -205, -206, -207, -208, -209, -210, -211, -212, -213, 0, 200, 1003, 1001, 900, 1004,
    400, 700, 1007, 1008, 600, 1010, 1011, 1012, 800, 1014, 500, 1016, 1017, 1018, 1019, 1020,
    1021, 1022, 1023, 1024, 1025, 300, 1027, 1013],
    false, 12, 1⟩ : SSt)
      221 248 7 false false := by decide

set_option maxRecDepth 4000 in
set_option maxHeartbeats 4000000 in
theorem advStep3 :
    pdqStepFunc cAdv (⟨[
    -214, -6, -7, -8, -9, -10, -11, -12, -13, -14, -15, -16, -17, -18, -19, -20,
    -21, -22, -23, -24, -25, -26, -27, -28, -29, -30, -31, -32, -33, -34, -35, -36,
    -37, -38, -39, -40, -41, -42, -43, -44, -45, -46, -47, -48, -49, -50, -51, -52,
    -53, -54, -55, -56, -57, -58, -59, -60, -61, -62, -63, -64, -65, -3, -2, -218,
    -66, -67, -68, -69, -70, -71, -72, -73, -74, -75, -76, -77, -78, -79, -80, -81,
    -82, -83, -84, -85, -86, -87, -88, -89, -90, -91, -92, -93, -94, -95, -96, -97,
    -98, -99, -100, -101, -102, -103, -104, -105, -106, -107, -108, -109, -110, -111, -112, -113,
    -114, -115, -116, -117, -118, -119, -120, -121, -122, -123, -124, -1, -5, -217, -125, -126,
    -127, -128, -129, -130, -131, -132, -133, -134, -135, -136, -137, -138, -139, -140, -141, -142,
    -143, -144, -145, -146, -147, -148, -149, -150, -151, -152, -153, -154, -155, -156, -157, -158,
    -159, -160, -161, -162, -163, -164, -165, -166, -167, -168, -169, -170, -171, -172, -173, -174,
    -175, -176, -177, -178, -179, -180, -181, -182, -183, -4, -216, -215, -184, -185, -186, -187,
    -188, -189, -190, -191, -192, -193, -194, -195, -196, -197, -198, -199, -200, -201, -202, -203,
    -204, -205, -206, -207, -208, -209, -210, -211, -212, -213, 0, 200, 1003, 1001, 900, 1004,
    400, 700, 1007, 1008, 600, 1010, 1011, 1012, 800, 1014, 500, 1016, 1017, 1018, 1019, 1020,
    1021, 1022, 1023, 1024, 1025, 300, 1027, 1013],
    false, 12, 1⟩ : SSt)
      221 248 240 7 false false =
    StepRes.cont (⟨[
    -214, -6, -7, -8, -9, -10, -11, -12, -13, -14, -15, -16, -17, -18, -19, -20,
    -21, -22, -23, -24, -25, -26, -27, -28, -29, -30, -31, -32, -33, -34, -35, -36,
    -37, -38, -39, -40, -41, -42, -43, -44, -45, -46, -47, -48, -49, -50, -51, -52,
    -53, -54, -55, -56, -57, -58, -59, -60, -61, -62, -63, -64, -65, -3, -2, -218,
    -66, -67, -68, -69, -70, -71, -72, -73, -74, -75, -76, -77, -78, -79, -80, -81,
    -82, -83, -84, -85, -86, -87, -88, -89, -90, -91, -92, -93, -94, -95, -96, -97,
    -98, -99, -100, -101, -102, -103, -104, -105, -106, -107, -108, -109, -110, -111, -112, -113,
    -114, -115, -116, -117, -118, -119, -120, -121, -122, -123, -124, -1, -5, -217, -125, -126,
    -127, -128, -129, -130, -131, -132, -133, -134, -135, -136, -137, -138, -139, -140, -141, -142,
    -143, -144, -145, -146, -147, -148, -149, -150, -151, -152, -153, -154, -155, -156, -157, -158,
    -159, -160, -161, -162, -163, -164, -165, -166, -167, -168, -169, -170, -171, -172, -173, -174,
    -175, -176, -177, -178, -179, -180, -181, -182, -183, -4, -216, -215, -184, -185, -186, -187,
    -188, -189, -190, -191, -192, -193, -194, -195, -196, -197, -198, -199, -200, -201, -202, -203,
    -204, -205, -206, -207, -208, -209, -210, -211, -212, -213, 0, 200, 1003, 300, 1001, 1004,
    400, 700, 1007, 1008, 600, 1010, 1011, 1012, 800, 1013, 900, 1019, 1017, 1018, 1016, 1020,
    1021, 1022, 1023, 1024, 1025, 500, 1027, 1014],
    false, 17, 2⟩ : SSt)
      223 248 6 false false := by decide

set_option maxRecDepth 4000 in
set_option maxHeartbeats 4000000 in
theorem advStep4 :
    pdqStepFunc cAdv (⟨[
    -214, -6, -7, -8, -9, -10, -11, -12, -13, -14, -15, -16, -17, -18, -19, -20,
    -21, -22, -23, -24, -25, -26, -27, -28, -29, -30, -31, -32, -33, -34, -35, -36,
    -37, -38, -39, -40, -41, -42, -43, -44, -45, -46, -47, -48, -49, -50, -51, -52,
    -53, -54, -55, -56, -57, -58, -59, -60, -61, -62, -63, -64, -65, -3, -2, -218,
    -66, -67, -68, -69, -70, -71, -72, -73, -74, -75, -76, -77, -78, -79, -80, -81,
    -82, -83, -84, -85, -86, -87, -88, -89, -90, -91, -92, -93, -94, -95, -96, -97,
    -98, -99, -100, -101, -102, -103, -104, -105, -106, -107, -108, -109, -110, -111, -112, -113,
    -114, -115, -116, -117, -118, -119, -120, -121, -122, -123, -124, -1, -5, -217, -125, -126,
    -127, -128, -129, -130, -131, -132, -133, -134, -135, -136, -137, -138, -139, -140, -141, -142,
    -143, -144, -145, -146, -147, -148, -149, -150, -151, -152, -153, -154, -155, -156, -157, -158,
    -159, -160, -161, -162, -163, -164, -165, -166, -167, -168, -169, -170, -171, -172, -173, -174,
    -175, -176, -177, -178, -179, -180, -181, -182, -183, -4, -216, -215, -184, -185, -186, -187,
    -188, -189, -190, -191, -192, -193, -194, -195, -196, -197, -198, -199, -200, -201, -202, -203,
    -204, -205, -206, -207, -208, -209, -210, -211, -212, -213, 0, 200, 1003, 300, 1001, 1004,
    400, 700, 1007, 1008, 600, 1010, 1011, 1012, 800, 1013, 900, 1019, 1017, 1018, 1016, 1020,
    1021, 1022, 1023, 1024, 1025, 500, 1027, 1014],
    false, 17, 2⟩ : SSt)
      223 248 240 6 false false =
    StepRes.cont (⟨[
    -214, -6, -7, -8, -9, -10, -11, -12, -13, -14, -15, -16, -17, -18, -19, -20,
    -21, -22, -23, -24, -25, -26, -27, -28, -29, -30, -31, -32, -33, -34, -35, -36,
    -37, -38, -39, -40, -41, -42, -43, -44, -45, -46, -47, -48, -49, -50, -51, -52,
    -53, -54, -55, -56, -57, -58, -59, -60, -61, -62, -63, -64, -65, -3, -2, -218,
    -66, -67, -68, -69, -70, -71, -72, -73, -74, -75, -76, -77, -78, -79, -80, -81,
    -82, -83, -84, -85, -86, -87, -88, -89, -90, -91, -92, -93, -94, -95, -96, -97,
    -98, -99, -100, -101, -102, -103, -104, -105, -106, -107, -108, -109, -110, -111, -112, -113,
    -114, -115, -116, -117, -118, -119, -120, -121, -122, -123, -124, -1, -5, -217, -125, -126,
    -127, -128, -129, -130, -131, -132, -133, -134, -135, -136, -137, -138, -139, -140, -141, -142,
    -143, -144, -145, -146, -147, -148, -149, -150, -151, -152, -153, -154, -155, -156, -157, -158,
    -159, -160, -161, -162, -163, -164, -165, -166, -167, -168, -169, -170, -171, -172, -173, -174,
    -175, -176, -177, -178, -179, -180, -181, -182, -183, -4, -216, -215, -184, -185, -186, -187,
    -188, -189, -190, -191, -192, -193, -194, -195, -196, -197, -198, -199, -200, -201, -202, -203,
    -204, -205, -206, -207, -208, -209, -210, -211, -212, -213, 0, 200, 1003, 300, 1001, 400,
    1004, 1017, 1007, 1008, 600, 1010, 1011, 1012, 800, 1013, 1014, 1019, 700, 1018, 1016, 1020,
    1021, 1022, 1023, 1024, 1025, 500, 1027, 900],
    false, 22, 3⟩ : SSt)
      225 248 5 false false := by decide

set_option maxRecDepth 4000 in
set_option maxHeartbeats 4000000 in
theorem advStep5 :
    pdqStepFunc cAdv (⟨[
    -214, -6, -7, -8, -9, -10, -11, -12, -13, -14, -15, -16, -17, -18, -19, -20,
    -21, -22, -23, -24, -25, -26, -27, -28, -29, -30, -31, -32, -33, -34, -35, -36,
    -37, -38, -39, -40, -41, -42, -43, -44, -45, -46, -47, -48, -49, -50, -51, -52,
    -53, -54, -55, -56, -57, -58, -59, -60, -61, -62, -63, -64, -65, -3, -2, -218,
    -66, -67, -68, -69, -70, -71, -72, -73, -74, -75, -76, -77, -78, -79, -80, -81,
    -82, -83, -84, -85, -86, -87, -88, -89, -90, -91, -92, -93, -94, -95, -96, -97,
    -98, -99, -100, -101, -102, -103, -104, -105, -106, -107, -108, -109, -110, -111, -112, -113,
    -114, -115, -116, -117, -118, -119, -120, -121, -122, -123, -124, -1, -5, -217, -125, -126,
    -127, -128, -129, -130, -131, -132, -133, -134, -135, -136, -137, -138, -139, -140, -141, -142,
    -143, -144, -145, -146, -147, -148, -149, -150, -151, -152, -153, -154, -155, -156, -157, -158,
    -159, -160, -161, -162, -163, -164, -165, -166, -167, -168, -169, -170, -171, -172, -173, -174,
    -175, -176, -177, -178, -179, -180, -181, -182, -183, -4, -216, -215, -184, -185, -186, -187,
    -188, -189, -190, -191, -192, -193, -194, -195, -196, -197, -198, -199, -200, -201, -202, -203,
    -204, -205, -206, -207, -208, -209, -210, -211, -212, -213, 0, 200, 1003, 300, 1001, 400,
    1004, 1017, 1007, 1008, 600, 1010, 1011, 1012, 800, 1013, 1014, 1019, 700, 1018, 1016, 1020,
    1021, 1022, 1023, 1024, 1025, 500, 1027, 900],
    false, 22, 3⟩ : SSt)
      225 248 240 5 false false =
    StepRes.cont (⟨[
    -214, -6, -7, -8, -9, -10, -11, -12, -13, -14, -15, -16, -17, -18, -19, -20,
    -21, -22, -23, -24, -25, -26, -27, -28, -29, -30, -31, -32, -33, -34, -35, -36,
    -37, -38, -39, -40, -41, -42, -43, -44, -45, -46, -47, -48, -49, -50, -51, -52,
    -53, -54, -55, -56, -57, -58, -59, -60, -61, -62, -63, -64, -65, -3, -2, -218,
    -66, -67, -68, -69, -70, -71, -72, -73, -74, -75, -76, -77, -78, -79, -80, -81,
    -82, -83, -84, -85, -86, -87, -88, -89, -90, -91, -92, -93, -94, -95, -96, -97,
    -98, -99, -100, -101, -102, -103, -104, -105, -106, -107, -108, -109, -110, -111, -112, -113,
    -114, -115, -116, -117, -118, -119, -120, -121, -122, -123, -124, -1, -5, -217, -125, -126,
    -127, -128, -129, -130, -131, -132, -133, -134, -135, -136, -137, -138, -139, -140, -141, -142,
    -143, -144, -145, -146, -147, -148, -149, -150, -151, -152, -153, -154, -155, -156, -157, -158,
    -159, -160, -161, -162, -163, -164, -165, -166, -167, -168, -169, -170, -171, -172, -173, -174,
    -175, -176, -177, -178, -179, -180, -181, -182, -183, -4, -216, -215, -184, -185, -186, -187,
    -188, -189, -190, -191, -192, -193, -194, -195, -196, -197, -198, -199, -200, -201, -202, -203,
    -204, -205, -206, -207, -208, -209, -210, -211, -212, -213, 0, 200, 1003, 300, 1001, 400,
    1004, 500, 1017, 1008, 600, 1010, 1011, 1012, 800, 1013, 1014, 900, 1007, 1016, 1018, 1020,
    1021, 1022, 1023, 1024, 1025, 700, 1027, 1019],
    false, 27, 4⟩ : SSt)
      227 248 4 false false := by decide

set_option maxRecDepth 4000 in
set_option maxHeartbeats 4000000 in
theorem advStep6 :
    pdqStepFunc cAdv (⟨[
    -214, -6, -7, -8, -9, -10, -11, -12, -13, -14, -15, -16, -17, -18, -19, -20,
    -21, -22, -23, -24, -25, -26, -27, -28, -29, -30, -31, -32, -33, -34, -35, -36,
    -37, -38, -39, -40, -41, -42, -43, -44, -45, -46, -47, -48, -49, -50, -51, -52,
    -53, -54, -55, -56, -57, -58, -59, -60, -61, -62, -63, -64, -65, -3, -2, -218,
    -66, -67, -68, -69, -70, -71, -72, -73, -74, -75, -76, -77, -78, -79, -80, -81,
    -82, -83, -84, -85, -86, -87, -88, -89, -90, -91, -92, -93, -94, -95, -96, -97,
    -98, -99, -100, -101, -102, -103, -104, -105, -106, -107, -108, -109, -110, -111, -112, -113,
    -114, -115, -116, -117, -118, -119, -120, -121, -122, -123, -124, -1, -5, -217, -125, -126,
    -127, -128, -129, -130, -131, -132, -133, -134, -135, -136, -137, -138, -139, -140, -141, -142,
    -143, -144, -145, -146, -147, -148, -149, -150, -151, -152, -153, -154, -155, -156, -157, -158,
    -159, -160, -161, -162, -163, -164, -165, -166, -167, -168, -169, -170, -171, -172, -173, -174,
    -175, -176, -177, -178, -179, -180, -181, -182, -183, -4, -216, -215, -184, -185, -186, -187,
    -188, -189, -190, -191, -192, -193, -194, -195, -196, -197, -198, -199, -200, -201, -202, -203,
    -204, -205, -206, -207, -208, -209, -210, -211, -212, -213, 0, 200, 1003, 300, 1001, 400,
    1004, 500, 1017, 1008, 600, 1010, 1011, 1012, 800, 1013, 1014, 900, 1007, 1016, 1018, 1020,
    1021, 1022, 1023, 1024, 1025, 700, 1027, 1019],
    false, 27, 4⟩ : SSt)
      227 248 240 4 false false =
    StepRes.cont (⟨[
    -214, -6, -7, -8, -9, -10, -11, -12, -13, -14, -15, -16, -17, -18, -19, -20,
    -21, -22, -23, -24, -25, -26, -27, -28, -29, -30, -31, -32, -33, -34, -35, -36,
    -37, -38, -39, -40, -41, -42, -43, -44, -45, -46, -47, -48, -49, -50, -51, -52,
    -53, -54, -55, -56, -57, -58, -59, -60, -61, -62, -63, -64, -65, -3, -2, -218,
    -66, -67, -68, -69, -70, -71, -72, -73, -74, -75, -76, -77, -78, -79, -80, -81,
    -82, -83, -84, -85, -86, -87, -88, -89, -90, -91, -92, -93, -94, -95, -96, -97,
    -98, -99, -100, -101, -102, -103, -104, -105, -106, -107, -108, -109, -110, -111, -112, -113,
    -114, -115, -116, -117, -118, -119, -120, -121, -122, -123, -124, -1, -5, -217, -125, -126,
    -127, -128, -129, -130, -131, -132, -133, -134, -135, -136, -137, -138, -139, -140, -141, -142,
    -143, -144, -145, -146, -147, -148, -149, -150, -151, -152, -153, -154, -155, -156, -157, -158,
    -159, -160, -161, -162, -163, -164, -165, -166, -167, -168, -169, -170, -171, -172, -173, -174,
    -175, -176, -177, -178, -179, -180, -181, -182, -183, -4, -216, -215, -184, -185, -186, -187,
    -188, -189, -190, -191, -192, -193, -194, -195, -196, -197, -198, -199, -200, -201, -202, -203,
    -204, -205, -206, -207, -208, -209, -210, -211, -212, -213, 0, 200, 1003, 300, 1001, 400,
    1004, 500, 1017, 600, 1008, 1010, 1011, 1012, 800, 1013, 1018, 900, 1019, 1016, 1014, 1020,
    1021, 1022, 1023, 1024, 1025, 700, 1027, 1007],
    false, 32, 5⟩ : SSt)
      229 248 3 false false := by decide

set_option maxRecDepth 4000 in
set_option maxHeartbeats 4000000 in
theorem advStep7 :
    pdqStepFunc cAdv (⟨[
    -214, -6, -7, -8, -9, -10, -11, -12, -13, -14, -15, -16, -17, -18, -19, -20,
    -21, -22, -23, -24, -25, -26, -27, -28, -29, -30, -31, -32, -33, -34, -35, -36,
    -37, -38, -39, -40, -41, -42, -43, -44, -45, -46, -47, -48, -49, -50, -51, -52,
    -53, -54, -55, -56, -57, -58, -59, -60, -61, -62, -63, -64, -65, -3, -2, -218,
    -66, -67, -68, -69, -70, -71, -72, -73, -74, -75, -76, -77, -78, -79, -80, -81,
    -82, -83, -84, -85, -86, -87, -88, -89, -90, -91, -92, -93, -94, -95, -96, -97,
    -98, -99, -100, -101, -102, -103, -104, -105, -106, -107, -108, -109, -110, -111, -112, -113,
    -114, -115, -116, -117, -118, -119, -120, -121, -122, -123, -124, -1, -5, -217, -125, -126,
    -127, -128, -129, -130, -131, -132, -133, -134, -135, -136, -137, -138, -139, -140, -141, -142,
    -143, -144, -145, -146, -147, -148, -149, -150, -151, -152, -153, -154, -155, -156, -157, -158,
    -159, -160, -161, -162, -163, -164, -165, -166, -167, -168, -169, -170, -171, -172, -173, -174,
    -175, -176, -177, -178, -179, -180, -181, -182, -183, -4, -216, -215, -184, -185, -186, -187,
    -188, -189, -190, -191, -192, -193, -194, -195, -196, -197, -198, -199, -200, -201, -202, -203,
    -204, -205, -206, -207, -208, -209, -210, -211, -212, -213, 0, 200, 1003, 300, 1001, 400,
    1004, 500, 1017, 600, 1008, 1010, 1011, 1012, 800, 1013, 1018, 900, 1019, 1016, 1014, 1020,
    1021, 1022, 1023, 1024, 1025, 700, 1027, 1007],
    false, 32, 5⟩ : SSt)
      229 248 240 3 false false =
    StepRes.cont (⟨[
    -214, -6, -7, -8, -9, -10, -11, -12, -13, -14, -15, -16, -17, -18, -19, -20,
    -21, -22, -23, -24, -25, -26, -27, -28, -29, -30, -31, -32, -33, -34, -35, -36,
    -37, -38, -39, -40, -41, -42, -43, -44, -45, -46, -47, -48, -49, -50, -51, -52,
    -53, -54, -55, -56, -57, -58, -59, -60, -61, -62, -63, -64, -65, -3, -2, -218,
    -66, -67, -68, -69, -70, -71, -72, -73, -74, -75, -76, -77, -78, -79, -80, -81,
    -82, -83, -84, -85, -86, -87, -88, -89, -90, -91, -92, -93, -94, -95, -96, -97,
    -98, -99, -100, -101, -102, -103, -104, -105, -106, -107, -108, -109, -110, -111, -112, -113,
    -114, -115, -116, -117, -118, -119, -120, -121, -122, -123, -124, -1, -5, -217, -125, -126,
    -127, -128, -129, -130, -131, -132, -133, -134, -135, -136, -137, -138, -139, -140, -141, -142,
    -143, -144, -145, -146, -147, -148, -149, -150, -151, -152, -153, -154, -155, -156, -157, -158,
    -159, -160, -161, -162, -163, -164, -165, -166, -167, -168, -169, -170, -171, -172, -173, -174,
    -175, -176, -177, -178, -179, -180, -181, -182, -183, -4, -216, -215, -184, -185, -186, -187,
    -188, -189, -190, -191, -192, -193, -194, -195, -196, -197, -198, -199, -200, -201, -202, -203,
    -204, -205, -206, -207, -208, -209, -210, -211, -212, -213, 0, 200, 1003, 300, 1001, 400,
    1004, 500, 1017, 600, 1008, 700, 1010, 1012, 800, 1013, 1018, 1020, 1019, 1007, 1011, 900,
    1021, 1022, 1023, 1024, 1025, 1014, 1027, 1016],
    false, 37, 6⟩ : SSt)
      231 248 2 false false := by decide

set_option maxRecDepth 4000 in
set_option maxHeartbeats 4000000 in
theorem advStep8 :
    pdqStepFunc cAdv (⟨[
    -214, -6, -7, -8, -9, -10, -11, -12, -13, -14, -15, -16, -17, -18, -19, -20,
    -21, -22, -23, -24, -25, -26, -27, -28, -29, -30, -31, -32, -33, -34, -35, -36,
    -37, -38, -39, -40, -41, -42, -43, -44, -45, -46, -47, -48, -49, -50, -51, -52,
    -53, -54, -55, -56, -57, -58, -59, -60, -61, -62, -63, -64, -65, -3, -2, -218,
    -66, -67, -68, -69, -70, -71, -72, -73, -74, -75, -76, -77, -78, -79, -80, -81,
    -82, -83, -84, -85, -86, -87, -88, -89, -90, -91, -92, -93, -94, -95, -96, -97,
    -98, -99, -100, -101, -102, -103, -104, -105, -106, -107, -108, -109, -110, -111, -112, -113,
    -114, -115, -116, -117, -118, -119, -120, -121, -122, -123, -124, -1, -5, -217, -125, -126,
    -127, -128, -129, -130, -131, -132, -133, -134, -135, -136, -137, -138, -139, -140, -141, -142,
    -143, -144, -145, -146, -147, -148, -149, -150, -151, -152, -153, -154, -155, -156, -157, -158,
    -159, -160, -161, -162, -163, -164, -165, -166, -167, -168, -169, -170, -171, -172, -173, -174,
    -175, -176, -177, -178, -179, -180, -181, -182, -183, -4, -216, -215, -184, -185, -186, -187,
    -188, -189, -190, -191, -192, -193, -194, -195, -196, -197, -198, -199, -200, -201, -202, -203,
    -204, -205, -206, -207, -208, -209, -210, -211, -212, -213, 0, 200, 1003, 300, 1001, 400,
    1004, 500, 1017, 600, 1008, 700, 1010, 1012, 800, 1013, 1018, 1020, 1019, 1007, 1011, 900,
    1021, 1022, 1023, 1024, 1025, 1014, 1027, 1016],
    false, 37, 6⟩ : SSt)
      231 248 240 2 false false =
    StepRes.cont (⟨[
    -214, -6, -7, -8, -9, -10, -11, -12, -13, -14, -15, -16, -17, -18, -19, -20,
    -21, -22, -23, -24, -25, -26, -27, -28, -29, -30, -31, -32, -33, -34, -35, -36,
    -37, -38, -39, -40, -41, -42, -43, -44, -45, -46, -47, -48, -49, -50, -51, -52,
    -53, -54, -55, -56, -57, -58, -59, -60, -61, -62, -63, -64, -65, -3, -2, -218,
    -66, -67, -68, -69, -70, -71, -72, -73, -74, -75, -76, -77, -78, -79, -80, -81,
    -82, -83, -84, -85, -86, -87, -88, -89, -90, -91, -92, -93, -94, -95, -96, -97,
    -98, -99, -100, -101, -102, -103, -104, -105, -106, -107, -108, -109, -110, -111, -112, -113,
    -114, -115, -116, -117, -118, -119, -120, -121, -122, -123, -124, -1, -5, -217, -125, -126,
    -127, -128, -129, -130, -131, -132, -133, -134, -135, -136, -137, -138, -139, -140, -141, -142,
    -143, -144, -145, -146, -147, -148, -149, -150, -151, -152, -153, -154, -155, -156, -157, -158,
    -159, -160, -161, -162, -163, -164, -165, -166, -167, -168, -169, -170, -171, -172, -173, -174,
    -175, -176, -177, -178, -179, -180, -181, -182, -183, -4, -216, -215, -184, -185, -186, -187,
    -188, -189, -190, -191, -192, -193, -194, -195, -196, -197, -198, -199, -200, -201, -202, -203,
    -204, -205, -206, -207, -208, -209, -210, -211, -212, -213, 0, 200, 1003, 300, 1001, 400,
    1004, 500, 1017, 600, 1008, 700, 1010, 800, 1012, 1021, 1018, 1020, 1019, 1007, 1016, 900,
    1013, 1022, 1023, 1024, 1025, 1014, 1027, 1011],
    false, 42, 7⟩ : SSt)
      233 248 1 false false := by decide

set_option maxRecDepth 4000 in
set_option maxHeartbeats 4000000 in
theorem advStep9 :
    pdqStepFunc cAdv (⟨[
    -214, -6, -7, -8, -9, -10, -11, -12, -13, -14, -15, -16, -17, -18, -19, -20,
    -21, -22, -23, -24, -25, -26, -27, -28, -29, -30, -31, -32, -33, -34, -35, -36,
    -37, -38, -39, -40, -41, -42, -43, -44, -45, -46, -47, -48, -49, -50, -51, -52,
    -53, -54, -55, -56, -57, -58, -59, -60, -61, -62, -63, -64, -65, -3, -2, -218,
    -66, -67, -68, -69, -70, -71, -72, -73, -74, -75, -76, -77, -78, -79, -80, -81,
    -82, -83, -84, -85, -86, -87, -88, -89, -90, -91, -92, -93, -94, -95, -96, -97,
    -98, -99, -100, -101, -102, -103, -104, -105, -106, -107, -108, -109, -110, -111, -112, -113,
    -114, -115, -116, -117, -118, -119, -120, -121, -122, -123, -124, -1, -5, -217, -125, -126,
    -127, -128, -129, -130, -131, -132, -133, -134, -135, -136, -137, -138, -139, -140, -141, -142,
    -143, -144, -145, -146, -147, -148, -149, -150, -151, -152, -153, -154, -155, -156, -157, -158,
    -159, -160, -161, -162, -163, -164, -165, -166, -167, -168, -169, -170, -171, -172, -173, -174,
    -175, -176, -177, -178, -179, -180, -181, -182, -183, -4, -216, -215, -184, -185, -186, -187,
    -188, -189, -190, -191, -192, -193, -194, -195, -196, -197, -198, -199, -200, -201, -202, -203,
    -204, -205, -206, -207, -208, -209, -210, -211, -212, -213, 0, 200, 1003, 300, 1001, 400,
    1004, 500, 1017, 600, 1008, 700, 1010, 800, 1012, 1021, 1018, 1020, 1019, 1007, 1016, 900,
    1013, 1022, 1023, 1024, 1025, 1014, 1027, 1011],
    false, 42, 7⟩ : SSt)
      233 248 240 1 false false =
    StepRes.cont (⟨[
    -214, -6, -7, -8, -9, -10, -11, -12, -13, -14, -15, -16, -17, -18, -19, -20,
    -21, -22, -23, -24, -25, -26, -27, -28, -29, -30, -31, -32, -33, -34, -35, -36,
    -37, -38, -39, -40, -41, -42, -43, -44, -45, -46, -47, -48, -49, -50, -51, -52,
    -53, -54, -55, -56, -57, -58, -59, -60, -61, -62, -63, -64, -65, -3, -2, -218,
    -66, -67, -68, -69, -70, -71, -72, -73, -74, -75, -76, -77, -78, -79, -80, -81,
    -82, -83, -84, -85, -86, -87, -88, -89, -90, -91, -92, -93, -94, -95, -96, -97,
    -98, -99, -100, -101, -102, -103, -104, -105, -106, -107, -108, -109, -110, -111, -112, -113,
    -114, -115, -116, -117, -118, -119, -120, -121, -122, -123, -124, -1, -5, -217, -125, -126,
    -127, -128, -129, -130, -131, -132, -133, -134, -135, -136, -137, -138, -139, -140, -141, -142,
    -143, -144, -145, -146, -147, -148, -149, -150, -151, -152, -153, -154, -155, -156, -157, -158,
    -159, -160, -161, -162, -163, -164, -165, -166, -167, -168, -169, -170, -171, -172, -173, -174,
    -175, -176, -177, -178, -179, -180, -181, -182, -183, -4, -216, -215, -184, -185, -186, -187,
    -188, -189, -190, -191, -192, -193, -194, -195, -196, -197, -198, -199, -200, -201, -202, -203,
    -204, -205, -206, -207, -208, -209, -210, -211, -212, -213, 0, 200, 1003, 300, 1001, 400,
    1004, 500, 1017, 600, 1008, 700, 1010, 800, 1012, 900, 1013, 1020, 1022, 1007, 1016, 1021,
    1018, 1019, 1023, 1024, 1025, 1014, 1027, 1011],
    false, 47, 8⟩ : SSt)
      235 248 0 false false := by decide

set_option maxRecDepth 4000 in
set_option maxHeartbeats 1000000 in
theorem advHeapVals : ∀ i, i < 13 → 5 < i →
    (ltc cAdv) (SSt.get (⟨[
    -214, -6, -7, -8, -9, -10, -11, -12, -13, -14, -15, -16, -17, -18, -19, -20,
    -21, -22, -23, -24, -25, -26, -27, -28, -29, -30, -31, -32, -33, -34, -35, -36,
    -37, -38, -39, -40, -41, -42, -43, -44, -45, -46, -47, -48, -49, -50, -51, -52,
    -53, -54, -55, -56, -57, -58, -59, -60, -61, -62, -63, -64, -65, -3, -2, -218,
    -66, -67, -68, -69, -70, -71, -72, -73, -74, -75, -76, -77, -78, -79, -80, -81,
    -82, -83, -84, -85, -86, -87, -88, -89, -90, -91, -92, -93, -94, -95, -96, -97,
    -98, -99, -100, -101, -102, -103, -104, -105, -106, -107, -108, -109, -110, -111, -112, -113,
    -114, -115, -116, -117, -118, -119, -120, -121, -122, -123, -124, -1, -5, -217, -125, -126,
    -127, -128, -129, -130, -131, -132, -133, -134, -135, -136, -137, -138, -139, -140, -141, -142,
    -143, -144, -145, -146, -147, -148, -149, -150, -151, -152, -153, -154, -155, -156, -157, -158,
    -159, -160, -161, -162, -163, -164, -165, -166, -167, -168, -169, -170, -171, -172, -173, -174,
    -175, -176, -177, -178, -179, -180, -181, -182, -183, -4, -216, -215, -184, -185, -186, -187,
    -188, -189, -190, -191, -192, -193, -194, -195, -196, -197, -198, -199, -200, -201, -202, -203,
    -204, -205, -206, -207, -208, -209, -210, -211, -212, -213, 0, 200, 1003, 300, 1001, 400,
    1004, 500, 1017, 600, 1008, 700, 1010, 800, 1012, 900, 1013, 1020, 1022, 1007, 1016, 1021,
    1018, 1019, 1023, 1024, 1025, 1014, 1027, 1011],
    false, 47, 8⟩ : SSt) (235 + i)) 0 = false := by decide

set_option maxRecDepth 4000 in
set_option maxHeartbeats 4000000 in
theorem advHeapBuildLow :
    hsBuild (ltc cAdv) (⟨[
    -214, -6, -7, -8, -9, -10, -11, -12, -13, -14, -15, -16, -17, -18, -19, -20,
    -21, -22, -23, -24, -25, -26, -27, -28, -29, -30, -31, -32, -33, -34, -35, -36,
    -37, -38, -39, -40, -41, -42, -43, -44, -45, -46, -47, -48, -49, -50, -51, -52,
    -53, -54, -55, -56, -57, -58, -59, -60, -61, -62, -63, -64, -65, -3, -2, -218,
    -66, -67, -68, -69, -70, -71, -72, -73, -74, -75, -76, -77, -78, -79, -80, -81,
    -82, -83, -84, -85, -86, -87, -88, -89, -90, -91, -92, -93, -94, -95, -96, -97,
    -98, -99, -100, -101, -102, -103, -104, -105, -106, -107, -108, -109, -110, -111, -112, -113,
    -114, -115, -116, -117, -118, -119, -120, -121, -122, -123, -124, -1, -5, -217, -125, -126,
    -127, -128, -129, -130, -131, -132, -133, -134, -135, -136, -137, -138, -139, -140, -141, -142,
    -143, -144, -145, -146, -147, -148, -149, -150, -151, -152, -153, -154, -155, -156, -157, -158,
    -159, -160, -161, -162, -163, -164, -165, -166, -167, -168, -169, -170, -171, -172, -173, -174,
    -175, -176, -177, -178, -179, -180, -181, -182, -183, -4, -216, -215, -184, -185, -186, -187,
    -188, -189, -190, -191, -192, -193, -194, -195, -196, -197, -198, -199, -200, -201, -202, -203,
    -204, -205, -206, -207, -208, -209, -210, -211, -212, -213, 0, 200, 1003, 300, 1001, 400,
    1004, 500, 1017, 600, 1008, 700, 1010, 800, 1012, 900, 1013, 1020, 1022, 1007, 1016, 1021,
    1018, 1019, 1023, 1024, 1025, 1014, 1027, 1011],
    false, 47, 8⟩ : SSt) 241 235 5 =
    (⟨[
    -214, -6, -7, -8, -9, -10, -11, -12, -13, -14, -15, -16, -17, -18, -19, -20,
    -21, -22, -23, -24, -25, -26, -27, -28, -29, -30, -31, -32, -33, -34, -35, -36,
    -37, -38, -39, -40, -41, -42, -43, -44, -45, -46, -47, -48, -49, -50, -51, -52,
    -53, -54, -55, -56, -57, -58, -59, -60, -61, -62, -63, -64, -65, -3, -2, -218,
    -66, -67, -68, -69, -70, -71, -72, -73, -74, -75, -76, -77, -78, -79, -80, -81,
    -82, -83, -84, -85, -86, -87, -88, -89, -90, -91, -92, -93, -94, -95, -96, -97,
    -98, -99, -100, -101, -102, -103, -104, -105, -106, -107, -108, -109, -110, -111, -112, -113,
    -114, -115, -116, -117, -118, -119, -120, -121, -122, -123, -124, -1, -5, -217, -125, -126,
    -127, -128, -129, -130, -131, -132, -133, -134, -135, -136, -137, -138, -139, -140, -141, -142,
    -143, -144, -145, -146, -147, -148, -149, -150, -151, -152, -153, -154, -155, -156, -157, -158,
    -159, -160, -161, -162, -163, -164, -165, -166, -167, -168, -169, -170, -171, -172, -173, -174,
    -175, -176, -177, -178, -179, -180, -181, -182, -183, -4, -216, -215, -184, -185, -186, -187,
    -188, -189, -190, -191, -192, -193, -194, -195, -196, -197, -198, -199, -200, -201, -202, -203,
    -204, -205, -206, -207, -208, -209, -210, -211, -212, -213, 0, 200, 1003, 300, 1001, 400,
    1004, 500, 1017, 600, 1008, 700, 1010, 800, 1012, 900, 1013, 1027, 1025, 1020, 1024, 1022,
    1018, 1019, 1023, 1016, 1021, 1014, 1007, 1011],
    false, 54, 8⟩ : SSt) := by decide

set_option maxRecDepth 4000 in
set_option maxHeartbeats 1000000 in
theorem advHeapBuildHigh :
    hsBuild (ltc cAdv) (⟨[
    -214, -6, -7, -8, -9, -10, -11, -12, -13, -14, -15, -16, -17, -18, -19, -20,
    -21, -22, -23, -24, -25, -26, -27, -28, -29, -30, -31, -32, -33, -34, -35, -36,
    -37, -38, -39, -40, -41, -42, -43, -44, -45, -46, -47, -48, -49, -50, -51, -52,
    -53, -54, -55, -56, -57, -58, -59, -60, -61, -62, -63, -64, -65, -3, -2, -218,
    -66, -67, -68, -69, -70, -71, -72, -73, -74, -75, -76, -77, -78, -79, -80, -81,
    -82, -83, -84, -85, -86, -87, -88, -89, -90, -91, -92, -93, -94, -95, -96, -97,
    -98, -99, -100, -101, -102, -103, -104, -105, -106, -107, -108, -109, -110, -111, -112, -113,
    -114, -115, -116, -117, -118, -119, -120, -121, -122, -123, -124, -1, -5, -217, -125, -126,
    -127, -128, -129, -130, -131, -132, -133, -134, -135, -136, -137, -138, -139, -140, -141, -142,
    -143, -144, -145, -146, -147, -148, -149, -150, -151, -152, -153, -154, -155, -156, -157, -158,
    -159, -160, -161, -162, -163, -164, -165, -166, -167, -168, -169, -170, -171, -172, -173, -174,
    -175, -176, -177, -178, -179, -180, -181, -182, -183, -4, -216, -215, -184, -185, -186, -187,
    -188, -189, -190, -191, -192, -193, -194, -195, -196, -197, -198, -199, -200, -201, -202, -203,
    -204, -205, -206, -207, -208, -209, -210, -211, -212, -213, 0, 200, 1003, 300, 1001, 400,
    1004, 500, 1017, 600, 1008, 700, 1010, 800, 1012, 900, 1013, 1020, 1022, 1007, 1016, 1021,
    1018, 1019, 1023, 1024, 1025, 1014, 1027, 1011],
    false, 47, 8⟩ : SSt) 241 235 120 =
    hsBuild (ltc cAdv) (⟨[
    -214, -6, -7, -8, -9, -10, -11, -12, -13, -14, -15, -16, -17, -18, -19, -20,
    -21, -22, -23, -24, -25, -26, -27, -28, -29, -30, -31, -32, -33, -34, -35, -36,
    -37, -38, -39, -40, -41, -42, -43, -44, -45, -46, -47, -48, -49, -50, -51, -52,
    -53, -54, -55, -56, -57, -58, -59, -60, -61, -62, -63, -64, -65, -3, -2, -218,
    -66, -67, -68, -69, -70, -71, -72, -73, -74, -75, -76, -77, -78, -79, -80, -81,
    -82, -83, -84, -85, -86, -87, -88, -89, -90, -91, -92, -93, -94, -95, -96, -97,
    -98, -99, -100, -101, -102, -103, -104, -105, -106, -107, -108, -109, -110, -111, -112, -113,
    -114, -115, -116, -117, -118, -119, -120, -121, -122, -123, -124, -1, -5, -217, -125, -126,
    -127, -128, -129, -130, -131, -132, -133, -134, -135, -136, -137, -138, -139, -140, -141, -142,
    -143, -144, -145, -146, -147, -148, -149, -150, -151, -152, -153, -154, -155, -156, -157, -158,
    -159, -160, -161, -162, -163, -164, -165, -166, -167, -168, -169, -170, -171, -172, -173, -174,
    -175, -176, -177, -178, -179, -180, -181, -182, -183, -4, -216, -215, -184, -185, -186, -187,
    -188, -189, -190, -191, -192, -193, -194, -195, -196, -197, -198, -199, -200, -201, -202, -203,
    -204, -205, -206, -207, -208, -209, -210, -211, -212, -213, 0, 200, 1003, 300, 1001, 400,
    1004, 500, 1017, 600, 1008, 700, 1010, 800, 1012, 900, 1013, 1020, 1022, 1007, 1016, 1021,
    1018, 1019, 1023, 1024, 1025, 1014, 1027, 1011],
    false, 47, 8⟩ : SSt) 241 235 5 := by
  refine hsBuild_collapse (ltc cAdv) _ 241 235 120 5 (by omega) ?_
  intro i h1 h2
  refine siftDown_id (ltc cAdv) 241 _ i 241 235 ?_ (by decide) ?_
  · show (248 : Nat) ≤ 235 + (2 * i + 1)
    omega
  · by_cases hi : i < 13
    · exact advHeapVals i hi h1
    · rw [get_oob _ _ (by show (248 : Nat) ≤ 235 + i; omega)]
      decide

set_option maxRecDepth 4000 in
set_option maxHeartbeats 4000000 in
theorem advHeap :
    heapSelect (ltc cAdv) (⟨[
    -214, -6, -7, -8, -9, -10, -11, -12, -13, -14, -15, -16, -17, -18, -19, -20,
    -21, -22, -23, -24, -25, -26, -27, -28, -29, -30, -31, -32, -33, -34, -35, -36,
    -37, -38, -39, -40, -41, -42, -43, -44, -45, -46, -47, -48, -49, -50, -51, -52,
    -53, -54, -55, -56, -57, -58, -59, -60, -61, -62, -63, -64, -65, -3, -2, -218,
    -66, -67, -68, -69, -70, -71, -72, -73, -74, -75, -76, -77, -78, -79, -80, -81,
    -82, -83, -84, -85, -86, -87, -88, -89, -90, -91, -92, -93, -94, -95, -96, -97,
    -98, -99, -100, -101, -102, -103, -104, -105, -106, -107, -108, -109, -110, -111, -112, -113,
    -114, -115, -116, -117, -118, -119, -120, -121, -122, -123, -124, -1, -5, -217, -125, -126,
    -127, -128, -129, -130, -131, -132, -133, -134, -135, -136, -137, -138, -139, -140, -141, -142,
    -143, -144, -145, -146, -147, -148, -149, -150, -151, -152, -153, -154, -155, -156, -157, -158,
    -159, -160, -161, -162, -163, -164, -165, -166, -167, -168, -169, -170, -171, -172, -173, -174,
    -175, -176, -177, -178, -179, -180, -181, -182, -183, -4, -216, -215, -184, -185, -186, -187,
    -188, -189, -190, -191, -192, -193, -194, -195, -196, -197, -198, -199, -200, -201, -202, -203,
    -204, -205, -206, -207, -208, -209, -210, -211, -212, -213, 0, 200, 1003, 300, 1001, 400,
    1004, 500, 1017, 600, 1008, 700, 1010, 800, 1012, 900, 1013, 1020, 1022, 1007, 1016, 1021,
    1018, 1019, 1023, 1024, 1025, 1014, 1027, 1011],
    false, 47, 8⟩ : SSt) 235 248 240 =
    (⟨[
    -214, -6, -7, -8, -9, -10, -11, -12, -13, -14, -15, -16, -17, -18, -19, -20,
    -21, -22, -23, -24, -25, -26, -27, -28, -29, -30, -31, -32, -33, -34, -35, -36,
    -37, -38, -39, -40, -41, -42, -43, -44, -45, -46, -47, -48, -49, -50, -51, -52,
    -53, -54, -55, -56, -57, -58, -59, -60, -61, -62, -63, -64, -65, -3, -2, -218,
    -66, -67, -68, -69, -70, -71, -72, -73, -74, -75, -76, -77, -78, -79, -80, -81,
    -82, -83, -84, -85, -86, -87, -88, -89, -90, -91, -92, -93, -94, -95, -96, -97,
    -98, -99, -100, -101, -102, -103, -104, -105, -106, -107, -108, -109, -110, -111, -112, -113,
    -114, -115, -116, -117, -118, -119, -120, -121, -122, -123, -124, -1, -5, -217, -125, -126,
    -127, -128, -129, -130, -131, -132, -133, -134, -135, -136, -137, -138, -139, -140, -141, -142,
    -143, -144, -145, -146, -147, -148, -149, -150, -151, -152, -153, -154, -155, -156, -157, -158,
    -159, -160, -161, -162, -163, -164, -165, -166, -167, -168, -169, -170, -171, -172, -173, -174,
    -175, -176, -177, -178, -179, -180, -181, -182, -183, -4, -216, -215, -184, -185, -186, -187,
    -188, -189, -190, -191, -192, -193, -194, -195, -196, -197, -198, -199, -200, -201, -202, -203,
    -204, -205, -206, -207, -208, -209, -210, -211, -212, -213, 0, 200, 1003, 300, 1001, 400,
    1004, 500, 1017, 600, 1008, 700, 1010, 800, 1012, 900, 1013, 1027, 1025, 1020, 1024, 1022,
    1018, 1019, 1023, 1016, 1021, 1014, 1007, 1011],
    true, 54, 8⟩ : SSt) := by
  simp only [heapSelect]
  show (hsStream (ltc cAdv) 13
      (hsBuild (ltc cAdv) (⟨[
    -214, -6, -7, -8, -9, -10, -11, -12, -13, -14, -15, -16, -17, -18, -19, -20,
    -21, -22, -23, -24, -25, -26, -27, -28, -29, -30, -31, -32, -33, -34, -35, -36,
    -37, -38, -39, -40, -41, -42, -43, -44, -45, -46, -47, -48, -49, -50, -51, -52,
    -53, -54, -55, -56, -57, -58, -59, -60, -61, -62, -63, -64, -65, -3, -2, -218,
    -66, -67, -68, -69, -70, -71, -72, -73, -74, -75, -76, -77, -78, -79, -80, -81,
    -82, -83, -84, -85, -86, -87, -88, -89, -90, -91, -92, -93, -94, -95, -96, -97,
    -98, -99, -100, -101, -102, -103, -104, -105, -106, -107, -108, -109, -110, -111, -112, -113,
    -114, -115, -116, -117, -118, -119, -120, -121, -122, -123, -124, -1, -5, -217, -125, -126,
    -127, -128, -129, -130, -131, -132, -133, -134, -135, -136, -137, -138, -139, -140, -141, -142,
    -143, -144, -145, -146, -147, -148, -149, -150, -151, -152, -153, -154, -155, -156, -157, -158,
    -159, -160, -161, -162, -163, -164, -165, -166, -167, -168, -169, -170, -171, -172, -173, -174,
    -175, -176, -177, -178, -179, -180, -181, -182, -183, -4, -216, -215, -184, -185, -186, -187,
    -188, -189, -190, -191, -192, -193, -194, -195, -196, -197, -198, -199, -200, -201, -202, -203,
    -204, -205, -206, -207, -208, -209, -210, -211, -212, -213, 0, 200, 1003, 300, 1001, 400,
    1004, 500, 1017, 600, 1008, 700, 1010, 800, 1012, 900, 1013, 1020, 1022, 1007, 1016, 1021,
    1018, 1019, 1023, 1024, 1025, 1014, 1027, 1011],
    false, 47, 8⟩ : SSt) 241 235 120) 235 241 13 241).swap 235 475 = _
  rw [advHeapBuildHigh, advHeapBuildLow]
  rw [show ∀ s2 : SSt, hsStream (ltc cAdv) 13 s2 235 241 13 241 = s2 from fun s2 => by
    simp only [hsStream]
    rw [if_neg (by omega)]]
  decide

set_option maxRecDepth 4000 in
set_option maxHeartbeats 4000000 in
theorem advStep10 :
    pdqStepFunc cAdv (⟨[
    -214, -6, -7, -8, -9, -10, -11, -12, -13, -14, -15, -16, -17, -18, -19, -20,
    -21, -22, -23, -24, -25, -26, -27, -28, -29, -30, -31, -32, -33, -34, -35, -36,
    -37, -38, -39, -40, -41, -42, -43, -44, -45, -46, -47, -48, -49, -50, -51, -52,
    -53, -54, -55, -56, -57, -58, -59, -60, -61, -62, -63, -64, -65, -3, -2, -218,
    -66, -67, -68, -69, -70, -71, -72, -73, -74, -75, -76, -77, -78, -79, -80, -81,
    -82, -83, -84, -85, -86, -87, -88, -89, -90, -91, -92, -93, -94, -95, -96, -97,
    -98, -99, -100, -101, -102, -103, -104, -105, -106, -107, -108, -109, -110, -111, -112, -113,
    -114, -115, -116, -117, -118, -119, -120, -121, -122, -123, -124, -1, -5, -217, -125, -126,
    -127, -128, -129, -130, -131, -132, -133, -134, -135, -136, -137, -138, -139, -140, -141, -142,
    -143, -144, -145, -146, -147, -148, -149, -150, -151, -152, -153, -154, -155, -156, -157, -158,
    -159, -160, -161, -162, -163, -164, -165, -166, -167, -168, -169, -170, -171, -172, -173, -174,
    -175, -176, -177, -178, -179, -180, -181, -182, -183, -4, -216, -215, -184, -185, -186, -187,
    -188, -189, -190, -191, -192, -193, -194, -195, -196, -197, -198, -199, -200, -201, -202, -203,
    -204, -205, -206, -207, -208, -209, -210, -211, -212, -213, 0, 200, 1003, 300, 1001, 400,
    1004, 500, 1017, 600, 1008, 700, 1010, 800, 1012, 900, 1013, 1020, 1022, 1007, 1016, 1021,
    1018, 1019, 1023, 1024, 1025, 1014, 1027, 1011],
    false, 47, 8⟩ : SSt)
      235 248 240 0 false false =
    StepRes.done (⟨[
    -214, -6, -7, -8, -9, -10, -11, -12, -13, -14, -15, -16, -17, -18, -19, -20,
    -21, -22, -23, -24, -25, -26, -27, -28, -29, -30, -31, -32, -33, -34, -35, -36,
    -37, -38, -39, -40, -41, -42, -43, -44, -45, -46, -47, -48, -49, -50, -51, -52,
    -53, -54, -55, -56, -57, -58, -59, -60, -61, -62, -63, -64, -65, -3, -2, -218,
    -66, -67, -68, -69, -70, -71, -72, -73, -74, -75, -76, -77, -78, -79, -80, -81,
    -82, -83, -84, -85, -86, -87, -88, -89, -90, -91, -92, -93, -94, -95, -96, -97,
    -98, -99, -100, -101, -102, -103, -104, -105, -106, -107, -108, -109, -110, -111, -112, -113,
    -114, -115, -116, -117, -118, -119, -120, -121, -122, -123, -124, -1, -5, -217, -125, -126,
    -127, -128, -129, -130, -131, -132, -133, -134, -135, -136, -137, -138, -139, -140, -141, -142,
    -143, -144, -145, -146, -147, -148, -149, -150, -151, -152, -153, -154, -155, -156, -157, -158,
    -159, -160, -161, -162, -163, -164, -165, -166, -167, -168, -169, -170, -171, -172, -173, -174,
    -175, -176, -177, -178, -179, -180, -181, -182, -183, -4, -216, -215, -184, -185, -186, -187,
    -188, -189, -190, -191, -192, -193, -194, -195, -196, -197, -198, -199, -200, -201, -202, -203,
    -204, -205, -206, -207, -208, -209, -210, -211, -212, -213, 0, 200, 1003, 300, 1001, 400,
    1004, 500, 1017, 600, 1008, 700, 1010, 800, 1012, 900, 1013, 1027, 1025, 1020, 1024, 1022,
    1018, 1019, 1023, 1016, 1021, 1014, 1007, 1011],
    true, 54, 8⟩ : SSt) := by
  simp only [pdqStepFunc]
  rw [if_neg (by decide), if_pos trivial, advHeap]

set_option maxRecDepth 4000 in
set_option maxHeartbeats 4000000 in
theorem advLoop10 :
    pdqLoopFunc cAdv 240 (⟨[
    -214, -6, -7, -8, -9, -10, -11, -12, -13, -14, -15, -16, -17, -18, -19, -20,
    -21, -22, -23, -24, -25, -26, -27, -28, -29, -30, -31, -32, -33, -34, -35, -36,
    -37, -38, -39, -40, -41, -42, -43, -44, -45, -46, -47, -48, -49, -50, -51, -52,
    -53, -54, -55, -56, -57, -58, -59, -60, -61, -62, -63, -64, -65, -3, -2, -218,
    -66, -67, -68, -69, -70, -71, -72, -73, -74, -75, -76, -77, -78, -79, -80, -81,
    -82, -83, -84, -85, -86, -87, -88, -89, -90, -91, -92, -93, -94, -95, -96, -97,
    -98, -99, -100, -101, -102, -103, -104, -105, -106, -107, -108, -109, -110, -111, -112, -113,
    -114, -115, -116, -117, -118, -119, -120, -121, -122, -123, -124, -1, -5, -217, -125, -126,
    -127, -128, -129, -130, -131, -132, -133, -134, -135, -136, -137, -138, -139, -140, -141, -142,
    -143, -144, -145, -146, -147, -148, -149, -150, -151, -152, -153, -154, -155, -156, -157, -158,
    -159, -160, -161, -162, -163, -164, -165, -166, -167, -168, -169, -170, -171, -172, -173, -174,
    -175, -176, -177, -178, -179, -180, -181, -182, -183, -4, -216, -215, -184, -185, -186, -187,
    -188, -189, -190, -191, -192, -193, -194, -195, -196, -197, -198, -199, -200, -201, -202, -203,
    -204, -205, -206, -207, -208, -209, -210, -211, -212, -213, 0, 200, 1003, 300, 1001, 400,
    1004, 500, 1017, 600, 1008, 700, 1010, 800, 1012, 900, 1013, 1020, 1022, 1007, 1016, 1021,
    1018, 1019, 1023, 1024, 1025, 1014, 1027, 1011],
    false, 47, 8⟩ : SSt)
      235 248 240 0 false false =
    (⟨[
    -214, -6, -7, -8, -9, -10, -11, -12, -13, -14, -15, -16, -17, -18, -19, -20,
    -21, -22, -23, -24, -25, -26, -27, -28, -29, -30, -31, -32, -33, -34, -35, -36,
    -37, -38, -39, -40, -41, -42, -43, -44, -45, -46, -47, -48, -49, -50, -51, -52,
    -53, -54, -55, -56, -57, -58, -59, -60, -61, -62, -63, -64, -65, -3, -2, -218,
    -66, -67, -68, -69, -70, -71, -72, -73, -74, -75, -76, -77, -78, -79, -80, -81,
    -82, -83, -84, -85, -86, -87, -88, -89, -90, -91, -92, -93, -94, -95, -96, -97,
    -98, -99, -100, -101, -102, -103, -104, -105, -106, -107, -108, -109, -110, -111, -112, -113,
    -114, -115, -116, -117, -118, -119, -120, -121, -122, -123, -124, -1, -5, -217, -125, -126,
    -127, -128, -129, -130, -131, -132, -133, -134, -135, -136, -137, -138, -139, -140, -141, -142,
    -143, -144, -145, -146, -147, -148, -149, -150, -151, -152, -153, -154, -155, -156, -157, -158,
    -159, -160, -161, -162, -163, -164, -165, -166, -167, -168, -169, -170, -171, -172, -173, -174,
    -175, -176, -177, -178, -179, -180, -181, -182, -183, -4, -216, -215, -184, -185, -186, -187,
    -188, -189, -190, -191, -192, -193, -194, -195, -196, -197, -198, -199, -200, -201, -202, -203,
    -204, -205, -206, -207, -208, -209, -210, -211, -212, -213, 0, 200, 1003, 300, 1001, 400,
    1004, 500, 1017, 600, 1008, 700, 1010, 800, 1012, 900, 1013, 1027, 1025, 1020, 1024, 1022,
    1018, 1019, 1023, 1016, 1021, 1014, 1007, 1011],
    true, 54, 8⟩ : SSt) := pdqLoopFunc_done cAdv 239 _ _ _ _ _ _ _ _ advStep10

set_option maxRecDepth 4000 in
set_option maxHeartbeats 4000000 in
theorem advLoop9 :
    pdqLoopFunc cAdv 241 (⟨[
    -214, -6, -7, -8, -9, -10, -11, -12, -13, -14, -15, -16, -17, -18, -19, -20,
    -21, -22, -23, -24, -25, -26, -27, -28, -29, -30, -31, -32, -33, -34, -35, -36,
    -37, -38, -39, -40, -41, -42, -43, -44, -45, -46, -47, -48, -49, -50, -51, -52,
    -53, -54, -55, -56, -57, -58, -59, -60, -61, -62, -63, -64, -65, -3, -2, -218,
    -66, -67, -68, -69, -70, -71, -72, -73, -74, -75, -76, -77, -78, -79, -80, -81,
    -82, -83, -84, -85, -86, -87, -88, -89, -90, -91, -92, -93, -94, -95, -96, -97,
    -98, -99, -100, -101, -102, -103, -104, -105, -106, -107, -108, -109, -110, -111, -112, -113,
    -114, -115, -116, -117, -118, -119, -120, -121, -122, -123, -124, -1, -5, -217, -125, -126,
    -127, -128, -129, -130, -131, -132, -133, -134, -135, -136, -137, -138, -139, -140, -141, -142,
    -143, -144, -145, -146, -147, -148, -149, -150, -151, -152, -153, -154, -155, -156, -157, -158,
    -159, -160, -161, -162, -163, -164, -165, -166, -167, -168, -169, -170, -171, -172, -173, -174,
    -175, -176, -177, -178, -179, -180, -181, -182, -183, -4, -216, -215, -184, -185, -186, -187,
    -188, -189, -190, -191, -192, -193, -194, -195, -196, -197, -198, -199, -200, -201, -202, -203,
    -204, -205, -206, -207, -208, -209, -210, -211, -212, -213, 0, 200, 1003, 300, 1001, 400,
    1004, 500, 1017, 600, 1008, 700, 1010, 800, 1012, 1021, 1018, 1020, 1019, 1007, 1016, 900,
    1013, 1022, 1023, 1024, 1025, 1014, 1027, 1011],
    false, 42, 7⟩ : SSt)
      233 248 240 1 false false =
    (⟨[
    -214, -6, -7, -8, -9, -10, -11, -12, -13, -14, -15, -16, -17, -18, -19, -20,
    -21, -22, -23, -24, -25, -26, -27, -28, -29, -30, -31, -32, -33, -34, -35, -36,
    -37, -38, -39, -40, -41, -42, -43, -44, -45, -46, -47, -48, -49, -50, -51, -52,
    -53, -54, -55, -56, -57, -58, -59, -60, -61, -62, -63, -64, -65, -3, -2, -218,
    -66, -67, -68, -69, -70, -71, -72, -73, -74, -75, -76, -77, -78, -79, -80, -81,
    -82, -83, -84, -85, -86, -87, -88, -89, -90, -91, -92, -93, -94, -95, -96, -97,
    -98, -99, -100, -101, -102, -103, -104, -105, -106, -107, -108, -109, -110, -111, -112, -113,
    -114, -115, -116, -117, -118, -119, -120, -121, -122, -123, -124, -1, -5, -217, -125, -126,
    -127, -128, -129, -130, -131, -132, -133, -134, -135, -136, -137, -138, -139, -140, -141, -142,
    -143, -144, -145, -146, -147, -148, -149, -150, -151, -152, -153, -154, -155, -156, -157, -158,
    -159, -160, -161, -162, -163, -164, -165, -166, -167, -168, -169, -170, -171, -172, -173, -174,
    -175, -176, -177, -178, -179, -180, -181, -182, -183, -4, -216, -215, -184, -185, -186, -187,
    -188, -189, -190, -191, -192, -193, -194, -195, -196, -197, -198, -199, -200, -201, -202, -203,
    -204, -205, -206, -207, -208, -209, -210, -211, -212, -213, 0, 200, 1003, 300, 1001, 400,
    1004, 500, 1017, 600, 1008, 700, 1010, 800, 1012, 900, 1013, 1027, 1025, 1020, 1024, 1022,
    1018, 1019, 1023, 1016, 1021, 1014, 1007, 1011],
    true, 54, 8⟩ : SSt) := (pdqLoopFunc_cons cAdv 240 _ _ _ _ _ _ _ _ _ _ _ _ _ advStep9).trans advLoop10

set_option maxRecDepth 4000 in
set_option maxHeartbeats 4000000 in
theorem advLoop8 :
    pdqLoopFunc cAdv 242 (⟨[
    -214, -6, -7, -8, -9, -10, -11, -12, -13, -14, -15, -16, -17, -18, -19, -20,
    -21, -22, -23, -24, -25, -26, -27, -28, -29, -30, -31, -32, -33, -34, -35, -36,
    -37, -38, -39, -40, -41, -42, -43, -44, -45, -46, -47, -48, -49, -50, -51, -52,
    -53, -54, -55, -56, -57, -58, -59, -60, -61, -62, -63, -64, -65, -3, -2, -218,
    -66, -67, -68, -69, -70, -71, -72, -73, -74, -75, -76, -77, -78, -79, -80, -81,
    -82, -83, -84, -85, -86, -87, -88, -89, -90, -91, -92, -93, -94, -95, -96, -97,
    -98, -99, -100, -101, -102, -103, -104, -105, -106, -107, -108, -109, -110, -111, -112, -113,
    -114, -115, -116, -117, -118, -119, -120, -121, -122, -123, -124, -1, -5, -217, -125, -126,
    -127, -128, -129, -130, -131, -132, -133, -134, -135, -136, -137, -138, -139, -140, -141, -142,
    -143, -144, -145, -146, -147, -148, -149, -150, -151, -152, -153, -154, -155, -156, -157, -158,
    -159, -160, -161, -162, -163, -164, -165, -166, -167, -168, -169, -170, -171, -172, -173, -174,
    -175, -176, -177, -178, -179, -180, -181, -182, -183, -4, -216, -215, -184, -185, -186, -187,
    -188, -189, -190, -191, -192, -193, -194, -195, -196, -197, -198, -199, -200, -201, -202, -203,
    -204, -205, -206, -207, -208, -209, -210, -211, -212, -213, 0, 200, 1003, 300, 1001, 400,
    1004, 500, 1017, 600, 1008, 700, 1010, 1012, 800, 1013, 1018, 1020, 1019, 1007, 1011, 900,
    1021, 1022, 1023, 1024, 1025, 1014, 1027, 1016],
    false, 37, 6⟩ : SSt)
      231 248 240 2 false false =
    (⟨[
    -214, -6, -7, -8, -9, -10, -11, -12, -13, -14, -15, -16, -17, -18, -19, -20,
    -21, -22, -23, -24, -25, -26, -27, -28, -29, -30, -31, -32, -33, -34, -35, -36,
    -37, -38, -39, -40, -41, -42, -43, -44, -45, -46, -47, -48, -49, -50, -51, -52,
    -53, -54, -55, -56, -57, -58, -59, -60, -61, -62, -63, -64, -65, -3, -2, -218,
    -66, -67, -68, -69, -70, -71, -72, -73, -74, -75, -76, -77, -78, -79, -80, -81,
    -82, -83, -84, -85, -86, -87, -88, -89, -90, -91, -92, -93, -94, -95, -96, -97,
    -98, -99, -100, -101, -102, -103, -104, -105, -106, -107, -108, -109, -110, -111, -112, -113,
    -114, -115, -116, -117, -118, -119, -120, -121, -122, -123, -124, -1, -5, -217, -125, -126,
    -127, -128, -129, -130, -131, -132, -133, -134, -135, -136, -137, -138, -139, -140, -141, -142,
    -143, -144, -145, -146, -147, -148, -149, -150, -151, -152, -153, -154, -155, -156, -157, -158,
    -159, -160, -161, -162, -163, -164, -165, -166, -167, -168, -169, -170, -171, -172, -173, -174,
    -175, -176, -177, -178, -179, -180, -181, -182, -183, -4, -216, -215, -184, -185, -186, -187,
    -188, -189, -190, -191, -192, -193, -194, -195, -196, -197, -198, -199, -200, -201, -202, -203,
    -204, -205, -206, -207, -208, -209, -210, -211, -212, -213, 0, 200, 1003, 300, 1001, 400,
    1004, 500, 1017, 600, 1008, 700, 1010, 800, 1012, 900, 1013, 1027, 1025, 1020, 1024, 1022,
    1018, 1019, 1023, 1016, 1021, 1014, 1007, 1011],
    true, 54, 8⟩ : SSt) := (pdqLoopFunc_cons cAdv 241 _ _ _ _ _ _ _ _ _ _ _ _ _ advStep8).trans advLoop9

set_option maxRecDepth 4000 in
set_option maxHeartbeats 4000000 in
theorem advLoop7 :
    pdqLoopFunc cAdv 243 (⟨[
    -214, -6, -7, -8, -9, -10, -11, -12, -13, -14, -15, -16, -17, -18, -19, -20,
    -21, -22, -23, -24, -25, -26, -27, -28, -29, -30, -31, -32, -33, -34, -35, -36,
    -37, -38, -39, -40, -41, -42, -43, -44, -45, -46, -47, -48, -49, -50, -51, -52,
    -53, -54, -55, -56, -57, -58, -59, -60, -61, -62, -63, -64, -65, -3, -2, -218,
    -66, -67, -68, -69, -70, -71, -72, -73, -74, -75, -76, -77, -78, -79, -80, -81,
    -82, -83, -84, -85, -86, -87, -88, -89, -90, -91, -92, -93, -94, -95, -96, -97,
    -98, -99, -100, -101, -102, -103, -104, -105, -106, -107, -108, -109, -110, -111, -112, -113,
    -114, -115, -116, -117, -118, -119, -120, -121, -122, -123, -124, -1, -5, -217, -125, -126,
    -127, -128, -129, -130, -131, -132, -133, -134, -135, -136, -137, -138, -139, -140, -141, -142,
    -143, -144, -145, -146, -147, -148, -149, -150, -151, -152, -153, -154, -155, -156, -157, -158,
    -159, -160, -161, -162, -163, -164, -165, -166, -167, -168, -169, -170, -171, -172, -173, -174,
    -175, -176, -177, -178, -179, -180, -181, -182, -183, -4, -216, -215, -184, -185, -186, -187,
    -188, -189, -190, -191, -192, -193, -194, -195, -196, -197, -198, -199, -200, -201, -202, -203,
    -204, -205, -206, -207, -208, -209, -210, -211, -212, -213, 0, 200, 1003, 300, 1001, 400,
    1004, 500, 1017, 600, 1008, 1010, 1011, 1012, 800, 1013, 1018, 900, 1019, 1016, 1014, 1020,
    1021, 1022, 1023, 1024, 1025, 700, 1027, 1007],
    false, 32, 5⟩ : SSt)
      229 248 240 3 false false =
    (⟨[
    -214, -6, -7, -8, -9, -10, -11, -12, -13, -14, -15, -16, -17, -18, -19, -20,
    -21, -22, -23, -24, -25, -26, -27, -28, -29, -30, -31, -32, -33, -34, -35, -36,
    -37, -38, -39, -40, -41, -42, -43, -44, -45, -46, -47, -48, -49, -50, -51, -52,
    -53, -54, -55, -56, -57, -58, -59, -60, -61, -62, -63, -64, -65, -3, -2, -218,
    -66, -67, -68, -69, -70, -71, -72, -73, -74, -75, -76, -77, -78, -79, -80, -81,
    -82, -83, -84, -85, -86, -87, -88, -89, -90, -91, -92, -93, -94, -95, -96, -97,
    -98, -99, -100, -101, -102, -103, -104, -105, -106, -107, -108, -109, -110, -111, -112, -113,
    -114, -115, -116, -117, -118, -119, -120, -121, -122, -123, -124, -1, -5, -217, -125, -126,
    -127, -128, -129, -130, -131, -132, -133, -134, -135, -136, -137, -138, -139, -140, -141, -142,
    -143, -144, -145, -146, -147, -148, -149, -150, -151, -152, -153, -154, -155, -156, -157, -158,
    -159, -160, -161, -162, -163, -164, -165, -166, -167, -168, -169, -170, -171, -172, -173, -174,
    -175, -176, -177, -178, -179, -180, -181, -182, -183, -4, -216, -215, -184, -185, -186, -187,
    -188, -189, -190, -191, -192, -193, -194, -195, -196, -197, -198, -199, -200, -201, -202, -203,
    -204, -205, -206, -207, -208, -209, -210, -211, -212, -213, 0, 200, 1003, 300, 1001, 400,
    1004, 500, 1017, 600, 1008, 700, 1010, 800, 1012, 900, 1013, 1027, 1025, 1020, 1024, 1022,
    1018, 1019, 1023, 1016, 1021, 1014, 1007, 1011],
    true, 54, 8⟩ : SSt) := (pdqLoopFunc_cons cAdv 242 _ _ _ _ _ _ _ _ _ _ _ _ _ advStep7).trans advLoop8

set_option maxRecDepth 4000 in
set_option maxHeartbeats 4000000 in
theorem advLoop6 :
    pdqLoopFunc cAdv 244 (⟨[
    -214, -6, -7, -8, -9, -10, -11, -12, -13, -14, -15, -16, -17, -18, -19, -20,
    -21, -22, -23, -24, -25, -26, -27, -28, -29, -30, -31, -32, -33, -34, -35, -36,
    -37, -38, -39, -40, -41, -42, -43, -44, -45, -46, -47, -48, -49, -50, -51, -52,
    -53, -54, -55, -56, -57, -58, -59, -60, -61, -62, -63, -64, -65, -3, -2, -218,
    -66, -67, -68, -69, -70, -71, -72, -73, -74, -75, -76, -77, -78, -79, -80, -81,
    -82, -83, -84, -85, -86, -87, -88, -89, -90, -91, -92, -93, -94, -95, -96, -97,
    -98, -99, -100, -101, -102, -103, -104, -105, -106, -107, -108, -109, -110, -111, -112, -113,
    -114, -115, -116, -117, -118, -119, -120, -121, -122, -123, -124, -1, -5, -217, -125, -126,
    -127, -128, -129, -130, -131, -132, -133, -134, -135, -136, -137, -138, -139, -140, -141, -142,
    -143, -144, -145, -146, -147, -148, -149, -150, -151, -152, -153, -154, -155, -156, -157, -158,
    -159, -160, -161, -162, -163, -164, -165, -166, -167, -168, -169, -170, -171, -172, -173, -174,
    -175, -176, -177, -178, -179, -180, -181, -182, -183, -4, -216, -215, -184, -185, -186, -187,
    -188, -189, -190, -191, -192, -193, -194, -195, -196, -197, -198, -199, -200, -201, -202, -203,
    -204, -205, -206, -207, -208, -209, -210, -211, -212, -213, 0, 200, 1003, 300, 1001, 400,
    1004, 500, 1017, 1008, 600, 1010, 1011, 1012, 800, 1013, 1014, 900, 1007, 1016, 1018, 1020,
    1021, 1022, 1023, 1024, 1025, 700, 1027, 1019],
    false, 27, 4⟩ : SSt)
      227 248 240 4 false false =
    (⟨[
    -214, -6, -7, -8, -9, -10, -11, -12, -13, -14, -15, -16, -17, -18, -19, -20,
    -21, -22, -23, -24, -25, -26, -27, -28, -29, -30, -31, -32, -33, -34, -35, -36,
    -37, -38, -39, -40, -41, -42, -43, -44, -45, -46, -47, -48, -49, -50, -51, -52,
    -53, -54, -55, -56, -57, -58, -59, -60, -61, -62, -63, -64, -65, -3, -2, -218,
    -66, -67, -68, -69, -70, -71, -72, -73, -74, -75, -76, -77, -78, -79, -80, -81,
    -82, -83, -84, -85, -86, -87, -88, -89, -90, -91, -92, -93, -94, -95, -96, -97,
    -98, -99, -100, -101, -102, -103, -104, -105, -106, -107, -108, -109, -110, -111, -112, -113,
    -114, -115, -116, -117, -118, -119, -120, -121, -122, -123, -124, -1, -5, -217, -125, -126,
    -127, -128, -129, -130, -131, -132, -133, -134, -135, -136, -137, -138, -139, -140, -141, -142,
    -143, -144, -145, -146, -147, -148, -149, -150, -151, -152, -153, -154, -155, -156, -157, -158,
    -159, -160, -161, -162, -163, -164, -165, -166, -167, -168, -169, -170, -171, -172, -173, -174,
    -175, -176, -177, -178, -179, -180, -181, -182, -183, -4, -216, -215, -184, -185, -186, -187,
    -188, -189, -190, -191, -192, -193, -194, -195, -196, -197, -198, -199, -200, -201, -202, -203,
    -204, -205, -206, -207, -208, -209, -210, -211, -212, -213, 0, 200, 1003, 300, 1001, 400,
    1004, 500, 1017, 600, 1008, 700, 1010, 800, 1012, 900, 1013, 1027, 1025, 1020, 1024, 1022,
    1018, 1019, 1023, 1016, 1021, 1014, 1007, 1011],
    true, 54, 8⟩ : SSt) := (pdqLoopFunc_cons cAdv 243 _ _ _ _ _ _ _ _ _ _ _ _ _ advStep6).trans advLoop7

set_option maxRecDepth 4000 in
set_option maxHeartbeats 4000000 in
theorem advLoop5 :
    pdqLoopFunc cAdv 245 (⟨[
    -214, -6, -7, -8, -9, -10, -11, -12, -13, -14, -15, -16, -17, -18, -19, -20,
    -21, -22, -23, -24, -25, -26, -27, -28, -29, -30, -31, -32, -33, -34, -35, -36,
    -37, -38, -39, -40, -41, -42, -43, -44, -45, -46, -47, -48, -49, -50, -51, -52,
    -53, -54, -55, -56, -57, -58, -59, -60, -61, -62, -63, -64, -65, -3, -2, -218,
    -66, -67, -68, -69, -70, -71, -72, -73, -74, -75, -76, -77, -78, -79, -80, -81,
    -82, -83, -84, -85, -86, -87, -88, -89, -90, -91, -92, -93, -94, -95, -96, -97,
    -98, -99, -100, -101, -102, -103, -104, -105, -106, -107, -108, -109, -110, -111, -112, -113,
    -114, -115, -116, -117, -118, -119, -120, -121, -122, -123, -124, -1, -5, -217, -125, -126,
    -127, -128, -129, -130, -131, -132, -133, -134, -135, -136, -137, -138, -139, -140, -141, -142,
    -143, -144, -145, -146, -147, -148, -149, -150, -151, -152, -153, -154, -155, -156, -157, -158,
    -159, -160, -161, -162, -163, -164, -165, -166, -167, -168, -169, -170, -171, -172, -173, -174,
    -175, -176, -177, -178, -179, -180, -181, -182, -183, -4, -216, -215, -184, -185, -186, -187,
    -188, -189, -190, -191, -192, -193, -194, -195, -196, -197, -198, -199, -200, -201, -202, -203,
    -204, -205, -206, -207, -208, -209, -210, -211, -212, -213, 0, 200, 1003, 300, 1001, 400,
    1004, 1017, 1007, 1008, 600, 1010, 1011, 1012, 800, 1013, 1014, 1019, 700, 1018, 1016, 1020,
    1021, 1022, 1023, 1024, 1025, 500, 1027, 900],
    false, 22, 3⟩ : SSt)
      225 248 240 5 false false =
    (⟨[
    -214, -6, -7, -8, -9, -10, -11, -12, -13, -14, -15, -16, -17, -18, -19, -20,
    -21, -22, -23, -24, -25, -26, -27, -28, -29, -30, -31, -32, -33, -34, -35, -36,
    -37, -38, -39, -40, -41, -42, -43, -44, -45, -46, -47, -48, -49, -50, -51, -52,
    -53, -54, -55, -56, -57, -58, -59, -60, -61, -62, -63, -64, -65, -3, -2, -218,
    -66, -67, -68, -69, -70, -71, -72, -73, -74, -75, -76, -77, -78, -79, -80, -81,
    -82, -83, -84, -85, -86, -87, -88, -89, -90, -91, -92, -93, -94, -95, -96, -97,
    -98, -99, -100, -101, -102, -103, -104, -105, -106, -107, -108, -109, -110, -111, -112, -113,
    -114, -115, -116, -117, -118, -119, -120, -121, -122, -123, -124, -1, -5, -217, -125, -126,
    -127, -128, -129, -130, -131, -132, -133, -134, -135, -136, -137, -138, -139, -140, -141, -142,
    -143, -144, -145, -146, -147, -148, -149, -150, -151, -152, -153, -154, -155, -156, -157, -158,
    -159, -160, -161, -162, -163, -164, -165, -166, -167, -168, -169, -170, -171, -172, -173, -174,
    -175, -176, -177, -178, -179, -180, -181, -182, -183, -4, -216, -215, -184, -185, -186, -187,
    -188, -189, -190, -191, -192, -193, -194, -195, -196, -197, -198, -199, -200, -201, -202, -203,
    -204, -205, -206, -207, -208, -209, -210, -211, -212, -213, 0, 200, 1003, 300, 1001, 400,
    1004, 500, 1017, 600, 1008, 700, 1010, 800, 1012, 900, 1013, 1027, 1025, 1020, 1024, 1022,
    1018, 1019, 1023, 1016, 1021, 1014, 1007, 1011],
    true, 54, 8⟩ : SSt) := (pdqLoopFunc_cons cAdv 244 _ _ _ _ _ _ _ _ _ _ _ _ _ advStep5).trans advLoop6

set_option maxRecDepth 4000 in
set_option maxHeartbeats 4000000 in
theorem advLoop4 :
    pdqLoopFunc cAdv 246 (⟨[
    -214, -6, -7, -8, -9, -10, -11, -12, -13, -14, -15, -16, -17, -18, -19, -20,
    -21, -22, -23, -24, -25, -26, -27, -28, -29, -30, -31, -32, -33, -34, -35, -36,
    -37, -38, -39, -40, -41, -42, -43, -44, -45, -46, -47, -48, -49, -50, -51, -52,
    -53, -54, -55, -56, -57, -58, -59, -60, -61, -62, -63, -64, -65, -3, -2, -218,
    -66, -67, -68, -69, -70, -71, -72, -73, -74, -75, -76, -77, -78, -79, -80, -81,
    -82, -83, -84, -85, -86, -87, -88, -89, -90, -91, -92, -93, -94, -95, -96, -97,
    -98, -99, -100, -101, -102, -103, -104, -105, -106, -107, -108, -109, -110, -111, -112, -113,
    -114, -115, -116, -117, -118, -119, -120, -121, -122, -123, -124, -1, -5, -217, -125, -126,
    -127, -128, -129, -130, -131, -132, -133, -134, -135, -136, -137, -138, -139, -140, -141, -142,
    -143, -144, -145, -146, -147, -148, -149, -150, -151, -152, -153, -154, -155, -156, -157, -158,
    -159, -160, -161, -162, -163, -164, -165, -166, -167, -168, -169, -170, -171, -172, -173, -174,
    -175, -176, -177, -178, -179, -180, -181, -182, -183, -4, -216, -215, -184, -185, -186, -187,
    -188, -189, -190, -191, -192, -193, -194, -195, -196, -197, -198, -199, -200, -201, -202, -203,
    -204, -205, -206, -207, -208, -209, -210, -211, -212, -213, 0, 200, 1003, 300, 1001, 1004,
    400, 700, 1007, 1008, 600, 1010, 1011, 1012, 800, 1013, 900, 1019, 1017, 1018, 1016, 1020,
    1021, 1022, 1023, 1024, 1025, 500, 1027, 1014],
    false, 17, 2⟩ : SSt)
      223 248 240 6 false false =
    (⟨[
    -214, -6, -7, -8, -9, -10, -11, -12, -13, -14, -15, -16, -17, -18, -19, -20,
    -21, -22, -23, -24, -25, -26, -27, -28, -29, -30, -31, -32, -33, -34, -35, -36,
    -37, -38, -39, -40, -41, -42, -43, -44, -45, -46, -47, -48, -49, -50, -51, -52,
    -53, -54, -55, -56, -57, -58, -59, -60, -61, -62, -63, -64, -65, -3, -2, -218,
    -66, -67, -68, -69, -70, -71, -72, -73, -74, -75, -76, -77, -78, -79, -80, -81,
    -82, -83, -84, -85, -86, -87, -88, -89, -90, -91, -92, -93, -94, -95, -96, -97,
    -98, -99, -100, -101, -102, -103, -104, -105, -106, -107, -108, -109, -110, -111, -112, -113,
    -114, -115, -116, -117, -118, -119, -120, -121, -122, -123, -124, -1, -5, -217, -125, -126,
    -127, -128, -129, -130, -131, -132, -133, -134, -135, -136, -137, -138, -139, -140, -141, -142,
    -143, -144, -145, -146, -147, -148, -149, -150, -151, -152, -153, -154, -155, -156, -157, -158,
    -159, -160, -161, -162, -163, -164, -165, -166, -167, -168, -169, -170, -171, -172, -173, -174,
    -175, -176, -177, -178, -179, -180, -181, -182, -183, -4, -216, -215, -184, -185, -186, -187,
    -188, -189, -190, -191, -192, -193, -194, -195, -196, -197, -198, -199, -200, -201, -202, -203,
    -204, -205, -206, -207, -208, -209, -210, -211, -212, -213, 0, 200, 1003, 300, 1001, 400,
    1004, 500, 1017, 600, 1008, 700, 1010, 800, 1012, 900, 1013, 1027, 1025, 1020, 1024, 1022,
    1018, 1019, 1023, 1016, 1021, 1014, 1007, 1011],
    true, 54, 8⟩ : SSt) := (pdqLoopFunc_cons cAdv 245 _ _ _ _ _ _ _ _ _ _ _ _ _ advStep4).trans advLoop5

set_option maxRecDepth 4000 in
set_option maxHeartbeats 4000000 in
theorem advLoop3 :
    pdqLoopFunc cAdv 247 (⟨[
    -214, -6, -7, -8, -9, -10, -11, -12, -13, -14, -15, -16, -17, -18, -19, -20,
    -21, -22, -23, -24, -25, -26, -27, -28, -29, -30, -31, -32, -33, -34, -35, -36,
    -37, -38, -39, -40, -41, -42, -43, -44, -45, -46, -47, -48, -49, -50, -51, -52,
    -53, -54, -55, -56, -57, -58, -59, -60, -61, -62, -63, -64, -65, -3, -2, -218,
    -66, -67, -68, -69, -70, -71, -72, -73, -74, -75, -76, -77, -78, -79, -80, -81,
    -82, -83, -84, -85, -86, -87, -88, -89, -90, -91, -92, -93, -94, -95, -96, -97,
    -98, -99, -100, -101, -102, -103, -104, -105, -106, -107, -108, -109, -110, -111, -112, -113,
    -114, -115, -116, -117, -118, -119, -120, -121, -122, -123, -124, -1, -5, -217, -125, -126,
    -127, -128, -129, -130, -131, -132, -133, -134, -135, -136, -137, -138, -139, -140, -141, -142,
    -143, -144, -145, -146, -147, -148, -149, -150, -151, -152, -153, -154, -155, -156, -157, -158,
    -159, -160, -161, -162, -163, -164, -165, -166, -167, -168, -169, -170, -171, -172, -173, -174,
    -175, -176, -177, -178, -179, -180, -181, -182, -183, -4, -216, -215, -184, -185, -186, -187,
    -188, -189, -190, -191, -192, -193, -194, -195, -196, -197, -198, -199, -200, -201, -202, -203,
    -204, -205, -206, -207, -208, -209, -210, -211, -212, -213, 0, 200, 1003, 1001, 900, 1004,
    400, 700, 1007, 1008, 600, 1010, 1011, 1012, 800, 1014, 500, 1016, 1017, 1018, 1019, 1020,
    1021, 1022, 1023, 1024, 1025, 300, 1027, 1013],
    false, 12, 1⟩ : SSt)
      221 248 240 7 false false =
    (⟨[
    -214, -6, -7, -8, -9, -10, -11, -12, -13, -14, -15, -16, -17, -18, -19, -20,
    -21, -22, -23, -24, -25, -26, -27, -28, -29, -30, -31, -32, -33, -34, -35, -36,
    -37, -38, -39, -40, -41, -42, -43, -44, -45, -46, -47, -48, -49, -50, -51, -52,
    -53, -54, -55, -56, -57, -58, -59, -60, -61, -62, -63, -64, -65, -3, -2, -218,
    -66, -67, -68, -69, -70, -71, -72, -73, -74, -75, -76, -77, -78, -79, -80, -81,
    -82, -83, -84, -85, -86, -87, -88, -89, -90, -91, -92, -93, -94, -95, -96, -97,
    -98, -99, -100, -101, -102, -103, -104, -105, -106, -107, -108, -109, -110, -111, -112, -113,
    -114, -115, -116, -117, -118, -119, -120, -121, -122, -123, -124, -1, -5, -217, -125, -126,
    -127, -128, -129, -130, -131, -132, -133, -134, -135, -136, -137, -138, -139, -140, -141, -142,
    -143, -144, -145, -146, -147, -148, -149, -150, -151, -152, -153, -154, -155, -156, -157, -158,
    -159, -160, -161, -162, -163, -164, -165, -166, -167, -168, -169, -170, -171, -172, -173, -174,
    -175, -176, -177, -178, -179, -180, -181, -182, -183, -4, -216, -215, -184, -185, -186, -187,
    -188, -189, -190, -191, -192, -193, -194, -195, -196, -197, -198, -199, -200, -201, -202, -203,
    -204, -205, -206, -207, -208, -209, -210, -211, -212, -213, 0, 200, 1003, 300, 1001, 400,
    1004, 500, 1017, 600, 1008, 700, 1010, 800, 1012, 900, 1013, 1027, 1025, 1020, 1024, 1022,
    1018, 1019, 1023, 1016, 1021, 1014, 1007, 1011],
    true, 54, 8⟩ : SSt) := (pdqLoopFunc_cons cAdv 246 _ _ _ _ _ _ _ _ _ _ _ _ _ advStep3).trans advLoop4

set_option maxRecDepth 4000 in
set_option maxHeartbeats 4000000 in
theorem advLoop2 :
    pdqLoopFunc cAdv 248 (⟨[
    -214, -6, -7, -8, -9, -10, -11, -12, -13, -14, -15, -16, -17, -18, -19, -20,
    -21, -22, -23, -24, -25, -26, -27, -28, -29, -30, -31, -32, -33, -34, -35, -36,
    -37, -38, -39, -40, -41, -42, -43, -44, -45, -46, -47, -48, -49, -50, -51, -52,
    -53, -54, -55, -56, -57, -58, -59, -60, -61, -62, -63, -64, -65, -3, -2, -218,
    -66, -67, -68, -69, -70, -71, -72, -73, -74, -75, -76, -77, -78, -79, -80, -81,
    -82, -83, -84, -85, -86, -87, -88, -89, -90, -91, -92, -93, -94, -95, -96, -97,
    -98, -99, -100, -101, -102, -103, -104, -105, -106, -107, -108, -109, -110, -111, -112, -113,
    -114, -115, -116, -117, -118, -119, -120, -121, -122, -123, -124, -1, -5, -217, -125, -126,
    -127, -128, -129, -130, -131, -132, -133, -134, -135, -136, -137, -138, -139, -140, -141, -142,
    -143, -144, -145, -146, -147, -148, -149, -150, -151, -152, -153, -154, -155, -156, -157, -158,
    -159, -160, -161, -162, -163, -164, -165, -166, -167, -168, -169, -170, -171, -172, -173, -174,
    -175, -176, -177, -178, -179, -180, -181, -182, -183, -4, -216, -215, -184, -185, -186, -187,
    -188, -189, -190, -191, -192, -193, -194, -195, -196, -197, -198, -199, -200, -201, -202, -203,
    -204, -205, -206, -207, -208, -209, -210, -211, -212, -213, 0, 1003, 200, 1001, 900, 1004,
    400, 700, 1007, 1008, 600, 1010, 1011, 1012, 1013, 1014, 500, 1016, 1017, 1018, 1019, 1020,
    1021, 1022, 1023, 1024, 1025, 300, 1027, 800],
    false, 7, 0⟩ : SSt)
      219 248 240 8 false false =
    (⟨[
    -214, -6, -7, -8, -9, -10, -11, -12, -13, -14, -15, -16, -17, -18, -19, -20,
    -21, -22, -23, -24, -25, -26, -27, -28, -29, -30, -31, -32, -33, -34, -35, -36,
    -37, -38, -39, -40, -41, -42, -43, -44, -45, -46, -47, -48, -49, -50, -51, -52,
    -53, -54, -55, -56, -57, -58, -59, -60, -61, -62, -63, -64, -65, -3, -2, -218,
    -66, -67, -68, -69, -70, -71, -72, -73, -74, -75, -76, -77, -78, -79, -80, -81,
    -82, -83, -84, -85, -86, -87, -88, -89, -90, -91, -92, -93, -94, -95, -96, -97,
    -98, -99, -100, -101, -102, -103, -104, -105, -106, -107, -108, -109, -110, -111, -112, -113,
    -114, -115, -116, -117, -118, -119, -120, -121, -122, -123, -124, -1, -5, -217, -125, -126,
    -127, -128, -129, -130, -131, -132, -133, -134, -135, -136, -137, -138, -139, -140, -141, -142,
    -143, -144, -145, -146, -147, -148, -149, -150, -151, -152, -153, -154, -155, -156, -157, -158,
    -159, -160, -161, -162, -163, -164, -165, -166, -167, -168, -169, -170, -171, -172, -173, -174,
    -175, -176, -177, -178, -179, -180, -181, -182, -183, -4, -216, -215, -184, -185, -186, -187,
    -188, -189, -190, -191, -192, -193, -194, -195, -196, -197, -198, -199, -200, -201, -202, -203,
    -204, -205, -206, -207, -208, -209, -210, -211, -212, -213, 0, 200, 1003, 300, 1001, 400,
    1004, 500, 1017, 600, 1008, 700, 1010, 800, 1012, 900, 1013, 1027, 1025, 1020, 1024, 1022,
    1018, 1019, 1023, 1016, 1021, 1014, 1007, 1011],
    true, 54, 8⟩ : SSt) := (pdqLoopFunc_cons cAdv 247 _ _ _ _ _ _ _ _ _ _ _ _ _ advStep2).trans advLoop3

set_option maxRecDepth 4000 in
set_option maxHeartbeats 4000000 in
theorem advLoop1 :
    pdqLoopFunc cAdv 249 (mkS advList)
      0 248 240 8 true true =
    (⟨[
    -214, -6, -7, -8, -9, -10, -11, -12, -13, -14, -15, -16, -17, -18, -19, -20,
    -21, -22, -23, -24, -25, -26, -27, -28, -29, -30, -31, -32, -33, -34, -35, -36,
    -37, -38, -39, -40, -41, -42, -43, -44, -45, -46, -47, -48, -49, -50, -51, -52,
    -53, -54, -55, -56, -57, -58, -59, -60, -61, -62, -63, -64, -65, -3, -2, -218,
    -66, -67, -68, -69, -70, -71, -72, -73, -74, -75, -76, -77, -78, -79, -80, -81,
    -82, -83, -84, -85, -86, -87, -88, -89, -90, -91, -92, -93, -94, -95, -96, -97,
    -98, -99, -100, -101, -102, -103, -104, -105, -106, -107, -108, -109, -110, -111, -112, -113,
    -114, -115, -116, -117, -118, -119, -120, -121, -122, -123, -124, -1, -5, -217, -125, -126,
    -127, -128, -129, -130, -131, -132, -133, -134, -135, -136, -137, -138, -139, -140, -141, -142,
    -143, -144, -145, -146, -147, -148, -149, -150, -151, -152, -153, -154, -155, -156, -157, -158,
    -159, -160, -161, -162, -163, -164, -165, -166, -167, -168, -169, -170, -171, -172, -173, -174,
    -175, -176, -177, -178, -179, -180, -181, -182, -183, -4, -216, -215, -184, -185, -186, -187,
    -188, -189, -190, -191, -192, -193, -194, -195, -196, -197, -198, -199, -200, -201, -202, -203,
    -204, -205, -206, -207, -208, -209, -210, -211, -212, -213, 0, 200, 1003, 300, 1001, 400,
    1004, 500, 1017, 600, 1008, 700, 1010, 800, 1012, 900, 1013, 1027, 1025, 1020, 1024, 1022,
    1018, 1019, 1023, 1016, 1021, 1014, 1007, 1011],
    true, 54, 8⟩ : SSt) := (pdqLoopFunc_cons cAdv 248 _ _ _ _ _ _ _ _ _ _ _ _ _ advStep1).trans advLoop2

set_option maxRecDepth 4000 in
set_option maxHeartbeats 4000000 in
theorem advRun :
    goFunc advList 241 cAdv =
    (⟨[
    -214, -6, -7, -8, -9, -10, -11, -12, -13, -14, -15, -16, -17, -18, -19, -20,
    -21, -22, -23, -24, -25, -26, -27, -28, -29, -30, -31, -32, -33, -34, -35, -36,
    -37, -38, -39, -40, -41, -42, -43, -44, -45, -46, -47, -48, -49, -50, -51, -52,
    -53, -54, -55, -56, -57, -58, -59, -60, -61, -62, -63, -64, -65, -3, -2, -218,
    -66, -67, -68, -69, -70, -71, -72, -73, -74, -75, -76, -77, -78, -79, -80, -81,
    -82, -83, -84, -85, -86, -87, -88, -89, -90, -91, -92, -93, -94, -95, -96, -97,
    -98, -99, -100, -101, -102, -103, -104, -105, -106, -107, -108, -109, -110, -111, -112, -113,
    -114, -115, -116, -117, -118, -119, -120, -121, -122, -123, -124, -1, -5, -217, -125, -126,
    -127, -128, -129, -130, -131, -132, -133, -134, -135, -136, -137, -138, -139, -140, -141, -142,
    -143, -144, -145, -146, -147, -148, -149, -150, -151, -152, -153, -154, -155, -156, -157, -158,
    -159, -160, -161, -162, -163, -164, -165, -166, -167, -168, -169, -170, -171, -172, -173, -174,
    -175, -176, -177, -178, -179, -180, -181, -182, -183, -4, -216, -215, -184, -185, -186, -187,
    -188, -189, -190, -191, -192, -193, -194, -195, -196, -197, -198, -199, -200, -201, -202, -203,
    -204, -205, -206, -207, -208, -209, -210, -211, -212, -213, 0, 200, 1003, 300, 1001, 400,
    1004, 500, 1017, 600, 1008, 700, 1010, 800, 1012, 900, 1013, 1027, 1025, 1020, 1024, 1022,
    1018, 1019, 1023, 1016, 1021, 1014, 1007, 1011],
    true, 54, 8⟩ : SSt) := by
  have e1 : advList.length = 248 := rfl
  have h : goFunc advList 241 cAdv =
      pdqLoopFunc cAdv 249 (mkS advList) 0 248 240 8 true true := by
    rw [goFunc_in_range advList 241 cAdv (by norm_num) (by rw [e1]; norm_num), e1]
    have e2 : ((241 : Int) - 1).toNat = 240 := rfl
    have e3 : bitsLen 248 = 8 := rfl
    rw [e2, e3]
    unfold pdqselectFuncGo
    rw [if_neg (by norm_num), if_neg (by norm_num)]
  rw [h]
  exact advLoop1

/-- C2 (refuted): with the adversarial comparator `cAdv`, the public `Func`
entry point on the 248-element input `advList` with `k = 241` requests a swap
outside `[0, N)`: the budget reaches 0 on `[235, 248)` and `heapSelect`
receives the absolute target index 240, so its final `Swap(a, a+k)` touches
index 475.  In Go this is an out-of-range access (panic). -/
theorem c2_heap_oob : (goFunc advList 241 cAdv).bad = true := by
  rw [advRun]

set_option maxRecDepth 4000 in
/-- C5 (counterexample): on `advList` with comparator `cAdv` and `k = 241`
the driver performs 8 pattern-break iterations, exceeding the claimed bound
of `Nat.log2 248 = 7`: the budget starts at `bits.Len(248) = 8`, one more
than the spec's `floor(log2 N)`. -/
theorem c5_counterexample :
    Nat.log2 advList.length < (goFunc advList 241 cAdv).breaks := by
  rw [advRun]
  show Nat.log2 advList.length < 8
  have e1 : advList.length = 248 := rfl
  have e2 : bitsLenAux 248 248 = Nat.log2 248 + 1 :=
    bitsLenAux_eq 248 248 (by norm_num) (le_refl _)
  have e3 : bitsLenAux 248 248 = 8 := rfl
  rw [e1]
  omega

end Pdq
